import Mathlib

/-!
Verification development for the UFDR ingestion pipeline
(`backend/app/services/ufdr_ingest.py`, `backend/app/utils/graph.py`,
`backend/app/db.py`, `backend/app/utils/file_ops.py`,
`backend/app/services/graph.py`, `backend/app/services/vector_store.py`).

The Python sources are shallowly embedded: pure helpers become Lean
functions; the SQLite ledger, the Neo4j graph store and the Chroma
vector store become explicit state values threaded through the
ingestion steps; external collaborators (vision model, parse failures)
become explicit oracles / `Except` outcomes.

Python strings are modelled as `PyStr := List Char` over their ASCII
fragment: `str.strip()`, `str.lower()`, `str.isdigit()` are modelled by
the corresponding ASCII operations (the repository only relies on their
ASCII behaviour).  Python `None` becomes `Option.none`.
-/

set_option maxRecDepth 100000

namespace UFDR

/-! ## Python string primitives -/

/-- Python strings, modelled as lists of characters. -/
abbrev PyStr := List Char

/-- Coerce a Lean string literal into the `PyStr` model. -/
def pyStr (s : String) : PyStr := s.data

/-- ASCII fragment of Python `str.isspace` / the `str.strip()` default set. -/
def pyIsSpace (c : Char) : Bool :=
  c = ' ' || c = '\t' || c = '\n' || c = '\r' || c = '\x0b' || c = '\x0c'

/-- Python `str.strip()` with no argument: drop whitespace from both ends. -/
def pyStrip (l : PyStr) : PyStr :=
  ((l.dropWhile pyIsSpace).reverse.dropWhile pyIsSpace).reverse

/-- ASCII lowering of one character (the ASCII fragment of `str.lower`). -/
def pyLowerChar (c : Char) : Char :=
  if 'A' ≤ c ∧ c ≤ 'Z' then Char.ofNat (c.toNat + 32) else c

/-- Python `str.lower()` on the ASCII fragment. -/
def pyLower (l : PyStr) : PyStr := l.map pyLowerChar

/-- ASCII fragment of Python `str.isdigit` (per character). -/
def pyIsDigit (c : Char) : Bool := '0' ≤ c && c ≤ '9'

/-- Python truthiness-based `a or b` on optional strings: `None` and `""`
fall through to `b`. -/
def pyOr (a b : Option PyStr) : Option PyStr :=
  match a with
  | some s => if s = [] then b else some s
  | none => b

/-- Python `a or b` where the fallback is a plain (non-`None`) string. -/
def pyOrStr (a : Option PyStr) (b : PyStr) : PyStr :=
  match a with
  | some s => if s = [] then b else s
  | none => b

/-- The decimal digit character for `n < 10`. -/
def natDigitChar (n : Nat) : Char := Char.ofNat (48 + n)

/-- Fuel-driven accumulator for rendering a natural number in decimal. -/
def natToCharsAux : Nat → Nat → PyStr → PyStr
  | 0, _, acc => acc
  | fuel + 1, n, acc =>
    if n < 10 then natDigitChar n :: acc
    else natToCharsAux fuel (n / 10) (natDigitChar (n % 10) :: acc)

/-- Python `str(n)` for a non-negative integer. -/
def natToChars (n : Nat) : PyStr := natToCharsAux (n + 1) n []

/-- Python `sep.join(parts)`. -/
def pyJoin (sep : PyStr) : List PyStr → PyStr
  | [] => []
  | [p] => p
  | p :: rest => p ++ sep ++ pyJoin sep rest

/-! ## Association lists (Python `dict` with insertion order) -/

/-- Insert-or-replace for an insertion-ordered association list; replacing
keeps the key's original position, exactly like assignment into a Python
`dict` (and like a keyed `MERGE`/upsert). -/
def assocSet {α β : Type} [DecidableEq α] : List (α × β) → α → β → List (α × β)
  | [], k, v => [(k, v)]
  | (k', v') :: rest, k, v =>
    if k' = k then (k, v) :: rest else (k', v') :: assocSet rest k v

/-- Lookup in an association list (first binding; bindings built through
`assocSet` are key-unique). -/
def assocGet {α β : Type} [DecidableEq α] : List (α × β) → α → Option β
  | [], _ => none
  | (k', v') :: rest, k => if k' = k then some v' else assocGet rest k

/-- Key membership in an association list. -/
def assocHas {α β : Type} [DecidableEq α] (m : List (α × β)) (k : α) : Bool :=
  (assocGet m k).isSome

/-- Python `{**old, **new}`: keys of `old` keep their position (values
overridden by `new` where present), keys only in `new` are appended in
order — i.e. fold `assocSet` of `new` over `old`. -/
def dictMerge {β : Type} (old new : List (PyStr × β)) : List (PyStr × β) :=
  new.foldl (fun acc kv => assocSet acc kv.1 kv.2) old

/-! ## Field Normalizer: `backend/app/utils/graph.py` -/

/-- Embedding of `canonicalize_actor` (utils/graph.py lines 6-26).
`none` models Python `None`; the `PyStr` argument models `str(value)`. -/
def canonicalize_actor : Option PyStr → Option PyStr
  | none => none
  | some value =>
    let text0 := pyStrip value
    if text0 = [] then none
    else
      let text := if (pyStr "tel:").isPrefixOf (pyLower text0) then text0.drop 4 else text0
      let lowerText := pyLower text
      if text.contains '@' then some lowerText
      else
        let digits := text.filter pyIsDigit
        if digits ≠ [] then
          let plusSign := if (pyStr "+").isPrefixOf (pyStrip text) then pyStr "+" else []
          some (plusSign ++ digits)
        else some lowerText

/-- Embedding of `compose_display_name` (utils/graph.py lines 29-32):
keep truthy parts, strip each, join with one space. -/
def compose_display_name (given_name family_name : Option PyStr) : Option PyStr :=
  let filtered := (([given_name, family_name].filterMap id).filter (· ≠ [])).map pyStrip
  if filtered = [] then none else some (pyJoin (pyStr " ") filtered)

/-- Reference rendering of the spec's `canonicalizeActor` description, as
amended: trim; strip a leading case-insensitive `tel:`; if the remainder
contains `@` return it lowercased; else if the remainder has no digit
characters return the remainder lowercased (without re-trimming); else
return its digits with `+` prepended iff the remainder, trimmed, begins
with `+`. -/
def canonicalizeActorRef (s : PyStr) : Option PyStr :=
  let trimmed := pyStrip s
  if trimmed = [] then none
  else
    let remainder :=
      if (pyStr "tel:").isPrefixOf (pyLower trimmed) then trimmed.drop 4 else trimmed
    if remainder.contains '@' then some (pyLower remainder)
    else if remainder.filter pyIsDigit = [] then some (pyLower remainder)
    else
      some ((if (pyStr "+").isPrefixOf (pyStrip remainder) then pyStr "+" else []) ++
        remainder.filter pyIsDigit)

/-- The spec's fallback clause says the no-digit, no-`@` case returns "the
trimmed value lowercased".  On `"tel: abc"` the code returns `" abc"` —
the un-retrimmed tail left after stripping `tel:` — which is neither the
lowercased trimmed input (`"tel: abc"`) nor its trimmed remainder
(`"abc"`), refuting the clause at a concrete input. -/
theorem c5_fallback_counterexample :
    canonicalize_actor (some (pyStr "tel: abc")) = some (pyStr " abc") ∧
    pyStr " abc" ≠ pyStr "tel: abc" ∧ pyStr " abc" ≠ pyStr "abc" :=
  ⟨by decide, by decide, by decide⟩

/-- C5 as amended: the three documented examples hold, and
`canonicalize_actor` coincides everywhere with the amended description
(`+` prepended iff the remainder after `tel:`-stripping, trimmed, begins
with `+`; the no-digit fallback is the remainder lowercased without
re-trimming). -/
theorem c5_canonicalize_actor_amended :
    canonicalize_actor (some (pyStr "tel:+1 (555) 123-0001")) = some (pyStr "+15551230001") ∧
    canonicalize_actor (some (pyStr "Jane@Example.com")) = some (pyStr "jane@example.com") ∧
    canonicalize_actor (some (pyStr "")) = none ∧
    ∀ s : PyStr, canonicalize_actor (some s) = canonicalizeActorRef s := by
  refine ⟨by decide, by decide, by decide, ?_⟩
  intro s
  unfold canonicalize_actor canonicalizeActorRef
  by_cases h1 : pyStrip s = []
  · simp [h1]
  · simp only [h1, if_false]
    generalize (if (pyStr "tel:").isPrefixOf (pyLower (pyStrip s)) then (pyStrip s).drop 4
      else pyStrip s) = r
    by_cases h2 : r.contains '@'
    · simp_all
    · by_cases h3 : r.filter pyIsDigit = []
      · simp_all
      · simp_all
        obtain ⟨x, hx, hdx⟩ := h3
        have hne : ¬∀ a ∈ r, pyIsDigit a = false := by
          intro hall
          rw [hall x hx] at hdx
          cases hdx
        simp [hne]

/-! ## Timestamp normalization: `_safe_parse_timestamp`
(services/ufdr_ingest.py lines 886-911) -/

/-- Gregorian civil date from days since the Unix epoch (the standard
days-to-civil algorithm; mirrors what CPython's `datetime.fromtimestamp`
computes for the date part). Returns (year, month, day). -/
def civilFromDays (z0 : Int) : Int × Nat × Nat :=
  let z := z0 + 719468
  let era : Int := Int.fdiv z 146097
  let doe : Nat := (z - era * 146097).toNat
  let yoe : Nat := (doe - doe / 1460 + doe / 36524 - doe / 146096) / 365
  let y : Int := (yoe : Int) + era * 400
  let doy : Nat := doe - (365 * yoe + yoe / 4 - yoe / 100)
  let mp : Nat := (5 * doy + 2) / 153
  let d : Nat := doy - (153 * mp + 2) / 5 + 1
  let m : Nat := if mp < 10 then mp + 3 else mp - 9
  (y + (if m ≤ 2 then 1 else 0), m, d)

/-- Zero-pad a decimal rendering on the left to width `w`. -/
def padZeros (w : Nat) (s : PyStr) : PyStr := List.replicate (w - s.length) '0' ++ s

/-- Two-digit zero-padded field. -/
def pad2 (n : Nat) : PyStr := padZeros 2 (natToChars n)

/-- Four-digit zero-padded field. -/
def pad4 (n : Nat) : PyStr := padZeros 4 (natToChars n)

/-- `datetime.fromtimestamp(t, tz=timezone.utc).isoformat()` for an
integer number `t` of Unix-epoch seconds within `datetime`'s range:
`YYYY-MM-DDTHH:MM:SS+00:00`. -/
def isoOfUnixSeconds (t : Int) : PyStr :=
  let days := Int.fdiv t 86400
  let sod := (Int.emod t 86400).toNat
  let ymd := civilFromDays days
  pad4 ymd.1.toNat ++ pyStr "-" ++ pad2 ymd.2.1 ++ pyStr "-" ++ pad2 ymd.2.2 ++ pyStr "T" ++
    pad2 (sod / 3600) ++ pyStr ":" ++ pad2 (sod % 3600 / 60) ++ pyStr ":" ++ pad2 (sod % 60) ++
    pyStr "+00:00"

/-- The Apple/Cocoa epoch offset constant from `_safe_parse_timestamp`. -/
def APPLE_EPOCH_OFFSET : Int := 978307200

/-- Smallest Unix second representable by `datetime` (0001-01-01T00:00:00). -/
def MIN_DATETIME_UNIX : Int := -62135596800

/-- Largest whole Unix second representable by `datetime`
(9999-12-31T23:59:59). -/
def MAX_DATETIME_UNIX : Int := 253402300799

/-- The numeric adjustment of `_safe_parse_timestamp` (lines 901-906):
divide by 1000 when the value exceeds `1e12`, then subtract the Apple
epoch offset when the (possibly divided) value exceeds it.  Numeric
timestamps are modelled as integers; the source's float division by 1000
is modelled by floor division (exact whenever the value is a multiple of
1000). -/
def adjustNumericTimestamp (v : Int) : Int :=
  let v1 := if v > 10 ^ 12 then Int.fdiv v 1000 else v
  if v1 > APPLE_EPOCH_OFFSET then v1 - APPLE_EPOCH_OFFSET else v1

/-- The numeric branch of `_safe_parse_timestamp` (lines 900-911): adjust,
then render via `datetime.fromtimestamp(..., tz=utc).isoformat()`; an
`OverflowError`/`ValueError` from an out-of-range value falls back to
`str(value)`, the original input. -/
def safeParseTimestampNum (v : Int) (original : PyStr) : PyStr :=
  let n := adjustNumericTimestamp v
  if MIN_DATETIME_UNIX ≤ n ∧ n ≤ MAX_DATETIME_UNIX then isoOfUnixSeconds n else original

/-- Numeric value of a digit character. -/
def digitVal (c : Char) : Option Nat :=
  if pyIsDigit c then some (c.toNat - 48) else none

/-- Parse exactly `k` leading digit characters, returning their value and
the rest of the input. -/
def parseDigitsAux : Nat → Nat → PyStr → Option (Nat × PyStr)
  | 0, acc, rest => some (acc, rest)
  | k + 1, acc, c :: rest =>
    match digitVal c with
    | some d => parseDigitsAux k (acc * 10 + d) rest
    | none => none
  | _ + 1, _, [] => none

/-- Parse a fixed-width decimal field. -/
def parseNDigits (k : Nat) (s : PyStr) : Option (Nat × PyStr) := parseDigitsAux k 0 s

/-- Model of Python `float(value)` restricted to the integer-valued
literals the pipeline's timestamps use: optional surrounding whitespace,
an optional sign, then decimal digits.  (The source accepts arbitrary
float literals; inputs outside this sublanguage are handled by the
ISO/verbatim fallback exactly as non-numeric inputs are in the source.) -/
def parsePyNumeric (s : PyStr) : Option Int :=
  match pyStrip s with
  | [] => none
  | c :: rest =>
    let signed : Bool × PyStr :=
      if c = '-' then (true, rest) else if c = '+' then (false, rest) else (false, c :: rest)
    let ds := signed.2
    if ds ≠ [] ∧ ds.all pyIsDigit then
      let n : Nat := ds.foldl (fun acc d => acc * 10 + (d.toNat - 48)) 0
      some (if signed.1 then -(n : Int) else (n : Int))
    else none

/-- A parsed `datetime` value: Gregorian fields plus an optional UTC
offset in minutes (`none` models a naive datetime). -/
structure PyDateTime where
  year : Nat
  month : Nat
  day : Nat
  hour : Nat
  minute : Nat
  second : Nat
  tzOffsetMinutes : Option Int
deriving DecidableEq, Repr

/-- Leap-year test of the proleptic Gregorian calendar. -/
def isLeapYear (y : Nat) : Bool := (y % 4 = 0 && y % 100 ≠ 0) || y % 400 = 0

/-- Number of days in a month. -/
def daysInMonth (y m : Nat) : Nat :=
  if m = 2 then (if isLeapYear y then 29 else 28)
  else if m = 4 ∨ m = 6 ∨ m = 9 ∨ m = 11 then 30 else 31

/-- Parse `HH:MM` or `HH:MM:SS` (time part of `fromisoformat`). -/
def parseTimePart (s : PyStr) : Option (Nat × Nat × Nat × PyStr) :=
  match parseNDigits 2 s with
  | some (hh, ':' :: r2) =>
    (match parseNDigits 2 r2 with
      | some (mm, ':' :: r4) =>
        (match parseNDigits 2 r4 with
          | some (ss, r5) => some (hh, mm, ss, r5)
          | none => none)
      | some (mm, r3) => some (hh, mm, 0, r3)
      | none => none)
  | _ => none

/-- Parse an optional trailing `±HH:MM` UTC offset; `some none` means the
input ended with no offset (a naive datetime). -/
def parseOffsetTail (l : PyStr) : Option (Option Int) :=
  match l with
  | [] => some none
  | sign :: rest =>
    let sgn : Int := if sign = '+' then 1 else if sign = '-' then -1 else 0
    if sgn = 0 then none
    else
      match parseNDigits 2 rest with
      | some (oh, ':' :: r2) =>
        (match parseNDigits 2 r2 with
          | some (om, []) =>
            if oh < 24 ∧ om < 60 then some (some (sgn * ((oh : Int) * 60 + om))) else none
          | _ => none)
      | _ => none

/-- Model of `datetime.fromisoformat` on the grammar the pipeline relies
on: `YYYY-MM-DD`, optionally followed by a one-character separator and
`HH:MM[:SS]`, optionally followed by a `±HH:MM` offset; field ranges are
validated.  (The source also accepts fractional seconds; inputs outside
this sublanguage fall back to the verbatim branch exactly as unparsable
strings do in the source.) -/
def parsePyIso (s : PyStr) : Option PyDateTime :=
  match parseNDigits 4 s with
  | some (y, '-' :: r1) =>
    (match parseNDigits 2 r1 with
      | some (mo, '-' :: r2) =>
        (match parseNDigits 2 r2 with
          | some (d, r3) =>
            if 1 ≤ y ∧ 1 ≤ mo ∧ mo ≤ 12 ∧ 1 ≤ d ∧ d ≤ daysInMonth y mo then
              match r3 with
              | [] => some ⟨y, mo, d, 0, 0, 0, none⟩
              | _sep :: r4 =>
                (match parseTimePart r4 with
                  | some (hh, mi, ss, r5) =>
                    if hh ≤ 23 ∧ mi ≤ 59 ∧ ss ≤ 59 then
                      match parseOffsetTail r5 with
                      | some off => some ⟨y, mo, d, hh, mi, ss, off⟩
                      | none => none
                    else none
                  | none => none)
            else none
          | none => none)
      | _ => none)
  | _ => none

/-- Render a UTC offset in minutes as `±HH:MM`. -/
def renderOffset (off : Int) : PyStr :=
  (if off < 0 then pyStr "-" else pyStr "+") ++
    pad2 (off.natAbs / 60) ++ pyStr ":" ++ pad2 (off.natAbs % 60)

/-- `parsed.isoformat()` after the source's
`parsed.replace(tzinfo=timezone.utc)` when the parsed value was naive:
`YYYY-MM-DDTHH:MM:SS±HH:MM` with `+00:00` for assumed UTC. -/
def isoOfPyDateTime (dt : PyDateTime) : PyStr :=
  pad4 dt.year ++ pyStr "-" ++ pad2 dt.month ++ pyStr "-" ++ pad2 dt.day ++ pyStr "T" ++
    pad2 dt.hour ++ pyStr ":" ++ pad2 dt.minute ++ pyStr ":" ++ pad2 dt.second ++
    renderOffset (dt.tzOffsetMinutes.getD 0)

/-- Embedding of `_safe_parse_timestamp` (services/ufdr_ingest.py lines
886-911): `None` passes through; a numeric parse is attempted first, then
an ISO-8601 parse assuming UTC when naive; when both fail the original
string is returned verbatim. -/
def safe_parse_timestamp : Option PyStr → Option PyStr
  | none => none
  | some s =>
    match parsePyNumeric s with
    | some v => some (safeParseTimestampNum v s)
    | none =>
      match parsePyIso s with
      | some dt => some (isoOfPyDateTime dt)
      | none => some s

/-! ## Field candidate lists and `_pick_first_value`
(services/ufdr_ingest.py lines 33-39 and 873-877) -/

/-- Candidate columns for a message body. -/
def TEXT_FIELDS : List PyStr :=
  [pyStr "text", pyStr "body", pyStr "message", pyStr "content", pyStr "value", pyStr "notes"]

/-- Candidate columns for a timestamp. -/
def TIMESTAMP_FIELDS : List PyStr :=
  [pyStr "timestamp", pyStr "date", pyStr "created", pyStr "sent", pyStr "received",
    pyStr "time", pyStr "modified"]

/-- Candidate columns for a sender. -/
def SENDER_FIELDS : List PyStr :=
  [pyStr "sender", pyStr "from", pyStr "author", pyStr "handle", pyStr "address",
    pyStr "account", pyStr "source"]

/-- Candidate columns for a receiver. -/
def RECEIVER_FIELDS : List PyStr :=
  [pyStr "receiver", pyStr "to", pyStr "target", pyStr "recipient", pyStr "destination"]

/-- Candidate columns for a conversation id. -/
def CONVERSATION_FIELDS : List PyStr :=
  [pyStr "conversation", pyStr "thread", pyStr "chat", pyStr "dialog", pyStr "room"]

/-- Candidate columns for a direction. -/
def DIRECTION_FIELDS : List PyStr :=
  [pyStr "direction", pyStr "is_from_me", pyStr "incoming", pyStr "outgoing", pyStr "type"]

/-- Candidate columns for a message type. -/
def MESSAGE_TYPE_FIELDS : List PyStr :=
  [pyStr "type", pyStr "message_type", pyStr "category", pyStr "service"]

/-- A row payload: Python dict from (lowercased) column name to the cell's
value; `none` models SQL NULL / Python `None`, a present string models
`str(value)`. -/
abbrev PyDict := List (PyStr × Option PyStr)

/-- Embedding of `_pick_first_value` (lines 873-877): first candidate key
present in the payload whose value is neither `None` nor `""`. -/
def pick_first_value (payload : PyDict) : List PyStr → Option PyStr
  | [] => none
  | k :: rest =>
    match assocGet payload k with
    | some (some v) => if v = [] then pick_first_value payload rest else some v
    | _ => pick_first_value payload rest

/-- Dictionary built from a key/value pair sequence; duplicate keys keep
the last value, as `dict(zip(keys, row))` does. -/
def dictOfPairs (pairs : List (PyStr × Option PyStr)) : PyDict :=
  pairs.foldl (fun acc kv => assocSet acc kv.1 kv.2) []

/-! ## Paths and source-file classification -/

/-- A filesystem path, split into directory components and basename.
`name` models `Path.name`, `render` models `str(path)`. -/
structure SrcPath where
  dirs : List PyStr
  base : PyStr
deriving DecidableEq, Repr

/-- Python `Path.name`: the basename only. -/
def SrcPath.name (p : SrcPath) : PyStr := p.base

/-- Python `str(path)`: components joined with `/`. -/
def SrcPath.render (p : SrcPath) : PyStr :=
  p.dirs.foldr (fun d acc => d ++ pyStr "/" ++ acc) p.base

/-- Resolve a path relative to the run's extraction directory (the
per-upload uuid directory created by `persist_upload`). -/
def resolvePath (extractionId : PyStr) (p : SrcPath) : SrcPath :=
  { p with dirs := extractionId :: p.dirs }

/-- Columns of a table, lowercased (`_looks_like_*` helpers). -/
def lowercasedCols (columns : List PyStr) : List PyStr := columns.map pyLower

/-- Embedding of `_looks_like_message_table` (lines 592-594). -/
def looks_like_message_table (columns : List PyStr) : Bool :=
  TEXT_FIELDS.any (fun f => (lowercasedCols columns).contains f) &&
    TIMESTAMP_FIELDS.any (fun f => (lowercasedCols columns).contains f)

/-- Embedding of `_looks_like_contact_table` (lines 597-599). -/
def looks_like_contact_table (columns : List PyStr) : Bool :=
  ((lowercasedCols columns).contains (pyStr "contact") ||
      [pyStr "first", pyStr "last", pyStr "name"].any
        (fun f => (lowercasedCols columns).contains f)) &&
    [pyStr "phone", pyStr "number", pyStr "email", pyStr "address"].any
      (fun f => (lowercasedCols columns).contains f)

/-! ## Ledger rows (`backend/app/db.py` `_ensure_schema`) -/

/-- A `messages` table row.  The schema has no uniqueness constraint on
any column; the only uniqueness is the partial unique index on
`vector_id` over non-NULL values (db.py lines 75-81).  `attachments` and
`raw_data` carry no claim-relevant content and are omitted. -/
structure MsgRow where
  external_id : PyStr
  conversation_id : Option PyStr
  sender : Option PyStr
  receiver : Option PyStr
  timestamp : Option PyStr
  body : Option PyStr
  direction : Option PyStr
  message_type : Option PyStr
  source : PyStr
  vector_id : Option PyStr
deriving DecidableEq, Repr

/-- A `contacts` table row (no dedup key of any kind). -/
structure ContactRow where
  external_id : PyStr
  display_name : Option PyStr
  given_name : Option PyStr
  family_name : Option PyStr
  phone_number : Option PyStr
  email : Option PyStr
  source : PyStr
deriving DecidableEq, Repr

/-- An `images` table row; `file_path` is globally UNIQUE, and
`vector_id` has a partial unique index (db.py lines 54-67, 82-88).
`metadata` models the JSON-encoded metadata object. -/
structure ImgRow where
  id : Nat
  file_path : PyStr
  relative_path : PyStr
  source : PyStr
  metadata : List (PyStr × PyStr)
  description : Option PyStr
  tags : Option PyStr
  detected_text : Option PyStr
  vector_id : Option PyStr
  caption_status : Option PyStr
  caption_error : Option PyStr
  last_captioned_at : Option PyStr
deriving DecidableEq, Repr

/-- The `images` table with its autoincrement row-id counter. -/
structure ImagesTable where
  rows : List ImgRow
  nextId : Nat
deriving DecidableEq, Repr

/-! ## Message insertion: `INSERT OR IGNORE` plus `vector_id` backfill
(services/ufdr_ingest.py lines 634-678) -/

/-- Does some row of the table already carry this non-NULL `vector_id`?
This is the only conflict `INSERT OR IGNORE INTO messages` can hit: the
partial unique index over non-NULL `vector_id` values. -/
def msgVectorIdPresent (tbl : List MsgRow) (v : PyStr) : Bool :=
  tbl.any (fun r => r.vector_id = some v)

/-- `INSERT OR IGNORE INTO messages`: rows whose `vector_id` is NULL
always insert; a row with a non-NULL `vector_id` inserts iff no existing
row carries that `vector_id`.  Returns the new table and
`cursor.rowcount > 0`. -/
def insertOrIgnoreMessage (tbl : List MsgRow) (row : MsgRow) : List MsgRow × Bool :=
  match row.vector_id with
  | some v => if msgVectorIdPresent tbl v then (tbl, false) else (tbl ++ [row], true)
  | none => (tbl ++ [row], true)

/-- The backfill statement (lines 671-678): `UPDATE messages SET
vector_id = COALESCE(vector_id, ?) WHERE external_id = ?` — fills
`vector_id` only on rows where it was NULL. -/
def backfillVectorId (tbl : List MsgRow) (eid v : PyStr) : List MsgRow :=
  tbl.map (fun r =>
    if r.external_id = eid then { r with vector_id := some (r.vector_id.getD v) } else r)

/-- The message external identifier (line 629):
`{db_path.name}:{table_name}:{rowid}` — built from the basename, not the
full path. -/
def messageExternalId (dbPath : SrcPath) (tableName : PyStr) (rowid : Nat) : PyStr :=
  dbPath.name ++ pyStr ":" ++ tableName ++ pyStr ":" ++ natToChars rowid

/-- The message `vector_id` (lines 630-632): assigned iff the body is
non-empty and non-whitespace. -/
def messageVectorId (body : Option PyStr) (eid : PyStr) : Option PyStr :=
  match body with
  | some b => if b ≠ [] ∧ pyStrip b ≠ [] then some (pyStr "msg:" ++ eid) else none
  | none => none

/-! ## Graph store model (`backend/app/services/graph.py`) -/

/-- Attributes of a `Person` node (keyed externally by canonical id). -/
structure GraphPerson where
  display_name : Option PyStr
  given_name : Option PyStr
  family_name : Option PyStr
  raw_identifier : Option PyStr
  last_seen_source : Option PyStr
deriving DecidableEq, Repr

/-- A node freshly created by `MERGE` before any `SET` clause runs. -/
def emptyPerson : GraphPerson := ⟨none, none, none, none, none⟩

/-- Attributes of a `MESSAGED` relationship (keyed externally by
(sender id, receiver id, message id)). -/
structure GraphRel where
  timestamp : Option PyStr
  body : Option PyStr
  conversation_id : Option PyStr
  source : Option PyStr
deriving DecidableEq, Repr

/-- The Neo4j graph state: persons keyed by canonical id (unique by the
`person_id_unique` constraint), MESSAGED edges keyed by
(sender, receiver, message_id) as the `MERGE` pattern does. -/
structure GraphDB where
  persons : List (PyStr × GraphPerson)
  rels : List ((PyStr × PyStr × PyStr) × GraphRel)
deriving DecidableEq, Repr

/-- Embedding of `GraphClient.register_person` (services/graph.py lines
72-123): `MERGE` on id, `coalesce` for `raw_identifier`, overwrite of
`last_seen_source`, first-non-trivial-writer-wins for the name fields
(sequential `SET` clauses, so the name comparisons see the updated
`raw_identifier`).  Returns the updated graph and the call's success. -/
def register_person (enabled : Bool) (g : GraphDB) (identifier : PyStr)
    (display_name given_name family_name raw_identifier source : Option PyStr) :
    GraphDB × Bool :=
  if ¬enabled ∨ identifier = [] then (g, false)
  else
    let rawParam : PyStr :=
      match raw_identifier with
      | some r => if r = [] then identifier else r
      | none => identifier
    let p0 := (assocGet g.persons identifier).getD emptyPerson
    let newRaw : PyStr := (p0.raw_identifier).getD rawParam
    let p1 := { p0 with raw_identifier := some newRaw, last_seen_source := source }
    let p2 := { p1 with display_name :=
      match display_name with
      | some dn =>
        if p1.display_name = none ∨ p1.display_name = some newRaw then some dn
        else p1.display_name
      | none => p1.display_name }
    let p3 := { p2 with given_name :=
      match given_name with
      | some gn =>
        if p2.given_name = none ∨ p2.given_name = some [] then some gn else p2.given_name
      | none => p2.given_name }
    let p4 := { p3 with family_name :=
      match family_name with
      | some fn =>
        if p3.family_name = none ∨ p3.family_name = some [] then some fn else p3.family_name
      | none => p3.family_name }
    ({ g with persons := assocSet g.persons identifier p4 }, true)

/-- The `MERGE (x:Person {id}) SET x.display_name = CASE WHEN x.display_name
IS NULL ... , x.last_seen_source = $source` step of `register_message`. -/
def mergePersonForMessage (g : GraphDB) (pid : PyStr) (label : PyStr)
    (source : Option PyStr) : GraphDB :=
  let p0 := (assocGet g.persons pid).getD emptyPerson
  let p1 := { p0 with
    display_name := if p0.display_name = none then some label else p0.display_name,
    last_seen_source := source }
  { g with persons := assocSet g.persons pid p1 }

/-- Embedding of `GraphClient.register_message` (services/graph.py lines
125-186): requires non-empty ids, merges both endpoint persons, then
merges the `MESSAGED` edge keyed on (sender, receiver, message_id),
refreshing its attributes on every call. -/
def register_message (enabled : Bool) (g : GraphDB)
    (message_id sender_id receiver_id : PyStr)
    (timestamp body conversation_id : Option PyStr)
    (sender_label receiver_label : Option PyStr) (source : Option PyStr) :
    GraphDB × Bool :=
  if ¬enabled then (g, false)
  else if message_id = [] ∨ sender_id = [] ∨ receiver_id = [] then (g, false)
  else
    let sLabel := pyOrStr sender_label sender_id
    let rLabel := pyOrStr receiver_label receiver_id
    let g1 := mergePersonForMessage g sender_id sLabel source
    let g2 := mergePersonForMessage g1 receiver_id rLabel source
    let rel : GraphRel := ⟨timestamp, body, conversation_id, source⟩
    ({ g2 with rels := assocSet g2.rels (sender_id, receiver_id, message_id) rel }, true)

/-! ## Run-scoped graph synchronization state
(services/ufdr_ingest.py lines 42-63, 771-855) -/

/-- Embedding of `GraphStats` (lines 58-63); the seen-sets are kept as
insertion-ordered duplicate-free lists. -/
structure GraphStats where
  contacts_registered : Nat
  relationships_registered : Nat
  seen_contact_identifiers : List PyStr
  seen_message_ids : List PyStr
deriving DecidableEq, Repr

/-- Fresh `GraphStats()`. -/
def GraphStats.init : GraphStats := ⟨0, 0, [], []⟩

/-- Run-scoped state threaded through graph registration: the graph
store, the stats, the `CONTACT_ALIAS_MAP` (cleared at the start of every
run), and — as model instrumentation — the chronological log of canonical
ids passed to `GraphClient.register_person`. -/
structure RunState where
  graph : GraphDB
  stats : GraphStats
  aliasMap : List (PyStr × PyStr)
  personCalls : List PyStr
deriving DecidableEq, Repr

/-- Contact fields handed to `_register_contact_with_graph`. -/
structure ContactFields where
  display_name : Option PyStr
  given_name : Option PyStr
  family_name : Option PyStr
  phone_number : Option PyStr
  email : Option PyStr
deriving DecidableEq, Repr

/-- One candidate identity (lines 785-788): the canonical form of a raw
value paired with its raw label (`raw or canonical`); a falsy (absent or
empty) canonical id yields no identity. -/
def canonicalPair (raw : Option PyStr) : Option (PyStr × PyStr) :=
  match canonicalize_actor raw with
  | some canon =>
    if canon = [] then none
    else some (canon, match raw with
      | some r => if r = [] then canon else r
      | none => canon)
  | none => none

/-- Candidate identities of a contact (lines 784-793): canonicalized
phone and email, each paired with its raw form; when neither
canonicalizes, fall back to the canonicalized (truthy) display name. -/
def contactIdentifiers (c : ContactFields) : List (PyStr × PyStr) :=
  let ids0 := [c.phone_number, c.email].filterMap canonicalPair
  if ids0 = [] then
    match c.display_name with
    | some dn =>
      if dn = [] then []
      else (canonicalPair (some dn)).toList.map (fun q => (q.1, dn))
    | none => []
  else ids0

/-- The preferred display label (line 795): `display_name or
compose_display_name(...) or identifiers[0][1]`. -/
def contactPreferredName (c : ContactFields) : Option PyStr :=
  pyOr c.display_name
    (pyOr (compose_display_name c.given_name c.family_name)
      ((contactIdentifiers c).head?.map (·.2)))

/-- One iteration of the identifier loop of `_register_contact_with_graph`
(lines 797-812): call `register_person` (the call is logged in
`personCalls`), and on success bump the contact counter at most once per
canonical id via the seen-set, then record the alias. -/
def contactRegisterStep (enabled : Bool) (c : ContactFields) (source : PyStr)
    (st : RunState) (cr : PyStr × PyStr) : RunState :=
  let preferred := contactPreferredName c
  let reg := register_person enabled st.graph cr.1 preferred
    c.given_name c.family_name (some cr.2) (some source)
  let st := { st with graph := reg.1, personCalls := st.personCalls ++ [cr.1] }
  if reg.2 then
    let st :=
      if cr.1 ∈ st.stats.seen_contact_identifiers then st
      else { st with stats := { st.stats with
        seen_contact_identifiers := st.stats.seen_contact_identifiers ++ [cr.1],
        contacts_registered := st.stats.contacts_registered + 1 } }
    match pyOr (contactPreferredName c) (some cr.2) with
    | some av => { st with aliasMap := assocSet st.aliasMap cr.1 av }
    | none => st
  else st

/-- Embedding of `_register_contact_with_graph` (lines 771-812). -/
def register_contact_with_graph (enabled : Bool) (c : ContactFields) (source : PyStr)
    (st : RunState) : RunState :=
  if ¬enabled then st
  else (contactIdentifiers c).foldl (contactRegisterStep enabled c source) st

/-- Embedding of `_register_message_with_graph` (lines 815-855): both
endpoints must canonicalize to truthy identities; labels come from the
alias map, falling back to the raw value then the canonical id; on
success the relationship counter is bumped at most once per message id
and both endpoint aliases are recorded. -/
def register_message_with_graph (enabled : Bool) (message_id : PyStr)
    (sender receiver timestamp_iso message_body conversation_id : Option PyStr)
    (source : PyStr) (st : RunState) : RunState :=
  if ¬enabled then st
  else
    match canonicalize_actor sender, canonicalize_actor receiver with
    | some sid, some rid =>
      if sid = [] ∨ rid = [] then st
      else
        let sLabel := pyOrStr (assocGet st.aliasMap sid) (pyOrStr sender sid)
        let rLabel := pyOrStr (assocGet st.aliasMap rid) (pyOrStr receiver rid)
        let (g', success) := register_message enabled st.graph message_id sid rid
          timestamp_iso message_body conversation_id (some sLabel) (some rLabel)
          (some source)
        let st := { st with graph := g' }
        if success then
          let st :=
            if message_id ∈ st.stats.seen_message_ids then st
            else { st with stats := { st.stats with
              seen_message_ids := st.stats.seen_message_ids ++ [message_id],
              relationships_registered := st.stats.relationships_registered + 1 } }
          { st with aliasMap := assocSet (assocSet st.aliasMap sid sLabel) rid rLabel }
        else st
    | _, _ => st

/-! ## Message table ingestion (services/ufdr_ingest.py lines 602-704) -/

/-- A transient embedding record (lines 66-70). -/
structure EmbeddingRecord where
  vector_id : PyStr
  text : PyStr
  metadata : List (PyStr × PyStr)
deriving DecidableEq, Repr

/-- A row read from a source SQLite table: its rowid and its cells as a
column-name/value sequence (cell values already rendered via `str`,
`none` for SQL NULL). -/
structure SrcRow where
  rowid : Nat
  cells : List (PyStr × Option PyStr)
deriving DecidableEq, Repr

/-- The payload dict of a row (line 619): `_rowid_` plus the cells under
lowercased column names; duplicate keys keep the last value as
`dict(zip(...))` does. -/
def rowPayload (row : SrcRow) : PyDict :=
  dictOfPairs ((pyStr "_rowid_", some (natToChars row.rowid)) ::
    row.cells.map (fun kv => (pyLower kv.1, kv.2)))

/-- Build the `messages` row the source inserts for one parsed row
(lines 619-666). -/
def buildMsgRow (dbPath : SrcPath) (tableName : PyStr) (row : SrcRow) : MsgRow :=
  let payload := rowPayload row
  let body := pick_first_value payload TEXT_FIELDS
  let eid := messageExternalId dbPath tableName row.rowid
  { external_id := eid
    conversation_id := pick_first_value payload CONVERSATION_FIELDS
    sender := pick_first_value payload SENDER_FIELDS
    receiver := pick_first_value payload RECEIVER_FIELDS
    timestamp := safe_parse_timestamp (pick_first_value payload TIMESTAMP_FIELDS)
    body := body
    direction := pick_first_value payload DIRECTION_FIELDS
    message_type := pick_first_value payload MESSAGE_TYPE_FIELDS
    source := dbPath.render
    vector_id := messageVectorId body eid }

/-- Embedding metadata of a bodied message (lines 692-700). -/
def msgEmbMetadata (r : MsgRow) (tableName : PyStr) (dbPath : SrcPath) :
    List (PyStr × PyStr) :=
  [(pyStr "external_id", r.external_id),
   (pyStr "conversation_id", r.conversation_id.getD []),
   (pyStr "sender", r.sender.getD []),
   (pyStr "receiver", r.receiver.getD []),
   (pyStr "timestamp", r.timestamp.getD []),
   (pyStr "source", dbPath.render),
   (pyStr "table", tableName)]

/-- Accumulator of `_ingest_messages_from_table`: the `messages` table,
the run state, the ingested counter and the embedding records. -/
structure MsgIngestAcc where
  messages : List MsgRow
  run : RunState
  ingested : Nat
  embeddings : List EmbeddingRecord
deriving DecidableEq, Repr

/-- One iteration of the row loop of `_ingest_messages_from_table`
(lines 618-701): insert-or-ignore, count, backfill on conflict, graph
registration, and an embedding record for every bodied row (emitted even
when the insert was skipped). -/
def ingestMessageRowStep (enabled : Bool) (dbPath : SrcPath) (tableName : PyStr)
    (acc : MsgIngestAcc) (row : SrcRow) : MsgIngestAcc :=
  let r := buildMsgRow dbPath tableName row
  let ins := insertOrIgnoreMessage acc.messages r
  let messages :=
    if ins.2 then ins.1
    else
      match r.vector_id with
      | some v => backfillVectorId ins.1 r.external_id v
      | none => ins.1
  let ingested := if ins.2 then acc.ingested + 1 else acc.ingested
  let run := register_message_with_graph enabled r.external_id r.sender r.receiver
    r.timestamp r.body r.conversation_id dbPath.render acc.run
  let embeddings :=
    match r.vector_id with
    | some v => acc.embeddings ++ [⟨v, r.body.getD [], msgEmbMetadata r tableName dbPath⟩]
    | none => acc.embeddings
  ⟨messages, run, ingested, embeddings⟩

/-- Embedding of `_ingest_messages_from_table` (lines 602-704) for one
classified table. -/
def ingest_messages_from_table (enabled : Bool) (dbPath : SrcPath) (tableName : PyStr)
    (rows : List SrcRow) (messages : List MsgRow) (st : RunState) : MsgIngestAcc :=
  rows.foldl (ingestMessageRowStep enabled dbPath tableName) ⟨messages, st, 0, []⟩

/-- A user table of a source database: name, column names, rows. -/
structure DbTable where
  name : PyStr
  columns : List PyStr
  rows : List SrcRow
deriving DecidableEq, Repr

/-- One iteration of the table loop of `ingest_messages_from_sqlite`
(lines 247-255): ingest the table when it looks like a message table. -/
def msgSqliteStep (enabled : Bool) (dbPath : SrcPath) (acc : MsgIngestAcc)
    (t : DbTable) : MsgIngestAcc :=
  if looks_like_message_table t.columns then
    let r := ingest_messages_from_table enabled dbPath t.name t.rows acc.messages acc.run
    ⟨r.messages, r.run, acc.ingested + r.ingested, acc.embeddings ++ r.embeddings⟩
  else acc

/-- Embedding of `ingest_messages_from_sqlite` (lines 240-257): fold the
message-like tables of one database file. -/
def ingest_messages_from_sqlite (enabled : Bool) (dbPath : SrcPath)
    (tables : List DbTable) (messages : List MsgRow) (st : RunState) : MsgIngestAcc :=
  tables.foldl (msgSqliteStep enabled dbPath) ⟨messages, st, 0, []⟩

/-! ## Contact ingestion (services/ufdr_ingest.py lines 260-325, 707-768) -/

/-- Embedding of `_compose_display_name` on a payload (lines 880-883):
join the truthy first/middle/last cells with spaces. -/
def composeDisplayNameFromPayload (payload : PyDict) : Option PyStr :=
  let parts := [(assocGet payload (pyStr "first")).join,
    (assocGet payload (pyStr "middle")).join,
    (assocGet payload (pyStr "last")).join]
  let filtered := parts.filterMap (fun p =>
    match p with
    | some s => if s = [] then none else some s
    | none => none)
  if filtered = [] then none else some (pyJoin (pyStr " ") filtered)

/-- The contact fields extracted from one table row (lines 723-728). -/
def buildContactFields (payload : PyDict) : ContactFields :=
  { display_name := pyOr
      (pick_first_value payload
        [pyStr "display_name", pyStr "name", pyStr "full_name", pyStr "fullname"])
      (composeDisplayNameFromPayload payload)
    given_name := pyOr (assocGet payload (pyStr "first")).join
      (pyOr (assocGet payload (pyStr "given")).join (assocGet payload (pyStr "firstname")).join)
    family_name := pyOr (assocGet payload (pyStr "last")).join
      (pyOr (assocGet payload (pyStr "surname")).join (assocGet payload (pyStr "lastname")).join)
    phone_number := pick_first_value payload
      [pyStr "phone", pyStr "phone_number", pyStr "number", pyStr "mobile", pyStr "msisdn",
        pyStr "home", pyStr "work"]
    email := pick_first_value payload [pyStr "email", pyStr "email_address", pyStr "mail"] }

/-- Accumulator for contact ingestion. -/
structure ContactIngestAcc where
  contacts : List ContactRow
  run : RunState
  ingested : Nat
deriving DecidableEq, Repr

/-- One iteration of the row loop of `_ingest_contacts_from_table`
(lines 719-766): unconditional append of the row plus graph
registration. -/
def contactRowStep (enabled : Bool) (dbPath : SrcPath) (tableName : PyStr)
    (acc : ContactIngestAcc) (row : SrcRow) : ContactIngestAcc :=
  let payload := rowPayload row
  let c := buildContactFields payload
  let newRow : ContactRow :=
    { external_id := messageExternalId dbPath tableName row.rowid
      display_name := c.display_name
      given_name := c.given_name
      family_name := c.family_name
      phone_number := c.phone_number
      email := c.email
      source := dbPath.render }
  let run := register_contact_with_graph enabled c dbPath.render acc.run
  ⟨acc.contacts ++ [newRow], run, acc.ingested + 1⟩

/-- Embedding of `_ingest_contacts_from_table` (lines 707-768). -/
def ingest_contacts_from_table (enabled : Bool) (dbPath : SrcPath) (tableName : PyStr)
    (rows : List SrcRow) (contacts : List ContactRow) (st : RunState) : ContactIngestAcc :=
  rows.foldl (contactRowStep enabled dbPath tableName) ⟨contacts, st, 0⟩

/-- One iteration of the table loop of `ingest_contacts_from_sqlite`
(lines 267-272). -/
def contactSqliteStep (enabled : Bool) (dbPath : SrcPath) (acc : ContactIngestAcc)
    (t : DbTable) : ContactIngestAcc :=
  if looks_like_contact_table t.columns then
    let r := ingest_contacts_from_table enabled dbPath t.name t.rows acc.contacts acc.run
    ⟨r.contacts, r.run, acc.ingested + r.ingested⟩
  else acc

/-- Embedding of `ingest_contacts_from_sqlite` (lines 260-274). -/
def ingest_contacts_from_sqlite (enabled : Bool) (dbPath : SrcPath)
    (tables : List DbTable) (contacts : List ContactRow) (st : RunState) : ContactIngestAcc :=
  tables.foldl (contactSqliteStep enabled dbPath) ⟨contacts, st, 0⟩

/-- A `<contact>` element of a contacts XML file (lines 289-295). -/
structure XmlContact where
  displayName : Option PyStr
  firstName : Option PyStr
  lastName : Option PyStr
  phone : Option PyStr
  email : Option PyStr
deriving DecidableEq, Repr

/-- The contact fields of one `<contact>` element (lines 300-306). -/
def xmlContactFields (e : XmlContact) : ContactFields :=
  { display_name := e.displayName, given_name := e.firstName,
    family_name := e.lastName, phone_number := e.phone, email := e.email }

/-- One iteration of the element loop of `ingest_contacts_from_xml`
(lines 296-323). -/
def xmlContactStep (enabled : Bool) (xmlPath : SrcPath) (acc : ContactIngestAcc)
    (e : XmlContact) : ContactIngestAcc :=
  let c := xmlContactFields e
  let newRow : ContactRow :=
    { external_id := xmlPath.name ++ pyStr ":" ++ natToChars acc.ingested
      display_name := e.displayName
      given_name := e.firstName
      family_name := e.lastName
      phone_number := e.phone
      email := e.email
      source := xmlPath.render }
  let run := register_contact_with_graph enabled c xmlPath.render acc.run
  ⟨acc.contacts ++ [newRow], run, acc.ingested + 1⟩

/-- Embedding of `ingest_contacts_from_xml` (lines 277-325): append one
contact row per element (external id `{xml_path.name}:{index}`) and
register it with the graph. -/
def ingest_contacts_from_xml (enabled : Bool) (xmlPath : SrcPath)
    (elems : List XmlContact) (contacts : List ContactRow) (st : RunState) : ContactIngestAcc :=
  elems.foldl (xmlContactStep enabled xmlPath) ⟨contacts, st, 0⟩

/-! ## Image inventory (services/ufdr_ingest.py lines 373-465) -/

/-- The record handed to the captioner (lines 73-79). -/
structure ImageInventoryRecord where
  id : Nat
  file_path : PyStr
  relative_path : PyStr
  metadata : List (PyStr × PyStr)
deriving DecidableEq, Repr

/-- The deterministic part of `_build_image_metadata` (lines 552-575);
the filesystem-stat and mime-type fields depend on the host filesystem
and are omitted from the model. -/
def build_image_metadata (absPath relPath extractionId : PyStr) : List (PyStr × PyStr) :=
  [(pyStr "file_path", absPath), (pyStr "relative_path", relPath),
   (pyStr "extraction_id", extractionId)]

/-- Accumulator of the `log_image_inventory` loop. -/
structure InventoryAcc where
  table : ImagesTable
  seen : List PyStr
  processed : Nat
  records : List ImageInventoryRecord
deriving DecidableEq, Repr

/-- One iteration of `log_image_inventory` (lines 384-461) for the image
at relative path `relPath` inside the extraction directory: batch
de-duplication, `INSERT OR IGNORE` keyed on the absolute `file_path`, and
on conflict a shallow metadata merge (new keys win), a reset to `pending`
unless the stored status is (case-insensitively) `done`, and re-queuing
for captioning exactly when the reset happened. -/
def logImageStep (extractionId : PyStr) (acc : InventoryAcc) (relPath : PyStr) :
    InventoryAcc :=
  let absPath := extractionId ++ pyStr "/" ++ relPath
  if absPath ∈ acc.seen then acc
  else
    let seen := acc.seen ++ [absPath]
    let processed := acc.processed + 1
    let metadata := build_image_metadata absPath relPath extractionId
    match acc.table.rows.find? (fun r => r.file_path = absPath) with
    | none =>
      let newRow : ImgRow :=
        { id := acc.table.nextId, file_path := absPath, relative_path := relPath,
          source := pyStr "ufdr", metadata := metadata, description := none, tags := none,
          detected_text := none, vector_id := none,
          caption_status := some (pyStr "pending"), caption_error := none,
          last_captioned_at := none }
      { table := ⟨acc.table.rows ++ [newRow], acc.table.nextId + 1⟩
        seen := seen, processed := processed
        records := acc.records ++ [⟨newRow.id, absPath, relPath, metadata⟩] }
    | some existing =>
      let merged := dictMerge existing.metadata metadata
      let rows1 := acc.table.rows.map (fun r =>
        if r.id = existing.id then
          { r with relative_path := relPath, source := pyStr "ufdr", metadata := merged }
        else r)
      if pyLower (existing.caption_status.getD []) ≠ pyStr "done" then
        { table := ⟨rows1.map (fun r =>
            if r.id = existing.id then { r with caption_status := some (pyStr "pending") }
            else r), acc.table.nextId⟩
          seen := seen, processed := processed
          records := acc.records ++ [⟨existing.id, absPath, relPath, merged⟩] }
      else
        { table := ⟨rows1, acc.table.nextId⟩, seen := seen, processed := processed
          records := acc.records }

/-- Embedding of `log_image_inventory` (lines 373-465): returns the
updated table, the processed count, and the records to caption. -/
def log_image_inventory (extractionId : PyStr) (relPaths : List PyStr)
    (table : ImagesTable) : InventoryAcc :=
  relPaths.foldl (logImageStep extractionId) ⟨table, [], 0, []⟩

/-! ## Image captioning (services/ufdr_ingest.py lines 468-549) -/

/-- Result of `vision_client.describe_image`. -/
structure VisionDescription where
  caption : PyStr
  tags : List PyStr
  detected_text : Option PyStr
deriving DecidableEq, Repr

/-- Outcome of one `describe_image` call: a description, or any raised
exception rendered as its message. -/
inductive VisionOutcome
  | ok (d : VisionDescription)
  | err (msg : PyStr)
deriving DecidableEq, Repr

/-- Per-image accumulator of `describe_and_index_images`. -/
structure CaptionAcc where
  table : ImagesTable
  successes : Nat
  embeddings : List EmbeddingRecord
deriving DecidableEq, Repr

/-- One iteration of `describe_and_index_images` (lines 478-546) for one
inventory record, with the vision collaborator as an oracle keyed by file
path and the wall clock as the constant `now`. -/
def describeImageStep (vision : PyStr → VisionOutcome) (now : PyStr)
    (acc : CaptionAcc) (record : ImageInventoryRecord) : CaptionAcc :=
  match vision record.file_path with
  | .ok d =>
    let tagString : Option PyStr :=
      if d.tags ≠ [] then some (pyJoin (pyStr ", ") d.tags) else none
    let vid := pyStr "img:" ++ natToChars record.id
    let metaUpd0 := dictMerge record.metadata
      [(pyStr "tags", pyJoin (pyStr ", ") d.tags), (pyStr "caption", d.caption)]
    let metaUpd :=
      match d.detected_text with
      | some t => assocSet metaUpd0 (pyStr "detected_text") t
      | none => metaUpd0
    let rows := acc.table.rows.map (fun r =>
      if r.id = record.id then
        { r with
          description := some d.caption
          tags := tagString
          detected_text := d.detected_text
          vector_id := some vid
          caption_status := some (pyStr "done")
          caption_error := none
          last_captioned_at := some now
          metadata := metaUpd }
      else r)
    let textParts := [d.caption] ++
      (if d.tags ≠ [] then [pyStr "Tags: " ++ pyJoin (pyStr ", ") d.tags] else []) ++
      (match d.detected_text with
        | some t => [pyStr "Detected text: " ++ t]
        | none => [])
    let meta0 : List (PyStr × PyStr) :=
      [(pyStr "type", pyStr "image"), (pyStr "image_id", natToChars record.id),
       (pyStr "relative_path", record.relative_path), (pyStr "source", pyStr "ufdr"),
       (pyStr "caption_source", pyStr "gemini_vision")]
    let meta1 := assocSet meta0 (pyStr "caption") (d.caption.take 256)
    let meta2 :=
      if d.tags ≠ [] then assocSet meta1 (pyStr "tags") (pyJoin (pyStr ", ") d.tags)
      else meta1
    { table := ⟨rows, acc.table.nextId⟩
      successes := acc.successes + 1
      embeddings := acc.embeddings ++ [⟨vid, pyJoin (pyStr "\n") textParts, meta2⟩] }
  | .err m =>
    let rows := acc.table.rows.map (fun r =>
      if r.id = record.id then
        { r with
          caption_status := some (pyStr "failed")
          caption_error := some (m.take 512)
          last_captioned_at := some now }
      else r)
    { acc with table := ⟨rows, acc.table.nextId⟩ }

/-- Embedding of `describe_and_index_images` (lines 468-549). -/
def describe_and_index_images (vision : PyStr → VisionOutcome) (now : PyStr)
    (records : List ImageInventoryRecord) (table : ImagesTable) : CaptionAcc :=
  records.foldl (describeImageStep vision now) ⟨table, 0, []⟩

/-! ## Vector store (`backend/app/services/vector_store.py` `upsert`) -/

/-- Chroma `upsert`: keyed insert-or-replace per embedding record id
(the embedding vectors themselves carry no claim-relevant content and
are not modelled). -/
def vectorUpsert (store : List (PyStr × EmbeddingRecord))
    (recs : List EmbeddingRecord) : List (PyStr × EmbeddingRecord) :=
  recs.foldl (fun s r => assocSet s r.vector_id r) store

/-! ## Archive model and ingestion orchestrator
(services/ufdr_ingest.py lines 81-213, utils/file_ops.py lines 26-60) -/

/-- A discovered message database: its path inside the extraction
directory and its parse outcome (`Except.error` models any exception
raised while reading the file, isolated per file by the orchestrator). -/
structure MsgDbFile where
  relPath : SrcPath
  parse : Except PyStr (List DbTable)

/-- A discovered contact database. -/
structure ContactDbFile where
  relPath : SrcPath
  parse : Except PyStr (List DbTable)

/-- A discovered contacts XML file. -/
structure ContactXmlFile where
  relPath : SrcPath
  parse : Except PyStr (List XmlContact)

/-- A discovered property-list file; its content is modelled already
flattened to dotted/bracketed key paths, as `_flatten` produces. -/
structure PlistFile where
  relPath : SrcPath
  parse : Except PyStr (List (PyStr × PyStr))

/-- The classified content of one extracted archive
(`discover_sources`, lines 216-237). -/
structure Archive where
  msg_dbs : List MsgDbFile
  contact_dbs : List ContactDbFile
  contact_xml_files : List ContactXmlFile
  system_plists : List PlistFile
  image_files : List PyStr

/-- The three persistent stores plus the relational ledger tables. -/
structure Stores where
  messages : List MsgRow
  contacts : List ContactRow
  system_info : List (PyStr × PyStr × PyStr × PyStr)
  images : ImagesTable
  graph : GraphDB
  vectors : List (PyStr × EmbeddingRecord)
deriving DecidableEq, Repr

/-- Empty stores (fresh deployment); SQLite row ids start at 1. -/
def Stores.empty : Stores := ⟨[], [], [], ⟨[], 1⟩, ⟨[], []⟩, []⟩

/-- Collaborator configuration of one ingestion run: graph and vector
store enablement, the vision oracle, and the captioning wall clock. -/
structure RunConfig where
  graphEnabled : Bool
  vectorEnabled : Bool
  vision : PyStr → VisionOutcome
  now : PyStr

/-- The summary the orchestrator returns (schemas/ingestion.py). -/
structure IngestionSummary where
  archive_name : PyStr
  extraction_id : PyStr
  notes : List PyStr
  messages_ingested : Nat
  contacts_ingested : Nat
  system_records_ingested : Nat
  images_logged : Nat
  images_captioned : Nat
deriving DecidableEq, Repr

/-- Python `Path.stem`: basename without its last suffix. -/
def stemOf (base : PyStr) : PyStr :=
  if '.' ∈ base then (((base.reverse).dropWhile (· ≠ '.')).drop 1).reverse else base

/-- Note emitted after successfully parsing one message database. -/
def noteParsedMessages (n : Nat) (rel : PyStr) : PyStr :=
  pyStr "Parsed " ++ natToChars n ++ pyStr " messages from " ++ rel

/-- Note emitted when parsing one message database raises. -/
def noteFailedMessages (name exc : PyStr) : PyStr :=
  pyStr "Failed parsing messages from " ++ name ++ pyStr ": " ++ exc

/-- Note emitted after successfully parsing one contact database/XML. -/
def noteParsedContacts (n : Nat) (rel : PyStr) : PyStr :=
  pyStr "Parsed " ++ natToChars n ++ pyStr " contacts from " ++ rel

/-- Note emitted when parsing one contact database raises. -/
def noteFailedContacts (name exc : PyStr) : PyStr :=
  pyStr "Failed parsing contacts from " ++ name ++ pyStr ": " ++ exc

/-- Note emitted when parsing one contacts XML raises. -/
def noteFailedContactsXml (name exc : PyStr) : PyStr :=
  pyStr "Failed parsing contacts XML " ++ name ++ pyStr ": " ++ exc

/-- Note emitted after successfully parsing one plist. -/
def noteParsedSystem (n : Nat) (rel : PyStr) : PyStr :=
  pyStr "Parsed " ++ natToChars n ++ pyStr " system records from " ++ rel

/-- Note emitted when parsing one plist raises. -/
def noteFailedSystem (name exc : PyStr) : PyStr :=
  pyStr "Failed parsing system plist " ++ name ++ pyStr ": " ++ exc

/-- Mutable state of the orchestrator body (lines 107-201): ledger
tables, run-scoped graph state, accumulated notes, counters and message
embedding records. -/
structure PhaseState where
  messages : List MsgRow
  contacts : List ContactRow
  system_info : List (PyStr × PyStr × PyStr × PyStr)
  images : ImagesTable
  run : RunState
  notes : List PyStr
  messages_ingested : Nat
  contacts_ingested : Nat
  system_records_ingested : Nat
  msgEmbeddings : List EmbeddingRecord

/-- The message-database loop (lines 114-124): each file's failure is
caught, noted, and does not stop the remaining files. -/
def messagesPhase (graphEnabled : Bool) (extractionId : PyStr) (files : List MsgDbFile)
    (ps : PhaseState) : PhaseState :=
  files.foldl (fun ps f =>
    let dbPath := resolvePath extractionId f.relPath
    match f.parse with
    | .ok tables =>
      let r := ingest_messages_from_sqlite graphEnabled dbPath tables ps.messages ps.run
      { ps with
        messages := r.messages
        run := r.run
        messages_ingested := ps.messages_ingested + r.ingested
        msgEmbeddings := ps.msgEmbeddings ++ r.embeddings
        notes := ps.notes ++ [noteParsedMessages r.ingested f.relPath.render] }
    | .error e =>
      { ps with notes := ps.notes ++ [noteFailedMessages dbPath.name e] }) ps

/-- The contact-database loop (lines 126-134). -/
def contactDbsPhase (graphEnabled : Bool) (extractionId : PyStr)
    (files : List ContactDbFile) (ps : PhaseState) : PhaseState :=
  files.foldl (fun ps f =>
    let dbPath := resolvePath extractionId f.relPath
    match f.parse with
    | .ok tables =>
      let r := ingest_contacts_from_sqlite graphEnabled dbPath tables ps.contacts ps.run
      { ps with
        contacts := r.contacts
        run := r.run
        contacts_ingested := ps.contacts_ingested + r.ingested
        notes := ps.notes ++ [noteParsedContacts r.ingested f.relPath.render] }
    | .error e =>
      { ps with notes := ps.notes ++ [noteFailedContacts dbPath.name e] }) ps

/-- The contacts-XML loop (lines 136-143). -/
def contactXmlPhase (graphEnabled : Bool) (extractionId : PyStr)
    (files : List ContactXmlFile) (ps : PhaseState) : PhaseState :=
  files.foldl (fun ps f =>
    let xmlPath := resolvePath extractionId f.relPath
    match f.parse with
    | .ok elems =>
      let r := ingest_contacts_from_xml graphEnabled xmlPath elems ps.contacts ps.run
      { ps with
        contacts := r.contacts
        run := r.run
        contacts_ingested := ps.contacts_ingested + r.ingested
        notes := ps.notes ++ [noteParsedContacts r.ingested f.relPath.render] }
    | .error e =>
      { ps with notes := ps.notes ++ [noteFailedContactsXml xmlPath.name e] }) ps

/-- The plist loop (lines 145-153); `ingest_system_info_from_plist`
appends one `system_info` row per flattened leaf. -/
def plistPhase (extractionId : PyStr) (files : List PlistFile) (ps : PhaseState) :
    PhaseState :=
  files.foldl (fun ps f =>
    let plistPath := resolvePath extractionId f.relPath
    match f.parse with
    | .ok kvs =>
      { ps with
        system_info := ps.system_info ++
          kvs.map (fun kv => (kv.1, kv.2, stemOf plistPath.base, plistPath.render))
        system_records_ingested := ps.system_records_ingested + kvs.length
        notes := ps.notes ++ [noteParsedSystem kvs.length f.relPath.render] }
    | .error e =>
      { ps with notes := ps.notes ++ [noteFailedSystem plistPath.name e] }) ps

/-- Result of the orchestrator body: final stores plus summary, with the
run-scoped state exposed for the theorems. -/
structure RunOutcome where
  stores : Stores
  summary : IngestionSummary
  runState : RunState

/-- The tail of the orchestrator body (lines 155-213) after the four
source loops produced `ps4`: image inventory and captioning, the batched
vector upsert, the summary notes and counts. -/
def runFinish (cfg : RunConfig) (archiveName extractionId : PyStr) (s : Stores)
    (imageFiles : List PyStr) (ps4 : PhaseState) : RunOutcome :=
  let inv := log_image_inventory extractionId imageFiles ps4.images
  let notesImg :=
    if inv.processed ≠ 0 then
      [pyStr "Logged " ++ natToChars inv.processed ++
        pyStr " image references for Phase 3 processing"]
    else []
  let cap :=
    if inv.records ≠ [] then describe_and_index_images cfg.vision cfg.now inv.records inv.table
    else ⟨inv.table, 0, []⟩
  let notesCap :=
    if inv.records ≠ [] then
      if cap.successes ≠ 0 then
        [pyStr "Generated captions for " ++ natToChars cap.successes ++ pyStr " images"]
      else
        [pyStr "No image captions generated across " ++ natToChars inv.records.length ++
          pyStr " attempts; review logs for vision errors"]
    else []
  let combined := ps4.msgEmbeddings ++ cap.embeddings
  let vectors :=
    if cfg.vectorEnabled ∧ combined ≠ [] then vectorUpsert s.vectors combined else s.vectors
  let notesVec :=
    if cfg.vectorEnabled then
      if combined ≠ [] then
        let detail :=
          if ps4.msgEmbeddings ≠ [] ∧ cap.embeddings ≠ [] then
            natToChars ps4.msgEmbeddings.length ++ pyStr " messages and " ++
              natToChars cap.embeddings.length ++ pyStr " images"
          else if ps4.msgEmbeddings ≠ [] then natToChars ps4.msgEmbeddings.length ++ pyStr " messages"
          else natToChars cap.embeddings.length ++ pyStr " images"
        [pyStr "Stored embeddings for " ++ detail]
      else [pyStr "Vector store enabled but no content suitable for embeddings was found"]
    else [pyStr "Vector store disabled; set VECTOR_STORE_ENABLED=1 to enable embeddings"]
  let notesGraph :=
    if cfg.graphEnabled then
      if ps4.run.stats.contacts_registered ≠ 0 ∨ ps4.run.stats.relationships_registered ≠ 0 then
        [pyStr "Neo4j graph updated (" ++ natToChars ps4.run.stats.contacts_registered ++
          pyStr " contacts, " ++ natToChars ps4.run.stats.relationships_registered ++
          pyStr " message links)"]
      else [pyStr "Neo4j graph integration enabled; no new contacts or message links were added"]
    else
      [pyStr "Neo4j integration skipped (set NEO4J_ENABLED=1 and install Phase 2 requirements to enable)"]
  let notes := ps4.notes ++ notesImg ++ notesCap ++ notesVec ++ notesGraph
  { stores :=
      { messages := ps4.messages
        contacts := ps4.contacts
        system_info := ps4.system_info
        images := cap.table
        graph := ps4.run.graph
        vectors := vectors }
    summary :=
      { archive_name := archiveName
        extraction_id := extractionId
        notes := notes
        messages_ingested := ps4.messages_ingested
        contacts_ingested := ps4.contacts_ingested
        system_records_ingested := ps4.system_records_ingested
        images_logged := inv.processed
        images_captioned := cap.successes }
    runState := ps4.run }

/-- The orchestrator body (lines 104-213) after a successful extraction:
alias map cleared, fresh stats, the four source loops, then `runFinish`. -/
def runIngestion (cfg : RunConfig) (archive : Archive) (archiveName : PyStr)
    (extractionId : PyStr) (s : Stores) : RunOutcome :=
  let st0 : RunState := ⟨s.graph, GraphStats.init, [], []⟩
  let notes0 : List PyStr :=
    if archive.msg_dbs.isEmpty && archive.contact_dbs.isEmpty then
      [pyStr "No obvious message or contact databases were discovered. Review the extraction manually."]
    else []
  let ps0 : PhaseState := ⟨s.messages, s.contacts, s.system_info, s.images, st0, notes0,
    0, 0, 0, []⟩
  let ps1 := messagesPhase cfg.graphEnabled extractionId archive.msg_dbs ps0
  let ps2 := contactDbsPhase cfg.graphEnabled extractionId archive.contact_dbs ps1
  let ps3 := contactXmlPhase cfg.graphEnabled extractionId archive.contact_xml_files ps2
  let ps4 := plistPhase extractionId archive.system_plists ps3
  runFinish cfg archiveName extractionId s archive.image_files ps4

/-- Archive-level failure categories that surface to the caller as HTTP
errors (lines 81-102). -/
inductive ArchiveError
  | missingFilename
  | storageFull
  | persistFailure
  | badZip
deriving DecidableEq, Repr

/-- The pre-extraction stage of one upload: the client-supplied filename,
the outcome of `persist_upload`, and whether the saved file is a valid
zip. -/
structure UploadModel where
  filename : Option PyStr
  persistOutcome : Option ArchiveError
  zipValid : Bool

/-- Embedding of `ingest_ufdr_archive` (lines 81-213): archive-level
failures (missing filename, storage failure, corrupt zip) surface as
errors; otherwise the orchestrator body always returns a summary. -/
def ingest_ufdr_archive (cfg : RunConfig) (upload : UploadModel) (archive : Archive)
    (extractionId : PyStr) (s : Stores) : Except ArchiveError RunOutcome :=
  match upload.filename with
  | none => .error .missingFilename
  | some f =>
    if f = [] then .error .missingFilename
    else
      match upload.persistOutcome with
      | some e => .error e
      | none =>
        if ¬upload.zipValid then .error .badZip
        else .ok (runIngestion cfg archive f extractionId s)

/-! ## Claim C2: numeric timestamp normalization -/

/-- C2's example is refuted by the code: `700000000` does not exceed the
Apple epoch offset `978307200`, so no offset is subtracted and the code
renders Unix second `700000000` (1992-03-07), not Unix second
`700000000 + 978307200` (2023-03-08) as the claim asserts. -/
theorem c2_apple_epoch_counterexample :
    safe_parse_timestamp (some (pyStr "700000000")) =
      some (pyStr "1992-03-07T20:26:40+00:00") ∧
    isoOfUnixSeconds (700000000 + 978307200) = pyStr "2023-03-08T20:26:40+00:00" ∧
    pyStr "1992-03-07T20:26:40+00:00" ≠ pyStr "2023-03-08T20:26:40+00:00" :=
  ⟨by decide, by decide, by decide⟩

/-- C2 as amended: `normalizeTimestamp(700000000)` renders Unix second
`700000000` itself (the offset is subtracted only for values exceeding
it, and `700000000 ≤ 978307200`); in general the value is divided by
1000 only when it exceeds `1e12`, the Apple offset is subtracted only
when the (possibly divided) value exceeds it, and the result is rendered
as a UTC ISO-8601 instant of Unix-epoch seconds whenever it is within
`datetime`'s range, the original string being returned verbatim
otherwise. -/
theorem c2_numeric_timestamp_amended :
    safe_parse_timestamp (some (pyStr "700000000")) = some (isoOfUnixSeconds 700000000) ∧
    (∀ v : Int, v ≤ 10 ^ 12 →
      adjustNumericTimestamp v =
        if v > APPLE_EPOCH_OFFSET then v - APPLE_EPOCH_OFFSET else v) ∧
    (∀ v : Int, v > 10 ^ 12 →
      adjustNumericTimestamp v =
        if Int.fdiv v 1000 > APPLE_EPOCH_OFFSET then Int.fdiv v 1000 - APPLE_EPOCH_OFFSET
        else Int.fdiv v 1000) ∧
    (∀ v : Int, (if v > 10 ^ 12 then Int.fdiv v 1000 else v) ≤ APPLE_EPOCH_OFFSET →
      adjustNumericTimestamp v = (if v > 10 ^ 12 then Int.fdiv v 1000 else v)) ∧
    (∀ (v : Int) (s : PyStr),
      MIN_DATETIME_UNIX ≤ adjustNumericTimestamp v →
      adjustNumericTimestamp v ≤ MAX_DATETIME_UNIX →
      safeParseTimestampNum v s = isoOfUnixSeconds (adjustNumericTimestamp v)) ∧
    (∀ (v : Int) (s : PyStr),
      ¬(MIN_DATETIME_UNIX ≤ adjustNumericTimestamp v ∧
        adjustNumericTimestamp v ≤ MAX_DATETIME_UNIX) →
      safeParseTimestampNum v s = s) := by
  refine ⟨by decide, ?_, ?_, ?_, ?_, ?_⟩
  · intro v hv
    have hnot : ¬ v > 10 ^ 12 := by omega
    simp only [adjustNumericTimestamp, if_neg hnot]
  · intro v hv
    simp only [adjustNumericTimestamp, if_pos hv]
  · intro v hv
    have hnot : ¬ (if v > 10 ^ 12 then Int.fdiv v 1000 else v) > APPLE_EPOCH_OFFSET := by
      omega
    simp only [adjustNumericTimestamp]
    rw [if_neg hnot]
  · intro v s h1 h2
    unfold safeParseTimestampNum
    rw [if_pos ⟨h1, h2⟩]
  · intro v s h
    unfold safeParseTimestampNum
    rw [if_neg h]

/-- Witness for `c2_numeric_timestamp_amended`: its range-rendering
clause applied at `700000000`. -/
theorem c2_numeric_timestamp_amended_witness :
    safeParseTimestampNum 700000000 (pyStr "700000000") =
      isoOfUnixSeconds 700000000 := by
  have h := c2_numeric_timestamp_amended.2.2.2.2.1 700000000 (pyStr "700000000")
    (by decide) (by decide)
  rw [h, show adjustNumericTimestamp 700000000 = 700000000 from by decide]

/-! ## Claim C9: totality and fallbacks of timestamp normalization -/

/-- C9 confirmed on the model: `None` passes through, a numeric parse is
attempted first and wins when it succeeds, a non-numeric input that
parses as ISO-8601 is rendered with its offset — a naive value rendering
exactly as the same instant with an explicit UTC offset — and when both
parses fail the original string is returned verbatim, so in particular
`"not-a-date"` maps to itself.  (In the embedding the function is total
by construction, matching "never raises".) -/
theorem c9_normalize_timestamp_total :
    safe_parse_timestamp (some (pyStr "not-a-date")) = some (pyStr "not-a-date") ∧
    safe_parse_timestamp none = none ∧
    (∀ (s : PyStr) (v : Int), parsePyNumeric s = some v →
      safe_parse_timestamp (some s) = some (safeParseTimestampNum v s)) ∧
    (∀ (s : PyStr) (dt : PyDateTime), parsePyNumeric s = none → parsePyIso s = some dt →
      safe_parse_timestamp (some s) = some (isoOfPyDateTime dt)) ∧
    (∀ dt : PyDateTime, dt.tzOffsetMinutes = none →
      isoOfPyDateTime dt = isoOfPyDateTime { dt with tzOffsetMinutes := some 0 }) ∧
    (∀ s : PyStr, parsePyNumeric s = none → parsePyIso s = none →
      safe_parse_timestamp (some s) = some s) := by
  refine ⟨by decide, rfl, ?_, ?_, ?_, ?_⟩
  · intro s v h
    simp only [safe_parse_timestamp, h]
  · intro s dt h1 h2
    simp only [safe_parse_timestamp, h1, h2]
  · intro dt h
    simp [isoOfPyDateTime, h]
  · intro s h1 h2
    simp only [safe_parse_timestamp, h1, h2]

/-- Witness for `c9_normalize_timestamp_total`: the verbatim clause at
`"not-a-date"` and the ISO clause at `"2024-01-01T00:00:00"`. -/
theorem c9_normalize_timestamp_total_witness :
    safe_parse_timestamp (some (pyStr "not-a-date")) = some (pyStr "not-a-date") ∧
    safe_parse_timestamp (some (pyStr "2024-01-01T00:00:00")) =
      some (pyStr "2024-01-01T00:00:00+00:00") := by
  constructor
  · exact c9_normalize_timestamp_total.2.2.2.2.2 (pyStr "not-a-date") (by decide) (by decide)
  · have h := c9_normalize_timestamp_total.2.2.2.1 (pyStr "2024-01-01T00:00:00")
      ⟨2024, 1, 1, 0, 0, 0, none⟩ (by decide) (by decide)
    rw [h]
    decide

/-! ## Shared list lemmas -/

/-- An element of `l.zip (l.map f)` pairs each element with its image. -/
theorem snd_eq_of_mem_zip_map {α β : Type} {l : List α} {f : α → β} :
    ∀ p ∈ l.zip (l.map f), p.2 = f p.1 := by
  induction l with
  | nil => intro p hp; cases hp
  | cons x xs ih =>
    intro p hp
    rcases hp with _ | ⟨_, h⟩
    · rfl
    · exact ih p h

/-- Backfilling never changes the number of rows. -/
theorem backfill_length (tbl : List MsgRow) (eid v : PyStr) :
    (backfillVectorId tbl eid v).length = tbl.length := by
  simp [backfillVectorId]

/-- Backfilling preserves the presence of a `vector_id`. -/
theorem present_backfill {tbl : List MsgRow} {v : PyStr}
    (h : msgVectorIdPresent tbl v = true) (eid v' : PyStr) :
    msgVectorIdPresent (backfillVectorId tbl eid v') v = true := by
  simp only [msgVectorIdPresent, List.any_eq_true, decide_eq_true_eq] at h ⊢
  obtain ⟨r, hr, hv⟩ := h
  refine ⟨if r.external_id = eid then { r with vector_id := some (r.vector_id.getD v') }
    else r, List.mem_map_of_mem _ hr, ?_⟩
  by_cases he : r.external_id = eid
  · simp [he, hv]
  · simp [he, hv]

/-- After inserting a row carrying `vector_id = some v`, `v` is present. -/
theorem present_after_insert (tbl : List MsgRow) (row : MsgRow) (v : PyStr)
    (h : row.vector_id = some v) :
    msgVectorIdPresent (insertOrIgnoreMessage tbl row).1 v = true := by
  unfold insertOrIgnoreMessage
  rw [h]
  by_cases hp : msgVectorIdPresent tbl v
  · simp [hp]
  · simp only [hp, Bool.false_eq_true, if_false]
    simp only [msgVectorIdPresent, List.any_eq_true, decide_eq_true_eq]
    exact ⟨row, by simp, h⟩

/-! ## Claim C3: the ledger's only uniqueness is `vector_id` -/

/-- C3 confirmed: rows with NULL `vector_id` insert unconditionally (even
into a table already containing the identical row); a row whose
`vector_id` duplicates an existing one is skipped; a row whose
`vector_id` is fresh inserts no matter what else it duplicates; the
backfill leaves every row unchanged except that a row matching the
external id whose `vector_id` was NULL gains the new value — a non-NULL
`vector_id` is never overwritten; and a ledger row's `vector_id` is the
derived one, NULL exactly when the body is absent or blank. -/
theorem c3_vector_id_only_uniqueness :
    (∀ (tbl : List MsgRow) (row : MsgRow), row.vector_id = none →
      insertOrIgnoreMessage tbl row = (tbl ++ [row], true)) ∧
    (∀ (tbl : List MsgRow) (row : MsgRow) (v : PyStr), row.vector_id = some v →
      msgVectorIdPresent tbl v = true → insertOrIgnoreMessage tbl row = (tbl, false)) ∧
    (∀ (tbl : List MsgRow) (row : MsgRow) (v : PyStr), row.vector_id = some v →
      msgVectorIdPresent tbl v = false →
      insertOrIgnoreMessage tbl row = (tbl ++ [row], true)) ∧
    (∀ (tbl : List MsgRow) (eid v : PyStr) (p : MsgRow × MsgRow),
      p ∈ tbl.zip (backfillVectorId tbl eid v) →
      p.2 = { p.1 with vector_id := p.2.vector_id } ∧
      (p.2.vector_id ≠ p.1.vector_id →
        p.1.vector_id = none ∧ p.2.vector_id = some v ∧ p.1.external_id = eid)) ∧
    (∀ (d : SrcPath) (t : PyStr) (r : SrcRow),
      (buildMsgRow d t r).vector_id =
        messageVectorId (buildMsgRow d t r).body (buildMsgRow d t r).external_id) ∧
    (∀ e : PyStr, messageVectorId none e = none) := by
  refine ⟨?_, ?_, ?_, ?_, fun _ _ _ => rfl, fun _ => rfl⟩
  · intro tbl row h
    unfold insertOrIgnoreMessage
    rw [h]
  · intro tbl row v h hp
    unfold insertOrIgnoreMessage
    rw [h]
    simp [hp]
  · intro tbl row v h hp
    unfold insertOrIgnoreMessage
    rw [h]
    simp [hp]
  · intro tbl eid v p hp
    unfold backfillVectorId at hp
    obtain ⟨a, b⟩ := p
    have h2 := snd_eq_of_mem_zip_map _ hp
    simp only at h2
    by_cases he : a.external_id = eid
    · rw [if_pos he] at h2
      subst h2
      refine ⟨rfl, ?_⟩
      intro hne
      match hv : a.vector_id with
      | none => exact ⟨rfl, by simp [hv], he⟩
      | some w => exact absurd (by simp [hv]) hne
    · rw [if_neg he] at h2
      subst h2
      exact ⟨rfl, fun hne => absurd rfl hne⟩

/-- Witness for `c3_vector_id_only_uniqueness` at concrete rows: a
bodiless row re-inserts even when identical to an existing row, and a
duplicate `vector_id` is skipped. -/
theorem c3_vector_id_only_uniqueness_witness :
    insertOrIgnoreMessage
      [⟨pyStr "a.db:t:1", none, none, none, none, none, none, none, pyStr "s", none⟩]
      ⟨pyStr "a.db:t:1", none, none, none, none, none, none, none, pyStr "s", none⟩ =
      ([⟨pyStr "a.db:t:1", none, none, none, none, none, none, none, pyStr "s", none⟩,
        ⟨pyStr "a.db:t:1", none, none, none, none, none, none, none, pyStr "s", none⟩], true) ∧
    insertOrIgnoreMessage
      [⟨pyStr "a.db:t:1", none, none, none, none, some (pyStr "hi"), none, none, pyStr "s",
        some (pyStr "msg:a.db:t:1")⟩]
      ⟨pyStr "a.db:t:1", none, none, none, none, some (pyStr "hi"), none, none, pyStr "s2",
        some (pyStr "msg:a.db:t:1")⟩ =
      ([⟨pyStr "a.db:t:1", none, none, none, none, some (pyStr "hi"), none, none, pyStr "s",
        some (pyStr "msg:a.db:t:1")⟩], false) := by
  constructor
  · exact c3_vector_id_only_uniqueness.1 _ _ rfl
  · exact c3_vector_id_only_uniqueness.2.1 _ _ (pyStr "msg:a.db:t:1") rfl (by decide)

/-- A duplicate non-NULL `vector_id` makes `INSERT OR IGNORE` skip. -/
theorem insert_skip (tbl : List MsgRow) (row : MsgRow) (v : PyStr)
    (h : row.vector_id = some v) (hp : msgVectorIdPresent tbl v = true) :
    insertOrIgnoreMessage tbl row = (tbl, false) := by
  unfold insertOrIgnoreMessage
  rw [h]
  simp [hp]

/-- After one message-row step, a bodied row's `vector_id` is present in
the table. -/
theorem present_after_step (enabled : Bool) (p : SrcPath) (t : PyStr) (acc : MsgIngestAcc)
    (r : SrcRow) (v : PyStr) (h : (buildMsgRow p t r).vector_id = some v) :
    msgVectorIdPresent (ingestMessageRowStep enabled p t acc r).messages v = true := by
  have hins := present_after_insert acc.messages (buildMsgRow p t r) v h
  unfold ingestMessageRowStep
  simp only [h]
  by_cases hc : (insertOrIgnoreMessage acc.messages (buildMsgRow p t r)).2
  · simp only [hc, if_true]
    exact hins
  · simp only [hc, Bool.false_eq_true, if_false]
    exact present_backfill hins _ _

/-! ## Claim C10: message identity is built from the basename only -/

/-- C10 confirmed: external id and `vector_id` depend only on the
database file's basename, so two distinct paths sharing a basename give
identical identities to rows with equal table and rowid, and the bodied
row arriving from the second file is skipped by the `vector_id`
uniqueness check — the table's length and the ingested counter do not
move on the second step. -/
theorem c10_basename_identity :
    (∀ (p1 p2 : SrcPath) (t : PyStr) (rid : Nat), p1.base = p2.base →
      messageExternalId p1 t rid = messageExternalId p2 t rid) ∧
    (∀ (p1 p2 : SrcPath) (t : PyStr) (r : SrcRow), p1.base = p2.base →
      (buildMsgRow p1 t r).external_id = (buildMsgRow p2 t r).external_id ∧
      (buildMsgRow p1 t r).vector_id = (buildMsgRow p2 t r).vector_id) ∧
    (∀ (enabled : Bool) (p1 p2 : SrcPath) (t : PyStr) (r : SrcRow) (acc : MsgIngestAcc)
      (v : PyStr), p1.base = p2.base →
      (buildMsgRow p2 t r).vector_id = some v →
      (ingestMessageRowStep enabled p2 t
          (ingestMessageRowStep enabled p1 t acc r) r).messages.length =
        (ingestMessageRowStep enabled p1 t acc r).messages.length ∧
      (ingestMessageRowStep enabled p2 t
          (ingestMessageRowStep enabled p1 t acc r) r).ingested =
        (ingestMessageRowStep enabled p1 t acc r).ingested) := by
  have hext : ∀ (p1 p2 : SrcPath) (t : PyStr) (rid : Nat), p1.base = p2.base →
      messageExternalId p1 t rid = messageExternalId p2 t rid := by
    intro p1 p2 t rid h
    simp [messageExternalId, SrcPath.name, h]
  have hbuild : ∀ (p1 p2 : SrcPath) (t : PyStr) (r : SrcRow), p1.base = p2.base →
      (buildMsgRow p1 t r).external_id = (buildMsgRow p2 t r).external_id ∧
      (buildMsgRow p1 t r).vector_id = (buildMsgRow p2 t r).vector_id := by
    intro p1 p2 t r h
    constructor
    · exact hext p1 p2 t r.rowid h
    · show messageVectorId _ (messageExternalId p1 t r.rowid) =
        messageVectorId _ (messageExternalId p2 t r.rowid)
      rw [hext p1 p2 t r.rowid h]
  refine ⟨hext, hbuild, ?_⟩
  intro enabled p1 p2 t r acc v h hv2
  have hv1 : (buildMsgRow p1 t r).vector_id = some v := by
    rw [(hbuild p1 p2 t r h).2]; exact hv2
  have hpres := present_after_step enabled p1 t acc r v hv1
  have hskip := insert_skip (ingestMessageRowStep enabled p1 t acc r).messages
    (buildMsgRow p2 t r) v hv2 hpres
  generalize hacc1 : ingestMessageRowStep enabled p1 t acc r = acc1 at hskip ⊢
  constructor
  · show (ingestMessageRowStep enabled p2 t acc1 r).messages.length = _
    unfold ingestMessageRowStep
    simp only [hskip, hv2, Bool.false_eq_true, if_false]
    exact backfill_length _ _ _
  · show (ingestMessageRowStep enabled p2 t acc1 r).ingested = _
    unfold ingestMessageRowStep
    simp only [hskip, Bool.false_eq_true, if_false]

/-- Witness for `c10_basename_identity`: two files named `chat.db` in
different directories, one bodied row each; the second step inserts
nothing. -/
theorem c10_basename_identity_witness :
    (ingestMessageRowStep false ⟨[pyStr "y"], pyStr "chat.db"⟩ (pyStr "msgs")
        (ingestMessageRowStep false ⟨[pyStr "x"], pyStr "chat.db"⟩ (pyStr "msgs")
          ⟨[], ⟨⟨[], []⟩, GraphStats.init, [], []⟩, 0, []⟩
          ⟨1, [(pyStr "text", some (pyStr "hi")), (pyStr "date", some (pyStr "1"))]⟩)
        ⟨1, [(pyStr "text", some (pyStr "hi")), (pyStr "date", some (pyStr "1"))]⟩).messages.length =
      (ingestMessageRowStep false ⟨[pyStr "x"], pyStr "chat.db"⟩ (pyStr "msgs")
        ⟨[], ⟨⟨[], []⟩, GraphStats.init, [], []⟩, 0, []⟩
        ⟨1, [(pyStr "text", some (pyStr "hi")), (pyStr "date", some (pyStr "1"))]⟩).messages.length :=
  (c10_basename_identity.2.2 false ⟨[pyStr "x"], pyStr "chat.db"⟩ ⟨[pyStr "y"], pyStr "chat.db"⟩
    (pyStr "msgs") ⟨1, [(pyStr "text", some (pyStr "hi")), (pyStr "date", some (pyStr "1"))]⟩
    ⟨[], ⟨⟨[], []⟩, GraphStats.init, [], []⟩, 0, []⟩
    (pyStr "msg:chat.db:msgs:1") rfl (by decide)).1

/-! ## Association-list lemmas -/

/-- Looking up the key just set returns the new value. -/
theorem assocGet_set_self {α β : Type} [DecidableEq α] (m : List (α × β)) (k : α) (v : β) :
    assocGet (assocSet m k v) k = some v := by
  induction m with
  | nil => simp [assocSet, assocGet]
  | cons kv rest ih =>
    obtain ⟨k', v'⟩ := kv
    by_cases h : k' = k
    · simp [assocSet, assocGet, h]
    · simp [assocSet, assocGet, h, ih]

/-- Setting one key does not disturb lookups of another. -/
theorem assocGet_set_ne {α β : Type} [DecidableEq α] (m : List (α × β)) (k : α) (v : β)
    (k₂ : α) (h : k ≠ k₂) : assocGet (assocSet m k v) k₂ = assocGet m k₂ := by
  induction m with
  | nil => simp [assocSet, assocGet, h]
  | cons kv rest ih =>
    obtain ⟨k', v'⟩ := kv
    by_cases h' : k' = k
    · subst h'
      simp only [assocSet, if_pos rfl, assocGet]
      rw [if_neg h, if_neg h]
    · simp only [assocSet, if_neg h', assocGet]
      by_cases h₂ : k' = k₂
      · rw [if_pos h₂, if_pos h₂]
      · rw [if_neg h₂, if_neg h₂]
        exact ih

/-- A key absent from an association list looks up to `none`. -/
theorem assocGet_eq_none_of_not_mem {α β : Type} [DecidableEq α] (m : List (α × β)) (k : α)
    (h : k ∉ m.map Prod.fst) : assocGet m k = none := by
  induction m with
  | nil => rfl
  | cons kv rest ih =>
    obtain ⟨k', v'⟩ := kv
    simp only [List.map_cons, List.mem_cons] at h
    push_neg at h
    simp only [assocGet, if_neg (Ne.symm h.1)]
    exact ih h.2

/-- Python's `{**old, **new}` lookup law when the new dict is key-unique:
keys from `new` win, other keys fall through to `old`. -/
theorem dictMerge_get {β : Type} (new : List (PyStr × β)) (old : List (PyStr × β)) (k : PyStr)
    (h : (new.map Prod.fst).Nodup) :
    (∀ v, assocGet new k = some v → assocGet (dictMerge old new) k = some v) ∧
    (assocGet new k = none → assocGet (dictMerge old new) k = assocGet old k) := by
  induction new generalizing old with
  | nil => exact ⟨(fun v hv => by cases hv), (fun _ => rfl)⟩
  | cons kv rest ih =>
    obtain ⟨k₀, v₀⟩ := kv
    simp only [List.map_cons, List.nodup_cons] at h
    have hrest := ih (assocSet old k₀ v₀) h.2
    have hmerge : dictMerge old ((k₀, v₀) :: rest) = dictMerge (assocSet old k₀ v₀) rest := rfl
    constructor
    · intro v hv
      rw [hmerge]
      by_cases hk : k₀ = k
      · subst hk
        simp only [assocGet, if_pos rfl] at hv
        have hnone : assocGet rest k₀ = none :=
          assocGet_eq_none_of_not_mem rest k₀ h.1
        rw [hrest.2 hnone, assocGet_set_self]
        exact hv
      · simp only [assocGet, if_neg hk] at hv
        exact hrest.1 v hv
    · intro hv
      rw [hmerge]
      by_cases hk : k₀ = k
      · subst hk
        simp [assocGet] at hv
      · simp only [assocGet, if_neg hk] at hv
        rw [hrest.2 hv, assocGet_set_ne _ _ _ _ hk]

/-! ## Claim C4: image rediscovery -/

/-- C4 confirmed: on rediscovery of a path already in the `images` table
the row's metadata becomes the shallow merge of old and new (new keys
win, per `dictMerge_get`), its status is reset to `pending` unless the
stored status is case-insensitively `done` (in which case the status is
left untouched), and the batch handed to the captioner gains exactly the
reset rows — rows left `done` are excluded — while a first discovery
inserts a `pending` row and hands it to the captioner. -/
theorem c4_image_rediscovery :
    (∀ (old new : List (PyStr × PyStr)) (k : PyStr), (new.map Prod.fst).Nodup →
      (∀ v, assocGet new k = some v → assocGet (dictMerge old new) k = some v) ∧
      (assocGet new k = none → assocGet (dictMerge old new) k = assocGet old k)) ∧
    (∀ (extractionId relPath : PyStr) (acc : InventoryAcc) (existing : ImgRow),
      (extractionId ++ pyStr "/" ++ relPath) ∉ acc.seen →
      acc.table.rows.find? (fun r => r.file_path = extractionId ++ pyStr "/" ++ relPath) =
        some existing →
      (∀ p ∈ acc.table.rows.zip (logImageStep extractionId acc relPath).table.rows,
        (p.1.id ≠ existing.id → p.2 = p.1) ∧
        (p.1.id = existing.id →
          p.2.metadata = dictMerge existing.metadata
            (build_image_metadata (extractionId ++ pyStr "/" ++ relPath) relPath
              extractionId) ∧
          p.2.caption_status =
            (if pyLower (existing.caption_status.getD []) = pyStr "done" then
              p.1.caption_status
            else some (pyStr "pending")) ∧
          p.2.description = p.1.description ∧ p.2.vector_id = p.1.vector_id)) ∧
      (logImageStep extractionId acc relPath).records =
        (if pyLower (existing.caption_status.getD []) = pyStr "done" then acc.records
        else acc.records ++ [⟨existing.id, extractionId ++ pyStr "/" ++ relPath, relPath,
          dictMerge existing.metadata
            (build_image_metadata (extractionId ++ pyStr "/" ++ relPath) relPath
              extractionId)⟩])) ∧
    (∀ (extractionId relPath : PyStr) (acc : InventoryAcc),
      (extractionId ++ pyStr "/" ++ relPath) ∉ acc.seen →
      acc.table.rows.find? (fun r => r.file_path = extractionId ++ pyStr "/" ++ relPath) =
        none →
      (logImageStep extractionId acc relPath).table.rows =
        acc.table.rows ++ [⟨acc.table.nextId, extractionId ++ pyStr "/" ++ relPath, relPath,
          pyStr "ufdr",
          build_image_metadata (extractionId ++ pyStr "/" ++ relPath) relPath extractionId,
          none, none, none, none, some (pyStr "pending"), none, none⟩] ∧
      (logImageStep extractionId acc relPath).records =
        acc.records ++ [⟨acc.table.nextId, extractionId ++ pyStr "/" ++ relPath, relPath,
          build_image_metadata (extractionId ++ pyStr "/" ++ relPath) relPath
            extractionId⟩]) := by
  refine ⟨fun old new k h => dictMerge_get new old k h, ?_, ?_⟩
  · intro extractionId relPath acc existing hseen hfound
    unfold logImageStep
    rw [if_neg hseen, hfound]
    by_cases hdone : pyLower (existing.caption_status.getD []) = pyStr "done"
    · simp only [hdone, ne_eq, not_true_eq_false, if_false, if_pos hdone]
      refine ⟨?_, rfl⟩
      intro p hp
      have h2 := snd_eq_of_mem_zip_map _ hp
      simp only at h2
      constructor
      · intro hne
        rw [h2, if_neg hne]
      · intro heq
        rw [h2, if_pos heq]
        exact ⟨rfl, rfl, rfl, rfl⟩
    · simp only [hdone, ne_eq, not_false_eq_true, if_true, if_neg hdone]
      refine ⟨?_, rfl⟩
      intro p hp
      rw [List.map_map] at hp
      have h2 := snd_eq_of_mem_zip_map _ hp
      simp only [Function.comp] at h2
      constructor
      · intro hne
        rw [h2, if_neg hne, if_neg hne]
      · intro heq
        rw [h2, if_pos heq, if_pos heq]
        exact ⟨rfl, rfl, rfl, rfl⟩
  · intro extractionId relPath acc hseen hfound
    unfold logImageStep
    rw [if_neg hseen, hfound]
    exact ⟨rfl, rfl⟩

/-- Witness for `c4_image_rediscovery`: a previously `failed` image row is
rediscovered, reset and re-queued for captioning with merged metadata. -/
theorem c4_image_rediscovery_witness :
    (logImageStep (pyStr "e1")
      ⟨⟨[⟨1, pyStr "e1/a.jpg", pyStr "a.jpg", pyStr "ufdr", [(pyStr "k", pyStr "old")], none,
        none, none, none, some (pyStr "failed"), some (pyStr "boom"), some (pyStr "T")⟩], 2⟩,
        [], 0, []⟩ (pyStr "a.jpg")).records =
      [⟨1, pyStr "e1/a.jpg", pyStr "a.jpg",
        dictMerge [(pyStr "k", pyStr "old")]
          (build_image_metadata (pyStr "e1/a.jpg") (pyStr "a.jpg") (pyStr "e1"))⟩] := by
  have h := (c4_image_rediscovery.2.1 (pyStr "e1") (pyStr "a.jpg")
    ⟨⟨[⟨1, pyStr "e1/a.jpg", pyStr "a.jpg", pyStr "ufdr", [(pyStr "k", pyStr "old")], none,
      none, none, none, some (pyStr "failed"), some (pyStr "boom"), some (pyStr "T")⟩], 2⟩,
      [], 0, []⟩
    ⟨1, pyStr "e1/a.jpg", pyStr "a.jpg", pyStr "ufdr", [(pyStr "k", pyStr "old")], none,
      none, none, none, some (pyStr "failed"), some (pyStr "boom"), some (pyStr "T")⟩
    (by decide) (by decide)).2
  exact h.trans (by decide)

/-! ## Captioning lemmas (for claim C7) -/

/-- Whether the vision oracle succeeds on a record. -/
def visionOk (vision : PyStr → VisionOutcome) (r : ImageInventoryRecord) : Bool :=
  match vision r.file_path with
  | .ok _ => true
  | .err _ => false

/-- The success counter counts exactly the records whose vision call
succeeds, whatever happened before them. -/
theorem captions_successes (vision : PyStr → VisionOutcome) (now : PyStr)
    (records : List ImageInventoryRecord) : ∀ acc : CaptionAcc,
    (records.foldl (describeImageStep vision now) acc).successes =
      acc.successes + (records.filter (visionOk vision)).length := by
  induction records with
  | nil => intro acc; simp
  | cons x rest ih =>
    intro acc
    simp only [List.foldl_cons, List.filter_cons, ih]
    cases hv : vision x.file_path with
    | ok d =>
      have hstep : (describeImageStep vision now acc x).successes = acc.successes + 1 := by
        unfold describeImageStep
        rw [hv]
      rw [hstep, show visionOk vision x = true from by unfold visionOk; rw [hv]]
      simp
      omega
    | err m =>
      have hstep : (describeImageStep vision now acc x).successes = acc.successes := by
        unfold describeImageStep
        rw [hv]
      rw [hstep, show visionOk vision x = false from by unfold visionOk; rw [hv]]
      simp

/-- The embedding records' ids are exactly `img:{id}` for the succeeding
records, in order. -/
theorem captions_embedding_ids (vision : PyStr → VisionOutcome) (now : PyStr)
    (records : List ImageInventoryRecord) : ∀ acc : CaptionAcc,
    (records.foldl (describeImageStep vision now) acc).embeddings.map
        (fun e => e.vector_id) =
      acc.embeddings.map (fun e => e.vector_id) ++
        (records.filter (visionOk vision)).map (fun r => pyStr "img:" ++ natToChars r.id) := by
  induction records with
  | nil => intro acc; simp
  | cons x rest ih =>
    intro acc
    simp only [List.foldl_cons, List.filter_cons, ih]
    cases hv : vision x.file_path with
    | ok d =>
      have hstep : (describeImageStep vision now acc x).embeddings.map
          (fun e => e.vector_id) =
          acc.embeddings.map (fun e => e.vector_id) ++ [pyStr "img:" ++ natToChars x.id] := by
        unfold describeImageStep
        rw [hv]
        simp
      rw [hstep, show visionOk vision x = true from by unfold visionOk; rw [hv]]
      simp
    | err m =>
      have hstep : (describeImageStep vision now acc x).embeddings = acc.embeddings := by
        unfold describeImageStep
        rw [hv]
      rw [hstep, show visionOk vision x = false from by unfold visionOk; rw [hv]]
      simp

/-- Filtering on an id untouched by a per-id row update is unchanged. -/
theorem filter_id_update_ne (rows : List ImgRow) (g : ImgRow → ImgRow) (j i : Nat)
    (hg : ∀ r, (g r).id = r.id) (hne : j ≠ i) :
    ((rows.map (fun r => if r.id = j then g r else r)).filter (fun r => r.id = i)) =
      rows.filter (fun r => r.id = i) := by
  induction rows with
  | nil => rfl
  | cons x rest ih =>
    simp only [List.map_cons, List.filter_cons]
    by_cases hx : x.id = j
    · rw [if_pos hx]
      have h1 : ((g x).id = i) = False := by simp [hg x, hx, hne]
      have h2 : (x.id = i) = False := by simp [hx, hne]
      simp only [h1, h2, decide_False, Bool.false_eq_true, if_false]
      exact ih
    · rw [if_neg hx]
      by_cases hi : x.id = i
      · simp only [hi, decide_True, if_true]
        rw [ih]
      · simp only [hi, decide_False, Bool.false_eq_true, if_false]
        exact ih

/-- Filtering on the updated id maps the update over the old filtrate. -/
theorem filter_id_update_eq (rows : List ImgRow) (g : ImgRow → ImgRow) (j : Nat)
    (hg : ∀ r, (g r).id = r.id) :
    ((rows.map (fun r => if r.id = j then g r else r)).filter (fun r => r.id = j)) =
      (rows.filter (fun r => r.id = j)).map g := by
  induction rows with
  | nil => rfl
  | cons x rest ih =>
    simp only [List.map_cons, List.filter_cons]
    by_cases hx : x.id = j
    · rw [if_pos hx]
      have h1 : ((g x).id = j) = True := by simp [hg x, hx]
      have h2 : (x.id = j) = True := by simp [hx]
      simp only [h1, h2, decide_True, if_true, List.map_cons]
      rw [ih]
    · rw [if_neg hx]
      have h2 : (x.id = j) = False := by simp [hx]
      simp only [h2, decide_False, Bool.false_eq_true, if_false]
      exact ih

/-- A captioning step for a record with a different id leaves the rows
carrying id `i` untouched. -/
theorem caption_step_other_id (vision : PyStr → VisionOutcome) (now : PyStr)
    (acc : CaptionAcc) (record : ImageInventoryRecord) (i : Nat) (h : record.id ≠ i) :
    ((describeImageStep vision now acc record).table.rows.filter (fun r => r.id = i)) =
      acc.table.rows.filter (fun r => r.id = i) := by
  unfold describeImageStep
  cases hv : vision record.file_path with
  | ok d => exact filter_id_update_ne _ _ _ _ (fun r => rfl) h
  | err m => exact filter_id_update_ne _ _ _ _ (fun r => rfl) h

/-- A whole captioning pass over records none of which carries id `i`
leaves the rows with id `i` untouched. -/
theorem caption_fold_other_id (vision : PyStr → VisionOutcome) (now : PyStr) (i : Nat) :
    ∀ records : List ImageInventoryRecord, (∀ rec ∈ records, rec.id ≠ i) →
    ∀ acc : CaptionAcc,
    ((records.foldl (describeImageStep vision now) acc).table.rows.filter
        (fun r => r.id = i)) =
      acc.table.rows.filter (fun r => r.id = i) := by
  intro records
  induction records with
  | nil => intro _ acc; rfl
  | cons x rest ih =>
    intro h acc
    simp only [List.foldl_cons]
    rw [ih (fun rec hr => h rec (List.mem_cons_of_mem _ hr)) _]
    exact caption_step_other_id vision now acc x i (h x (List.mem_cons_self _ _))

/-- The failing step rewrites every row carrying the record's id to the
`failed` state with the truncated error and the timestamp. -/
theorem caption_step_err_rows (vision : PyStr → VisionOutcome) (now : PyStr)
    (acc : CaptionAcc) (record : ImageInventoryRecord) (m : PyStr)
    (hv : vision record.file_path = .err m) :
    ((describeImageStep vision now acc record).table.rows.filter
        (fun r => r.id = record.id)) =
      (acc.table.rows.filter (fun r => r.id = record.id)).map
        (fun r =>
          { r with
            caption_status := some (pyStr "failed")
            caption_error := some (m.take 512)
            last_captioned_at := some now }) := by
  unfold describeImageStep
  rw [hv]
  exact filter_id_update_eq _ _ _ (fun r => rfl)

/-- Through a whole captioning pass with batch-unique ids, a record whose
vision call fails leaves every row carrying its id in the `failed` state
with the truncated error and timestamp. -/
theorem caption_fold_err_rows (vision : PyStr → VisionOutcome) (now : PyStr) :
    ∀ (records : List ImageInventoryRecord) (acc : CaptionAcc)
      (rec : ImageInventoryRecord) (m : PyStr),
      (records.map (fun r => r.id)).Nodup → rec ∈ records →
      vision rec.file_path = .err m →
      ∀ row ∈ (records.foldl (describeImageStep vision now) acc).table.rows,
        row.id = rec.id →
        row.caption_status = some (pyStr "failed") ∧
        row.caption_error = some (m.take 512) ∧
        row.last_captioned_at = some now := by
  intro records
  induction records with
  | nil => intro acc rec m _ hmem; cases hmem
  | cons x rest ih =>
    intro acc rec m hnodup hmem hv row hrow hid
    simp only [List.map_cons, List.nodup_cons] at hnodup
    rcases List.mem_cons.mp hmem with heq | hmem'
    · subst heq
      have hne : ∀ r' ∈ rest, r'.id ≠ rec.id := by
        intro r' hr' hcontra
        exact hnodup.1 (hcontra ▸ List.mem_map_of_mem (fun r => r.id) hr')
      simp only [List.foldl_cons] at hrow
      have hmemf : row ∈ ((rest.foldl (describeImageStep vision now)
          (describeImageStep vision now acc rec)).table.rows.filter
            (fun r => r.id = rec.id)) :=
        List.mem_filter.mpr ⟨hrow, by simp [hid]⟩
      rw [caption_fold_other_id vision now rec.id rest hne _,
        caption_step_err_rows vision now acc rec m hv] at hmemf
      obtain ⟨r₀, _, hmap⟩ := List.mem_map.mp hmemf
      rw [← hmap]
      exact ⟨rfl, rfl, rfl⟩
    · simp only [List.foldl_cons] at hrow
      exact ih (describeImageStep vision now acc x) rec m hnodup.2 hmem' hv row hrow hid

/-! ## Claim C7: per-image captioning failure isolation -/

/-- C7 confirmed: the success counter counts exactly the records whose
vision call succeeds (so an earlier failure never blocks a later
success); the emitted embedding ids are exactly `img:{id}` of the
succeeding records, hence a failed record (under batch-unique ids)
contributes none; and every row carrying a failed record's id ends in
status `failed` with the error truncated to 512 characters and the
timestamp. -/
theorem c7_per_image_failure_isolation :
    (∀ (vision : PyStr → VisionOutcome) (now : PyStr)
      (records : List ImageInventoryRecord) (table : ImagesTable),
      (describe_and_index_images vision now records table).successes =
        (records.filter (visionOk vision)).length) ∧
    (∀ (vision : PyStr → VisionOutcome) (now : PyStr)
      (records : List ImageInventoryRecord) (table : ImagesTable),
      (describe_and_index_images vision now records table).embeddings.map
          (fun e => e.vector_id) =
        (records.filter (visionOk vision)).map
          (fun r => pyStr "img:" ++ natToChars r.id)) ∧
    (∀ (vision : PyStr → VisionOutcome) (records : List ImageInventoryRecord)
      (rec : ImageInventoryRecord) (m : PyStr),
      (records.map (fun r => r.id)).Nodup → rec ∈ records →
      vision rec.file_path = .err m →
      rec.id ∉ (records.filter (visionOk vision)).map (fun r => r.id)) ∧
    (∀ (vision : PyStr → VisionOutcome) (now : PyStr)
      (records : List ImageInventoryRecord) (table : ImagesTable)
      (rec : ImageInventoryRecord) (m : PyStr),
      (records.map (fun r => r.id)).Nodup → rec ∈ records →
      vision rec.file_path = .err m →
      ∀ row ∈ (describe_and_index_images vision now records table).table.rows,
        row.id = rec.id →
        row.caption_status = some (pyStr "failed") ∧
        row.caption_error = some (m.take 512) ∧
        row.last_captioned_at = some now) := by
  refine ⟨?_, ?_, ?_, ?_⟩
  · intro vision now records table
    unfold describe_and_index_images
    rw [captions_successes vision now records ⟨table, 0, []⟩]
    simp
  · intro vision now records table
    unfold describe_and_index_images
    rw [captions_embedding_ids vision now records ⟨table, 0, []⟩]
    rfl
  · intro vision records rec m hnodup hmem hv hcontra
    obtain ⟨r', hr', hid⟩ := List.mem_map.mp hcontra
    obtain ⟨hr'mem, hok⟩ := List.mem_filter.mp hr'
    have : r' = rec := List.inj_on_of_nodup_map hnodup hr'mem hmem hid
    subst this
    unfold visionOk at hok
    rw [hv] at hok
    cases hok
  · intro vision now records table rec m hnodup hmem hv
    exact caption_fold_err_rows vision now records ⟨table, 0, []⟩ rec m hnodup hmem hv

/-- Witness for `c7_per_image_failure_isolation`: a two-image batch whose
first vision call fails and second succeeds — one success is still
counted and the first row is marked failed. -/
theorem c7_per_image_failure_isolation_witness :
    (describe_and_index_images
        (fun p => if p = pyStr "p1" then VisionOutcome.err (pyStr "boom")
          else VisionOutcome.ok ⟨pyStr "cap", [], none⟩)
        (pyStr "T") [⟨1, pyStr "p1", pyStr "p1", []⟩, ⟨2, pyStr "p2", pyStr "p2", []⟩]
        ⟨[⟨1, pyStr "p1", pyStr "p1", pyStr "ufdr", [], none, none, none, none,
            some (pyStr "pending"), none, none⟩,
          ⟨2, pyStr "p2", pyStr "p2", pyStr "ufdr", [], none, none, none, none,
            some (pyStr "pending"), none, none⟩], 3⟩).successes = 1 ∧
    (⟨1, pyStr "p1", pyStr "p1", pyStr "ufdr", [], none, none, none, none,
        some (pyStr "failed"), some (pyStr "boom"), some (pyStr "T")⟩ : ImgRow).caption_status =
      some (pyStr "failed") := by
  constructor
  · rw [c7_per_image_failure_isolation.1
      (fun p => if p = pyStr "p1" then VisionOutcome.err (pyStr "boom")
        else VisionOutcome.ok ⟨pyStr "cap", [], none⟩)
      (pyStr "T") [⟨1, pyStr "p1", pyStr "p1", []⟩, ⟨2, pyStr "p2", pyStr "p2", []⟩]
      ⟨[⟨1, pyStr "p1", pyStr "p1", pyStr "ufdr", [], none, none, none, none,
          some (pyStr "pending"), none, none⟩,
        ⟨2, pyStr "p2", pyStr "p2", pyStr "ufdr", [], none, none, none, none,
          some (pyStr "pending"), none, none⟩], 3⟩]
    decide
  · exact (c7_per_image_failure_isolation.2.2.2
      (fun p => if p = pyStr "p1" then VisionOutcome.err (pyStr "boom")
        else VisionOutcome.ok ⟨pyStr "cap", [], none⟩)
      (pyStr "T") [⟨1, pyStr "p1", pyStr "p1", []⟩, ⟨2, pyStr "p2", pyStr "p2", []⟩]
      ⟨[⟨1, pyStr "p1", pyStr "p1", pyStr "ufdr", [], none, none, none, none,
          some (pyStr "pending"), none, none⟩,
        ⟨2, pyStr "p2", pyStr "p2", pyStr "ufdr", [], none, none, none, none,
          some (pyStr "pending"), none, none⟩], 3⟩
      ⟨1, pyStr "p1", pyStr "p1", []⟩ (pyStr "boom") (by decide) (by decide) (by decide)
      ⟨1, pyStr "p1", pyStr "p1", pyStr "ufdr", [], none, none, none, none,
        some (pyStr "failed"), some (pyStr "boom"), some (pyStr "T")⟩
      (by decide) (by decide)).1

/-! ## Contact-registration lemmas (for claim C6) -/

/-- With the graph enabled, `register_person` on a non-empty identifier
reports success. -/
theorem register_person_success (g : GraphDB) (id : PyStr)
    (dn gn fn ri so : Option PyStr) (h : id ≠ []) :
    (register_person true g id dn gn fn ri so).2 = true := by
  unfold register_person
  simp [h]

/-- A produced candidate pair always has a non-empty canonical id. -/
theorem canonicalPair_fst_ne_nil (raw : Option PyStr) (q : PyStr × PyStr)
    (h : canonicalPair raw = some q) : q.1 ≠ [] := by
  unfold canonicalPair at h
  match hc : canonicalize_actor raw with
  | none => simp only [hc] at h; cases h
  | some canon =>
    simp only [hc] at h
    by_cases hcn : canon = []
    · rw [if_pos hcn] at h; cases h
    · rw [if_neg hcn] at h
      cases h
      exact hcn

/-- Every candidate identifier of a contact has a non-empty (truthy)
canonical id. -/
theorem contactIdentifiers_fst_ne_nil (c : ContactFields) :
    ∀ p ∈ contactIdentifiers c, p.1 ≠ [] := by
  intro p hp
  unfold contactIdentifiers at hp
  simp only at hp
  split at hp
  · match hd : c.display_name with
    | none => simp only [hd] at hp; cases hp
    | some dn =>
      simp only [hd] at hp
      by_cases hdn : dn = []
      · rw [if_pos hdn] at hp; cases hp
      · rw [if_neg hdn] at hp
        obtain ⟨q, hq, hpq⟩ := List.mem_map.mp hp
        have hq' : canonicalPair (some dn) = some q := by
          match hc : canonicalPair (some dn) with
          | none => simp only [hc] at hq; cases hq
          | some q' =>
            simp only [hc] at hq
            simp only [Option.toList_some, List.mem_singleton] at hq
            subst hq
            rfl
        rw [← hpq]
        exact canonicalPair_fst_ne_nil (some dn) q hq'
  · obtain ⟨raw, _, heq⟩ := List.mem_filterMap.mp hp
    exact canonicalPair_fst_ne_nil raw p heq

/-- The stats and call-log effect of one identifier-loop iteration with
the graph enabled: the call is always logged; the seen-set and counter
move only when the canonical id is new. -/
theorem contact_step_chars (c : ContactFields) (source : PyStr) (st : RunState)
    (cr : PyStr × PyStr) (h : cr.1 ≠ []) :
    ((contactRegisterStep true c source st cr).stats.seen_contact_identifiers =
      if cr.1 ∈ st.stats.seen_contact_identifiers then st.stats.seen_contact_identifiers
      else st.stats.seen_contact_identifiers ++ [cr.1]) ∧
    ((contactRegisterStep true c source st cr).stats.contacts_registered =
      if cr.1 ∈ st.stats.seen_contact_identifiers then st.stats.contacts_registered
      else st.stats.contacts_registered + 1) ∧
    ((contactRegisterStep true c source st cr).personCalls =
      st.personCalls ++ [cr.1]) := by
  simp only [contactRegisterStep]
  rw [register_person_success st.graph cr.1 (contactPreferredName c) c.given_name
    c.family_name (some cr.2) (some source) h]
  simp only [if_true]
  by_cases hm : cr.1 ∈ st.stats.seen_contact_identifiers
  · simp only [hm, if_true]
    cases pyOr (contactPreferredName c) (some cr.2) with
    | some av => exact ⟨rfl, rfl, rfl⟩
    | none => exact ⟨rfl, rfl, rfl⟩
  · simp only [hm, if_false]
    cases pyOr (contactPreferredName c) (some cr.2) with
    | some av => exact ⟨rfl, rfl, rfl⟩
    | none => exact ⟨rfl, rfl, rfl⟩

/-- One identifier-loop iteration always logs its `register_person` call,
successful or not, seen or not. -/
theorem contact_step_calls (c : ContactFields) (source : PyStr) (st : RunState)
    (cr : PyStr × PyStr) :
    (contactRegisterStep true c source st cr).personCalls = st.personCalls ++ [cr.1] := by
  simp only [contactRegisterStep]
  cases hr : (register_person true st.graph cr.1 (contactPreferredName c) c.given_name
      c.family_name (some cr.2) (some source)).2 with
  | false => simp only [hr, Bool.false_eq_true, if_false]
  | true =>
    simp only [hr, if_true]
    by_cases hm : cr.1 ∈ st.stats.seen_contact_identifiers
    · simp only [hm, if_true]
      cases pyOr (contactPreferredName c) (some cr.2) <;> rfl
    · simp only [hm, if_false]
      cases pyOr (contactPreferredName c) (some cr.2) <;> rfl

/-- The identifier loop logs one `register_person` call per identifier. -/
theorem contact_fold_calls (c : ContactFields) (source : PyStr) :
    ∀ (ids : List (PyStr × PyStr)) (st : RunState),
      (ids.foldl (contactRegisterStep true c source) st).personCalls =
        st.personCalls ++ ids.map (fun p => p.1) := by
  intro ids
  induction ids with
  | nil => intro st; simp
  | cons cr rest ih =>
    intro st
    simp only [List.foldl_cons, List.map_cons]
    rw [ih, contact_step_calls c source st cr]
    simp

/-- Invariant of the identifier loop: the seen-set stays duplicate-free,
the counter stays equal to its size (so it moves at most once per
canonical id), the seen-set only grows, and one `register_person` call is
issued per identifier occurrence, seen or not. -/
theorem contact_fold_seen_invariant (c : ContactFields) (source : PyStr) :
    ∀ (ids : List (PyStr × PyStr)) (st : RunState),
      (∀ p ∈ ids, p.1 ≠ []) →
      st.stats.seen_contact_identifiers.Nodup →
      st.stats.contacts_registered = st.stats.seen_contact_identifiers.length →
      (ids.foldl (contactRegisterStep true c source) st).stats.seen_contact_identifiers.Nodup ∧
      (ids.foldl (contactRegisterStep true c source) st).stats.contacts_registered =
        (ids.foldl (contactRegisterStep true c source)
          st).stats.seen_contact_identifiers.length ∧
      (∀ i ∈ st.stats.seen_contact_identifiers,
        i ∈ (ids.foldl (contactRegisterStep true c source)
          st).stats.seen_contact_identifiers) ∧
      (ids.foldl (contactRegisterStep true c source) st).personCalls =
        st.personCalls ++ ids.map (fun p => p.1) := by
  intro ids
  induction ids with
  | nil => intro st _ h1 h2; exact ⟨h1, h2, fun i hi => hi, by simp⟩
  | cons cr rest ih =>
    intro st hne h1 h2
    simp only [List.foldl_cons, List.map_cons]
    have hcr := contact_step_chars c source st cr (hne cr (List.mem_cons_self _ _))
    have h1' : (contactRegisterStep true c source st cr).stats.seen_contact_identifiers.Nodup := by
      rw [hcr.1]
      by_cases hm : cr.1 ∈ st.stats.seen_contact_identifiers
      · simpa [hm] using h1
      · simp [hm, List.nodup_append, h1, List.disjoint_singleton]
    have h2' : (contactRegisterStep true c source st cr).stats.contacts_registered =
        (contactRegisterStep true c source st cr).stats.seen_contact_identifiers.length := by
      rw [hcr.1, hcr.2.1]
      by_cases hm : cr.1 ∈ st.stats.seen_contact_identifiers
      · simpa [hm] using h2
      · simp [hm, h2]
    obtain ⟨ha, hb, hc2, hd⟩ := ih (contactRegisterStep true c source st cr)
      (fun p hp => hne p (List.mem_cons_of_mem _ hp)) h1' h2'
    refine ⟨ha, hb, ?_, ?_⟩
    · intro i hi
      apply hc2
      rw [hcr.1]
      by_cases hm : cr.1 ∈ st.stats.seen_contact_identifiers
      · simpa [hm] using hi
      · simp only [hm, if_false]
        exact List.mem_append_left _ hi
    · rw [hd, hcr.2.2]
      simp

/-! ## Claim C6: the seen-set gates counting, not graph calls -/

/-- C6's "no further register-person call is issued for that same id" is
refuted: a second contact carrying the same phone number triggers a
second `register_person` call for the same canonical id in the same run
— visible both in the call log and in the person's `last_seen_source`,
which the second call overwrites — while the counter stays at 1. -/
theorem c6_second_call_counterexample :
    (register_contact_with_graph true
        ⟨some (pyStr "Jane"), none, none, some (pyStr "555-0001"), none⟩ (pyStr "s2")
        (register_contact_with_graph true
          ⟨some (pyStr "Jane"), none, none, some (pyStr "555-0001"), none⟩ (pyStr "s1")
          ⟨⟨[], []⟩, GraphStats.init, [], []⟩)).personCalls =
      [pyStr "5550001", pyStr "5550001"] ∧
    (register_contact_with_graph true
        ⟨some (pyStr "Jane"), none, none, some (pyStr "555-0001"), none⟩ (pyStr "s2")
        (register_contact_with_graph true
          ⟨some (pyStr "Jane"), none, none, some (pyStr "555-0001"), none⟩ (pyStr "s1")
          ⟨⟨[], []⟩, GraphStats.init, [], []⟩)).stats.contacts_registered = 1 ∧
    ((register_contact_with_graph true
        ⟨some (pyStr "Jane"), none, none, some (pyStr "555-0001"), none⟩ (pyStr "s2")
        (register_contact_with_graph true
          ⟨some (pyStr "Jane"), none, none, some (pyStr "555-0001"), none⟩ (pyStr "s1")
          ⟨⟨[], []⟩, GraphStats.init, [], []⟩)).graph.persons.map
            (fun kv => kv.2.last_seen_source)) = [some (pyStr "s2")] :=
  ⟨by decide, by decide, by decide⟩

/-- C6 as amended: within a run the seen-identifiers set prevents only
re-counting — the contacts-registered counter equals the size of the
duplicate-free seen-set, so it increases at most once per canonical id —
while a `register_person` call is issued for every candidate identifier
occurrence, already-seen or not (the graph write being a merge, this is
safe). -/
theorem c6_seen_set_gates_counting :
    (∀ (c : ContactFields) (source : PyStr) (st : RunState),
      st.stats.seen_contact_identifiers.Nodup →
      st.stats.contacts_registered = st.stats.seen_contact_identifiers.length →
      (register_contact_with_graph true c source st).stats.seen_contact_identifiers.Nodup ∧
      (register_contact_with_graph true c source st).stats.contacts_registered =
        (register_contact_with_graph true c source
          st).stats.seen_contact_identifiers.length ∧
      (∀ i ∈ st.stats.seen_contact_identifiers,
        i ∈ (register_contact_with_graph true c source
          st).stats.seen_contact_identifiers)) ∧
    (∀ (enabled : Bool) (c : ContactFields) (source : PyStr) (st : RunState),
      (register_contact_with_graph enabled c source st).personCalls =
        st.personCalls ++
          (if enabled then (contactIdentifiers c).map (fun p => p.1) else [])) := by
  constructor
  · intro c source st h1 h2
    unfold register_contact_with_graph
    simp only [not_true_eq_false, if_false, Bool.not_true]
    have h := contact_fold_seen_invariant c source (contactIdentifiers c) st
      (contactIdentifiers_fst_ne_nil c) h1 h2
    exact ⟨h.1, h.2.1, h.2.2.1⟩
  · intro enabled c source st
    cases enabled with
    | false => unfold register_contact_with_graph; simp
    | true =>
      unfold register_contact_with_graph
      simp only [not_true_eq_false, if_false, Bool.not_true, if_true]
      exact contact_fold_calls c source (contactIdentifiers c) st

/-- Witness for `c6_seen_set_gates_counting`: from a fresh run state, one
contact registration leaves the counter equal to the seen-set's size. -/
theorem c6_seen_set_gates_counting_witness :
    (register_contact_with_graph true
        ⟨some (pyStr "Jane"), none, none, some (pyStr "555-0001"), none⟩ (pyStr "s1")
        ⟨⟨[], []⟩, GraphStats.init, [], []⟩).stats.contacts_registered =
      (register_contact_with_graph true
        ⟨some (pyStr "Jane"), none, none, some (pyStr "555-0001"), none⟩ (pyStr "s1")
        ⟨⟨[], []⟩, GraphStats.init, [], []⟩).stats.seen_contact_identifiers.length :=
  (c6_seen_set_gates_counting.1
    ⟨some (pyStr "Jane"), none, none, some (pyStr "555-0001"), none⟩ (pyStr "s1")
    ⟨⟨[], []⟩, GraphStats.init, [], []⟩ (by decide) (by decide)).2.1

/-! ## Orchestrator lemmas (for claim C8): the source loops read and
write every phase-state field except `notes`, which they only append to. -/

/-- All phase-state fields except the notes. -/
structure PhaseCore where
  messages : List MsgRow
  contacts : List ContactRow
  system_info : List (PyStr × PyStr × PyStr × PyStr)
  images : ImagesTable
  run : RunState
  messages_ingested : Nat
  contacts_ingested : Nat
  system_records_ingested : Nat
  msgEmbeddings : List EmbeddingRecord
deriving DecidableEq

/-- Projection dropping the notes. -/
def PhaseState.core (ps : PhaseState) : PhaseCore :=
  ⟨ps.messages, ps.contacts, ps.system_info, ps.images, ps.run, ps.messages_ingested,
    ps.contacts_ingested, ps.system_records_ingested, ps.msgEmbeddings⟩

/-- The message-database loop's effect on the non-notes state does not
depend on the notes. -/
theorem messagesPhase_core_congr (g : Bool) (e : PyStr) :
    ∀ (files : List MsgDbFile) (ps₁ ps₂ : PhaseState), ps₁.core = ps₂.core →
      (messagesPhase g e files ps₁).core = (messagesPhase g e files ps₂).core := by
  intro files
  induction files with
  | nil => intro ps₁ ps₂ h; exact h
  | cons f rest ih =>
    intro ps₁ ps₂ h
    have hm : ps₁.messages = ps₂.messages := congrArg PhaseCore.messages h
    have hr : ps₁.run = ps₂.run := congrArg PhaseCore.run h
    have hc : ps₁.contacts = ps₂.contacts := congrArg PhaseCore.contacts h
    have hs : ps₁.system_info = ps₂.system_info := congrArg PhaseCore.system_info h
    have hi : ps₁.images = ps₂.images := congrArg PhaseCore.images h
    have hmi : ps₁.messages_ingested = ps₂.messages_ingested :=
      congrArg PhaseCore.messages_ingested h
    have hci : ps₁.contacts_ingested = ps₂.contacts_ingested :=
      congrArg PhaseCore.contacts_ingested h
    have hsi : ps₁.system_records_ingested = ps₂.system_records_ingested :=
      congrArg PhaseCore.system_records_ingested h
    have hem : ps₁.msgEmbeddings = ps₂.msgEmbeddings := congrArg PhaseCore.msgEmbeddings h
    show ((f :: rest).foldl _ ps₁).core = ((f :: rest).foldl _ ps₂).core
    simp only [List.foldl_cons]
    apply ih
    cases hp : f.parse with
    | ok tables =>
      simp only [messagesPhase, hp, PhaseState.core, hm, hr, hc, hs, hi, hmi, hci, hsi, hem]
    | error err =>
      simp only [messagesPhase, hp, PhaseState.core, hm, hr, hc, hs, hi, hmi, hci, hsi, hem]

/-- The contact-database loop's effect on the non-notes state does not
depend on the notes. -/
theorem contactDbsPhase_core_congr (g : Bool) (e : PyStr) :
    ∀ (files : List ContactDbFile) (ps₁ ps₂ : PhaseState), ps₁.core = ps₂.core →
      (contactDbsPhase g e files ps₁).core = (contactDbsPhase g e files ps₂).core := by
  intro files
  induction files with
  | nil => intro ps₁ ps₂ h; exact h
  | cons f rest ih =>
    intro ps₁ ps₂ h
    have hm : ps₁.messages = ps₂.messages := congrArg PhaseCore.messages h
    have hr : ps₁.run = ps₂.run := congrArg PhaseCore.run h
    have hc : ps₁.contacts = ps₂.contacts := congrArg PhaseCore.contacts h
    have hs : ps₁.system_info = ps₂.system_info := congrArg PhaseCore.system_info h
    have hi : ps₁.images = ps₂.images := congrArg PhaseCore.images h
    have hmi : ps₁.messages_ingested = ps₂.messages_ingested :=
      congrArg PhaseCore.messages_ingested h
    have hci : ps₁.contacts_ingested = ps₂.contacts_ingested :=
      congrArg PhaseCore.contacts_ingested h
    have hsi : ps₁.system_records_ingested = ps₂.system_records_ingested :=
      congrArg PhaseCore.system_records_ingested h
    have hem : ps₁.msgEmbeddings = ps₂.msgEmbeddings := congrArg PhaseCore.msgEmbeddings h
    show ((f :: rest).foldl _ ps₁).core = ((f :: rest).foldl _ ps₂).core
    simp only [List.foldl_cons]
    apply ih
    cases hp : f.parse with
    | ok tables =>
      simp only [contactDbsPhase, hp, PhaseState.core, hm, hr, hc, hs, hi, hmi, hci, hsi, hem]
    | error err =>
      simp only [contactDbsPhase, hp, PhaseState.core, hm, hr, hc, hs, hi, hmi, hci, hsi, hem]

/-- The contacts-XML loop's effect on the non-notes state does not depend
on the notes. -/
theorem contactXmlPhase_core_congr (g : Bool) (e : PyStr) :
    ∀ (files : List ContactXmlFile) (ps₁ ps₂ : PhaseState), ps₁.core = ps₂.core →
      (contactXmlPhase g e files ps₁).core = (contactXmlPhase g e files ps₂).core := by
  intro files
  induction files with
  | nil => intro ps₁ ps₂ h; exact h
  | cons f rest ih =>
    intro ps₁ ps₂ h
    have hm : ps₁.messages = ps₂.messages := congrArg PhaseCore.messages h
    have hr : ps₁.run = ps₂.run := congrArg PhaseCore.run h
    have hc : ps₁.contacts = ps₂.contacts := congrArg PhaseCore.contacts h
    have hs : ps₁.system_info = ps₂.system_info := congrArg PhaseCore.system_info h
    have hi : ps₁.images = ps₂.images := congrArg PhaseCore.images h
    have hmi : ps₁.messages_ingested = ps₂.messages_ingested :=
      congrArg PhaseCore.messages_ingested h
    have hci : ps₁.contacts_ingested = ps₂.contacts_ingested :=
      congrArg PhaseCore.contacts_ingested h
    have hsi : ps₁.system_records_ingested = ps₂.system_records_ingested :=
      congrArg PhaseCore.system_records_ingested h
    have hem : ps₁.msgEmbeddings = ps₂.msgEmbeddings := congrArg PhaseCore.msgEmbeddings h
    show ((f :: rest).foldl _ ps₁).core = ((f :: rest).foldl _ ps₂).core
    simp only [List.foldl_cons]
    apply ih
    cases hp : f.parse with
    | ok elems =>
      simp only [contactXmlPhase, hp, PhaseState.core, hm, hr, hc, hs, hi, hmi, hci, hsi, hem]
    | error err =>
      simp only [contactXmlPhase, hp, PhaseState.core, hm, hr, hc, hs, hi, hmi, hci, hsi, hem]

/-- The plist loop's effect on the non-notes state does not depend on the
notes. -/
theorem plistPhase_core_congr (e : PyStr) :
    ∀ (files : List PlistFile) (ps₁ ps₂ : PhaseState), ps₁.core = ps₂.core →
      (plistPhase e files ps₁).core = (plistPhase e files ps₂).core := by
  intro files
  induction files with
  | nil => intro ps₁ ps₂ h; exact h
  | cons f rest ih =>
    intro ps₁ ps₂ h
    have hm : ps₁.messages = ps₂.messages := congrArg PhaseCore.messages h
    have hr : ps₁.run = ps₂.run := congrArg PhaseCore.run h
    have hc : ps₁.contacts = ps₂.contacts := congrArg PhaseCore.contacts h
    have hs : ps₁.system_info = ps₂.system_info := congrArg PhaseCore.system_info h
    have hi : ps₁.images = ps₂.images := congrArg PhaseCore.images h
    have hmi : ps₁.messages_ingested = ps₂.messages_ingested :=
      congrArg PhaseCore.messages_ingested h
    have hci : ps₁.contacts_ingested = ps₂.contacts_ingested :=
      congrArg PhaseCore.contacts_ingested h
    have hsi : ps₁.system_records_ingested = ps₂.system_records_ingested :=
      congrArg PhaseCore.system_records_ingested h
    have hem : ps₁.msgEmbeddings = ps₂.msgEmbeddings := congrArg PhaseCore.msgEmbeddings h
    show ((f :: rest).foldl _ ps₁).core = ((f :: rest).foldl _ ps₂).core
    simp only [List.foldl_cons]
    apply ih
    cases hp : f.parse with
    | ok kvs =>
      simp only [plistPhase, hp, PhaseState.core, hm, hr, hc, hs, hi, hmi, hci, hsi, hem]
    | error err =>
      simp only [plistPhase, hp, PhaseState.core, hm, hr, hc, hs, hi, hmi, hci, hsi, hem]

/-- The message-database loop only appends notes. -/
theorem messagesPhase_notes_mono (g : Bool) (e : PyStr) :
    ∀ (files : List MsgDbFile) (ps : PhaseState) (n : PyStr), n ∈ ps.notes →
      n ∈ (messagesPhase g e files ps).notes := by
  intro files
  induction files with
  | nil => intro ps n h; exact h
  | cons f rest ih =>
    intro ps n h
    show n ∈ ((f :: rest).foldl _ ps).notes
    simp only [List.foldl_cons]
    apply ih
    cases hp : f.parse with
    | ok tables =>
      simp only [messagesPhase, hp]
      exact List.mem_append_left _ h
    | error err =>
      simp only [messagesPhase, hp]
      exact List.mem_append_left _ h

/-- The contact-database loop only appends notes. -/
theorem contactDbsPhase_notes_mono (g : Bool) (e : PyStr) :
    ∀ (files : List ContactDbFile) (ps : PhaseState) (n : PyStr), n ∈ ps.notes →
      n ∈ (contactDbsPhase g e files ps).notes := by
  intro files
  induction files with
  | nil => intro ps n h; exact h
  | cons f rest ih =>
    intro ps n h
    show n ∈ ((f :: rest).foldl _ ps).notes
    simp only [List.foldl_cons]
    apply ih
    cases hp : f.parse with
    | ok tables =>
      simp only [contactDbsPhase, hp]
      exact List.mem_append_left _ h
    | error err =>
      simp only [contactDbsPhase, hp]
      exact List.mem_append_left _ h

/-- The contacts-XML loop only appends notes. -/
theorem contactXmlPhase_notes_mono (g : Bool) (e : PyStr) :
    ∀ (files : List ContactXmlFile) (ps : PhaseState) (n : PyStr), n ∈ ps.notes →
      n ∈ (contactXmlPhase g e files ps).notes := by
  intro files
  induction files with
  | nil => intro ps n h; exact h
  | cons f rest ih =>
    intro ps n h
    show n ∈ ((f :: rest).foldl _ ps).notes
    simp only [List.foldl_cons]
    apply ih
    cases hp : f.parse with
    | ok elems =>
      simp only [contactXmlPhase, hp]
      exact List.mem_append_left _ h
    | error err =>
      simp only [contactXmlPhase, hp]
      exact List.mem_append_left _ h

/-- The plist loop only appends notes. -/
theorem plistPhase_notes_mono (e : PyStr) :
    ∀ (files : List PlistFile) (ps : PhaseState) (n : PyStr), n ∈ ps.notes →
      n ∈ (plistPhase e files ps).notes := by
  intro files
  induction files with
  | nil => intro ps n h; exact h
  | cons f rest ih =>
    intro ps n h
    show n ∈ ((f :: rest).foldl _ ps).notes
    simp only [List.foldl_cons]
    apply ih
    cases hp : f.parse with
    | ok kvs =>
      simp only [plistPhase, hp]
      exact List.mem_append_left _ h
    | error err =>
      simp only [plistPhase, hp]
      exact List.mem_append_left _ h

/-- Processing a failing message database only appends its failure note. -/
theorem messagesPhase_err_step (g : Bool) (e : PyStr) (f : MsgDbFile) (ps : PhaseState)
    (err : PyStr) (hp : f.parse = .error err) :
    messagesPhase g e [f] ps =
      { ps with notes := ps.notes ++ [noteFailedMessages (resolvePath e f.relPath).name err] } := by
  simp only [messagesPhase, List.foldl_cons, List.foldl_nil, hp]

/-- The loops fold, so a file list splits around any member. -/
theorem messagesPhase_append (g : Bool) (e : PyStr) (l1 l2 : List MsgDbFile)
    (ps : PhaseState) :
    messagesPhase g e (l1 ++ l2) ps = messagesPhase g e l2 (messagesPhase g e l1 ps) := by
  simp only [messagesPhase, List.foldl_append]

/-- Everything in the run outcome except the notes is determined by the
non-notes phase state. -/
theorem runFinish_core_determined (cfg : RunConfig) (n e : PyStr) (s : Stores)
    (imgs : List PyStr) (ps₁ ps₂ : PhaseState) (h : ps₁.core = ps₂.core) :
    (runFinish cfg n e s imgs ps₁).stores = (runFinish cfg n e s imgs ps₂).stores ∧
    (runFinish cfg n e s imgs ps₁).summary.messages_ingested =
      (runFinish cfg n e s imgs ps₂).summary.messages_ingested ∧
    (runFinish cfg n e s imgs ps₁).summary.contacts_ingested =
      (runFinish cfg n e s imgs ps₂).summary.contacts_ingested ∧
    (runFinish cfg n e s imgs ps₁).summary.system_records_ingested =
      (runFinish cfg n e s imgs ps₂).summary.system_records_ingested ∧
    (runFinish cfg n e s imgs ps₁).summary.images_logged =
      (runFinish cfg n e s imgs ps₂).summary.images_logged ∧
    (runFinish cfg n e s imgs ps₁).summary.images_captioned =
      (runFinish cfg n e s imgs ps₂).summary.images_captioned := by
  have hm : ps₁.messages = ps₂.messages := congrArg PhaseCore.messages h
  have hc : ps₁.contacts = ps₂.contacts := congrArg PhaseCore.contacts h
  have hs : ps₁.system_info = ps₂.system_info := congrArg PhaseCore.system_info h
  have hi : ps₁.images = ps₂.images := congrArg PhaseCore.images h
  have hr : ps₁.run = ps₂.run := congrArg PhaseCore.run h
  have hmi : ps₁.messages_ingested = ps₂.messages_ingested :=
    congrArg PhaseCore.messages_ingested h
  have hci : ps₁.contacts_ingested = ps₂.contacts_ingested :=
    congrArg PhaseCore.contacts_ingested h
  have hsi : ps₁.system_records_ingested = ps₂.system_records_ingested :=
    congrArg PhaseCore.system_records_ingested h
  have hem : ps₁.msgEmbeddings = ps₂.msgEmbeddings := congrArg PhaseCore.msgEmbeddings h
  simp only [runFinish]
  rw [hm, hc, hs, hi, hr, hmi, hci, hsi, hem]
  exact ⟨rfl, rfl, rfl, rfl, rfl, rfl⟩

/-- Notes accumulated by the source loops survive into the summary. -/
theorem runFinish_notes_mono (cfg : RunConfig) (n e : PyStr) (s : Stores)
    (imgs : List PyStr) (ps : PhaseState) (x : PyStr) (h : x ∈ ps.notes) :
    x ∈ (runFinish cfg n e s imgs ps).summary.notes := by
  simp only [runFinish]
  exact List.mem_append_left _ (List.mem_append_left _ (List.mem_append_left _
    (List.mem_append_left _ h)))

/-! ## Claim C8: orchestrator failure isolation -/

/-- C8 confirmed: with a good upload the orchestrator always returns a
summary, whatever each classified file's parse outcome; only the
archive-level failures (missing filename, storage failure, corrupt zip)
surface as errors; and a message database that raises during parsing
contributes nothing but a note naming it — the stores and every
per-kind count are the same as if the bad file were absent, so the
remaining files of the archive are still processed and ingested. -/
theorem c8_orchestrator_failure_isolation :
    (∀ (cfg : RunConfig) (upload : UploadModel) (archive : Archive) (eid : PyStr)
      (s : Stores) (fn : PyStr), upload.filename = some fn → fn ≠ [] →
      upload.persistOutcome = none → upload.zipValid = true →
      ingest_ufdr_archive cfg upload archive eid s =
        .ok (runIngestion cfg archive fn eid s)) ∧
    (∀ (cfg : RunConfig) (upload : UploadModel) (archive : Archive) (eid : PyStr)
      (s : Stores), upload.filename = none →
      ingest_ufdr_archive cfg upload archive eid s = .error .missingFilename) ∧
    (∀ (cfg : RunConfig) (upload : UploadModel) (archive : Archive) (eid : PyStr)
      (s : Stores) (fn : PyStr) (failure : ArchiveError), upload.filename = some fn →
      fn ≠ [] → upload.persistOutcome = some failure →
      ingest_ufdr_archive cfg upload archive eid s = .error failure) ∧
    (∀ (cfg : RunConfig) (upload : UploadModel) (archive : Archive) (eid : PyStr)
      (s : Stores) (fn : PyStr), upload.filename = some fn → fn ≠ [] →
      upload.persistOutcome = none → upload.zipValid = false →
      ingest_ufdr_archive cfg upload archive eid s = .error .badZip) ∧
    (∀ (cfg : RunConfig) (archive : Archive) (n eid : PyStr) (s : Stores)
      (l1 l2 : List MsgDbFile) (f : MsgDbFile) (err : PyStr), f.parse = .error err →
      (runIngestion cfg { archive with msg_dbs := l1 ++ f :: l2 } n eid s).stores =
        (runIngestion cfg { archive with msg_dbs := l1 ++ l2 } n eid s).stores ∧
      (runIngestion cfg { archive with msg_dbs := l1 ++ f :: l2 } n eid
        s).summary.messages_ingested =
        (runIngestion cfg { archive with msg_dbs := l1 ++ l2 } n eid
          s).summary.messages_ingested ∧
      (runIngestion cfg { archive with msg_dbs := l1 ++ f :: l2 } n eid
        s).summary.contacts_ingested =
        (runIngestion cfg { archive with msg_dbs := l1 ++ l2 } n eid
          s).summary.contacts_ingested ∧
      (runIngestion cfg { archive with msg_dbs := l1 ++ f :: l2 } n eid
        s).summary.images_captioned =
        (runIngestion cfg { archive with msg_dbs := l1 ++ l2 } n eid
          s).summary.images_captioned ∧
      noteFailedMessages (resolvePath eid f.relPath).name err ∈
        (runIngestion cfg { archive with msg_dbs := l1 ++ f :: l2 } n eid
          s).summary.notes) := by
  refine ⟨?_, ?_, ?_, ?_, ?_⟩
  · intro cfg upload archive eid s fn h1 h2 h3 h4
    unfold ingest_ufdr_archive
    rw [h1, h3]
    simp [h2, h4]
  · intro cfg upload archive eid s h1
    unfold ingest_ufdr_archive
    rw [h1]
  · intro cfg upload archive eid s fn failure h1 h2 h3
    unfold ingest_ufdr_archive
    rw [h1, h3]
    simp [h2]
  · intro cfg upload archive eid s fn h1 h2 h3 h4
    unfold ingest_ufdr_archive
    rw [h1, h3]
    simp [h2, h4]
  · intro cfg archive n eid s l1 l2 f err hp
    simp only [runIngestion]
    have hA : (messagesPhase cfg.graphEnabled eid (l1 ++ f :: l2)
        ⟨s.messages, s.contacts, s.system_info, s.images, ⟨s.graph, GraphStats.init, [], []⟩,
          if ({ archive with msg_dbs := l1 ++ f :: l2 } : Archive).msg_dbs.isEmpty &&
              ({ archive with msg_dbs := l1 ++ f :: l2 } : Archive).contact_dbs.isEmpty then
            [pyStr "No obvious message or contact databases were discovered. Review the extraction manually."]
          else [], 0, 0, 0, []⟩).core =
        (messagesPhase cfg.graphEnabled eid (l1 ++ l2)
        ⟨s.messages, s.contacts, s.system_info, s.images, ⟨s.graph, GraphStats.init, [], []⟩,
          if ({ archive with msg_dbs := l1 ++ l2 } : Archive).msg_dbs.isEmpty &&
              ({ archive with msg_dbs := l1 ++ l2 } : Archive).contact_dbs.isEmpty then
            [pyStr "No obvious message or contact databases were discovered. Review the extraction manually."]
          else [], 0, 0, 0, []⟩).core := by
      rw [messagesPhase_append, show f :: l2 = [f] ++ l2 from rfl, messagesPhase_append,
        messagesPhase_err_step cfg.graphEnabled eid f _ err hp, messagesPhase_append]
      apply messagesPhase_core_congr
      exact messagesPhase_core_congr cfg.graphEnabled eid l1 _ _ rfl
    have h4 := plistPhase_core_congr eid archive.system_plists _ _
      (contactXmlPhase_core_congr cfg.graphEnabled eid archive.contact_xml_files _ _
        (contactDbsPhase_core_congr cfg.graphEnabled eid archive.contact_dbs _ _ hA))
    have hfin := runFinish_core_determined cfg n eid s archive.image_files _ _ h4
    refine ⟨hfin.1, hfin.2.1, hfin.2.2.1, hfin.2.2.2.2.2, ?_⟩
    apply runFinish_notes_mono
    apply plistPhase_notes_mono
    apply contactXmlPhase_notes_mono
    apply contactDbsPhase_notes_mono
    rw [messagesPhase_append, show f :: l2 = [f] ++ l2 from rfl, messagesPhase_append,
      messagesPhase_err_step cfg.graphEnabled eid f _ err hp]
    apply messagesPhase_notes_mono
    simp

/-- Witness for `c8_orchestrator_failure_isolation`: an archive whose
first message database raises and whose second parses one message still
ingests that message, with the same counts as if the bad file were
absent. -/
theorem c8_orchestrator_failure_isolation_witness :
    (runIngestion ⟨false, false, fun _ => VisionOutcome.err (pyStr "x"), pyStr "T"⟩
        { msg_dbs := [] ++ ⟨⟨[], pyStr "bad.db"⟩, .error (pyStr "boom")⟩ ::
            [⟨⟨[], pyStr "sms.db"⟩, .ok [⟨pyStr "messages", [pyStr "text", pyStr "date"],
              [⟨1, [(pyStr "text", some (pyStr "hi")), (pyStr "date", some (pyStr "1"))]⟩]⟩]⟩]
          contact_dbs := [], contact_xml_files := [], system_plists := [], image_files := [] }
        (pyStr "a.zip") (pyStr "e1") Stores.empty).summary.messages_ingested =
      (runIngestion ⟨false, false, fun _ => VisionOutcome.err (pyStr "x"), pyStr "T"⟩
        { msg_dbs := [] ++
            [⟨⟨[], pyStr "sms.db"⟩, .ok [⟨pyStr "messages", [pyStr "text", pyStr "date"],
              [⟨1, [(pyStr "text", some (pyStr "hi")), (pyStr "date", some (pyStr "1"))]⟩]⟩]⟩]
          contact_dbs := [], contact_xml_files := [], system_plists := [], image_files := [] }
        (pyStr "a.zip") (pyStr "e1") Stores.empty).summary.messages_ingested ∧
    (runIngestion ⟨false, false, fun _ => VisionOutcome.err (pyStr "x"), pyStr "T"⟩
        { msg_dbs := [] ++
            [⟨⟨[], pyStr "sms.db"⟩, .ok [⟨pyStr "messages", [pyStr "text", pyStr "date"],
              [⟨1, [(pyStr "text", some (pyStr "hi")), (pyStr "date", some (pyStr "1"))]⟩]⟩]⟩]
          contact_dbs := [], contact_xml_files := [], system_plists := [], image_files := [] }
        (pyStr "a.zip") (pyStr "e1") Stores.empty).summary.messages_ingested = 1 := by
  constructor
  · exact ((c8_orchestrator_failure_isolation.2.2.2.2
      ⟨false, false, fun _ => VisionOutcome.err (pyStr "x"), pyStr "T"⟩
      { msg_dbs := [], contact_dbs := [], contact_xml_files := [], system_plists := [],
        image_files := [] }
      (pyStr "a.zip") (pyStr "e1") Stores.empty []
      [⟨⟨[], pyStr "sms.db"⟩, .ok [⟨pyStr "messages", [pyStr "text", pyStr "date"],
        [⟨1, [(pyStr "text", some (pyStr "hi")), (pyStr "date", some (pyStr "1"))]⟩]⟩]⟩]
      ⟨⟨[], pyStr "bad.db"⟩, .error (pyStr "boom")⟩ (pyStr "boom") rfl).2.1)
  · decide

/-! ## Graph key-set lemmas (for claim C1) -/

/-- The canonical ids present in the graph's person store. -/
def personKeyFinset (g : GraphDB) : Finset PyStr := (g.persons.map Prod.fst).toFinset

/-- The (sender, receiver, message) triples present in the graph's
relationship store. -/
def relKeyFinset (g : GraphDB) : Finset (PyStr × PyStr × PyStr) :=
  (g.rels.map Prod.fst).toFinset

/-- Keys of an association list after an insert-or-replace. -/
theorem assocSet_keys_toFinset {α β : Type} [DecidableEq α] (m : List (α × β)) (k : α)
    (v : β) : ((assocSet m k v).map Prod.fst).toFinset = insert k (m.map Prod.fst).toFinset := by
  induction m with
  | nil => simp [assocSet]
  | cons kv rest ih =>
    obtain ⟨k', v'⟩ := kv
    by_cases h : k' = k
    · subst h
      simp [assocSet]
    · simp only [assocSet, if_neg h, List.map_cons, List.toFinset_cons, ih]
      exact Finset.Insert.comm k' k _

/-- Key membership after an insert-or-replace. -/
theorem mem_assocSet_keys {α β : Type} [DecidableEq α] (m : List (α × β)) (k : α) (v : β)
    (a : α) : a ∈ (assocSet m k v).map Prod.fst ↔ a ∈ m.map Prod.fst ∨ a = k := by
  induction m with
  | nil => simp [assocSet]
  | cons kv rest ih =>
    obtain ⟨k', v'⟩ := kv
    by_cases h : k' = k
    · subst h
      simp only [assocSet, if_true, List.map_cons, List.mem_cons]
      tauto
    · simp only [assocSet, if_neg h, List.map_cons, List.mem_cons, ih]
      tauto

/-- Insert-or-replace preserves key uniqueness. -/
theorem assocSet_keys_nodup {α β : Type} [DecidableEq α] (m : List (α × β)) (k : α) (v : β)
    (h : (m.map Prod.fst).Nodup) : ((assocSet m k v).map Prod.fst).Nodup := by
  induction m with
  | nil => simp [assocSet]
  | cons kv rest ih =>
    obtain ⟨k', v'⟩ := kv
    simp only [List.map_cons, List.nodup_cons] at h
    by_cases hk : k' = k
    · subst hk
      simp only [assocSet, if_true, List.map_cons, List.nodup_cons]
      exact h
    · simp only [assocSet, if_neg hk, List.map_cons, List.nodup_cons]
      refine ⟨?_, ih h.2⟩
      rw [mem_assocSet_keys]
      push_neg
      exact ⟨h.1, hk⟩

/-- Key-set and key-uniqueness effect of `register_person`: at most the
identifier is added; relationships are untouched. -/
theorem register_person_keys (enabled : Bool) (g : GraphDB) (id : PyStr)
    (dn gn fn ri so : Option PyStr) :
    (personKeyFinset (register_person enabled g id dn gn fn ri so).1 =
      if enabled = true ∧ id ≠ [] then insert id (personKeyFinset g)
      else personKeyFinset g) ∧
    (register_person enabled g id dn gn fn ri so).1.rels = g.rels ∧
    ((g.persons.map Prod.fst).Nodup →
      ((register_person enabled g id dn gn fn ri so).1.persons.map Prod.fst).Nodup) := by
  by_cases hc : ¬enabled = true ∨ id = []
  · have hcond : ¬(enabled = true ∧ id ≠ []) := by tauto
    unfold register_person
    rw [if_pos hc, if_neg hcond]
    exact ⟨rfl, rfl, fun h => h⟩
  · have hcond : enabled = true ∧ id ≠ [] := by tauto
    unfold register_person
    rw [if_neg hc, if_pos hcond]
    refine ⟨?_, rfl, ?_⟩
    · exact assocSet_keys_toFinset g.persons id _
    · intro h
      exact assocSet_keys_nodup g.persons id _ h

/-- Key-set effect of the person `MERGE` inside `register_message`. -/
theorem mergePersonForMessage_keys (g : GraphDB) (pid label : PyStr)
    (so : Option PyStr) :
    personKeyFinset (mergePersonForMessage g pid label so) =
      insert pid (personKeyFinset g) ∧
    (mergePersonForMessage g pid label so).rels = g.rels ∧
    ((g.persons.map Prod.fst).Nodup →
      ((mergePersonForMessage g pid label so).persons.map Prod.fst).Nodup) := by
  unfold mergePersonForMessage
  exact ⟨assocSet_keys_toFinset g.persons pid _, rfl,
    fun h => assocSet_keys_nodup g.persons pid _ h⟩

/-- Key-set and uniqueness effect of `register_message`: at most the two
endpoints join the person store and at most the one triple joins the
relationship store. -/
theorem register_message_keys (enabled : Bool) (g : GraphDB)
    (mid sid rid : PyStr) (ts bd cid : Option PyStr) (sl rl : Option PyStr)
    (so : Option PyStr) :
    (personKeyFinset (register_message enabled g mid sid rid ts bd cid sl rl so).1 =
      if enabled = true ∧ ¬(mid = [] ∨ sid = [] ∨ rid = []) then
        insert rid (insert sid (personKeyFinset g))
      else personKeyFinset g) ∧
    (relKeyFinset (register_message enabled g mid sid rid ts bd cid sl rl so).1 =
      if enabled = true ∧ ¬(mid = [] ∨ sid = [] ∨ rid = []) then
        insert (sid, rid, mid) (relKeyFinset g)
      else relKeyFinset g) ∧
    ((g.persons.map Prod.fst).Nodup →
      ((register_message enabled g mid sid rid ts bd cid sl rl so).1.persons.map
        Prod.fst).Nodup) ∧
    ((g.rels.map Prod.fst).Nodup →
      ((register_message enabled g mid sid rid ts bd cid sl rl so).1.rels.map
        Prod.fst).Nodup) := by
  cases enabled with
  | false =>
    have hcond : ¬((false : Bool) = true ∧ ¬(mid = [] ∨ sid = [] ∨ rid = [])) := by simp
    unfold register_message
    rw [if_pos (by simp), if_neg hcond, if_neg hcond]
    exact ⟨rfl, rfl, fun h => h, fun h => h⟩
  | true =>
    by_cases hids : mid = [] ∨ sid = [] ∨ rid = []
    · have hcond : ¬((true : Bool) = true ∧ ¬(mid = [] ∨ sid = [] ∨ rid = [])) := by
        simp [hids]
      unfold register_message
      rw [if_neg (by simp), if_pos hids, if_neg hcond, if_neg hcond]
      exact ⟨rfl, rfl, fun h => h, fun h => h⟩
    · have hcond : (true : Bool) = true ∧ ¬(mid = [] ∨ sid = [] ∨ rid = []) := ⟨rfl, hids⟩
      have hg3 : (register_message true g mid sid rid ts bd cid sl rl so).1 =
          { mergePersonForMessage (mergePersonForMessage g sid (pyOrStr sl sid) so) rid
              (pyOrStr rl rid) so with
            rels := assocSet (mergePersonForMessage (mergePersonForMessage g sid
              (pyOrStr sl sid) so) rid (pyOrStr rl rid) so).rels (sid, rid, mid)
              ⟨ts, bd, cid, so⟩ } := by
        unfold register_message
        rw [if_neg (by simp), if_neg hids]
      have h1 := mergePersonForMessage_keys g sid (pyOrStr sl sid) so
      have h2 := mergePersonForMessage_keys (mergePersonForMessage g sid (pyOrStr sl sid) so)
        rid (pyOrStr rl rid) so
      rw [hg3, if_pos hcond, if_pos hcond]
      refine ⟨?_, ?_, ?_, ?_⟩
      · show personKeyFinset (mergePersonForMessage (mergePersonForMessage g sid
          (pyOrStr sl sid) so) rid (pyOrStr rl rid) so) = _
        rw [h2.1, h1.1]
      · show ((assocSet (mergePersonForMessage (mergePersonForMessage g sid
          (pyOrStr sl sid) so) rid (pyOrStr rl rid) so).rels (sid, rid, mid)
          ⟨ts, bd, cid, so⟩).map Prod.fst).toFinset = _
        rw [assocSet_keys_toFinset, show (mergePersonForMessage (mergePersonForMessage g sid
          (pyOrStr sl sid) so) rid (pyOrStr rl rid) so).rels = g.rels from
          h2.2.1.trans h1.2.1]
        rfl
      · intro h
        exact h2.2.2 (h1.2.2 h)
      · intro h
        show ((assocSet (mergePersonForMessage (mergePersonForMessage g sid
          (pyOrStr sl sid) so) rid (pyOrStr rl rid) so).rels (sid, rid, mid)
          ⟨ts, bd, cid, so⟩).map Prod.fst).Nodup
        apply assocSet_keys_nodup
        rw [show (mergePersonForMessage (mergePersonForMessage g sid
          (pyOrStr sl sid) so) rid (pyOrStr rl rid) so).rels = g.rels from
          h2.2.1.trans h1.2.1]
        exact h

/-- The identifier loop's stats/alias bookkeeping never touches the
graph beyond its `register_person` call. -/
theorem contact_step_graph (c : ContactFields) (source : PyStr) (st : RunState)
    (cr : PyStr × PyStr) :
    (contactRegisterStep true c source st cr).graph =
      (register_person true st.graph cr.1 (contactPreferredName c) c.given_name
        c.family_name (some cr.2) (some source)).1 := by
  simp only [contactRegisterStep]
  split
  · split
    · split <;> rfl
    · split <;> rfl
  · rfl

/-- Key-set effect of one identifier-loop iteration: exactly the
canonical id is inserted; relationships are untouched. -/
theorem contact_step_keys (c : ContactFields) (source : PyStr) (st : RunState)
    (cr : PyStr × PyStr) (h : cr.1 ≠ []) :
    personKeyFinset (contactRegisterStep true c source st cr).graph =
      insert cr.1 (personKeyFinset st.graph) ∧
    (contactRegisterStep true c source st cr).graph.rels = st.graph.rels ∧
    ((st.graph.persons.map Prod.fst).Nodup →
      ((contactRegisterStep true c source st cr).graph.persons.map Prod.fst).Nodup) := by
  rw [contact_step_graph]
  have hk := register_person_keys true st.graph cr.1 (contactPreferredName c) c.given_name
    c.family_name (some cr.2) (some source)
  refine ⟨?_, hk.2.1, hk.2.2⟩
  rw [hk.1, if_pos ⟨rfl, h⟩]

/-- Key-set effect of the whole identifier loop. -/
theorem contact_fold_keys (c : ContactFields) (source : PyStr) :
    ∀ (ids : List (PyStr × PyStr)) (st : RunState), (∀ p ∈ ids, p.1 ≠ []) →
      personKeyFinset ((ids.foldl (contactRegisterStep true c source) st).graph) =
        (ids.map Prod.fst).toFinset ∪ personKeyFinset st.graph ∧
      ((ids.foldl (contactRegisterStep true c source) st).graph.rels = st.graph.rels) ∧
      ((st.graph.persons.map Prod.fst).Nodup →
        (((ids.foldl (contactRegisterStep true c source) st).graph.persons.map
          Prod.fst).Nodup)) := by
  intro ids
  induction ids with
  | nil => intro st _; exact ⟨by simp, rfl, fun h => h⟩
  | cons cr rest ih =>
    intro st hne
    simp only [List.foldl_cons, List.map_cons, List.toFinset_cons]
    have hstep := contact_step_keys c source st cr (hne cr (List.mem_cons_self _ _))
    obtain ⟨ha, hb, hc2⟩ := ih (contactRegisterStep true c source st cr)
      (fun p hp => hne p (List.mem_cons_of_mem _ hp))
    refine ⟨?_, hb.trans hstep.2.1, fun h => hc2 (hstep.2.2 h)⟩
    rw [ha, hstep.1, Finset.union_insert, Finset.insert_union]

/-- Key-set effect of `_register_contact_with_graph`: when the graph is
enabled, exactly the contact's canonical ids are inserted. -/
theorem register_contact_keys (enabled : Bool) (c : ContactFields) (source : PyStr)
    (st : RunState) :
    personKeyFinset (register_contact_with_graph enabled c source st).graph =
      (if enabled = true then ((contactIdentifiers c).map Prod.fst).toFinset else ∅) ∪
        personKeyFinset st.graph ∧
    (register_contact_with_graph enabled c source st).graph.rels = st.graph.rels ∧
    ((st.graph.persons.map Prod.fst).Nodup →
      ((register_contact_with_graph enabled c source st).graph.persons.map
        Prod.fst).Nodup) := by
  cases enabled with
  | false =>
    unfold register_contact_with_graph
    simp only [Bool.not_false, if_true, Bool.false_eq_true, if_false]
    exact ⟨by simp, rfl, fun h => h⟩
  | true =>
    unfold register_contact_with_graph
    simp only [Bool.not_true, not_true_eq_false, if_false, if_true]
    have h := contact_fold_keys c source (contactIdentifiers c) st
      (contactIdentifiers_fst_ne_nil c)
    exact ⟨h.1, h.2.1, h.2.2⟩

/-- The graph key contribution of registering one message: both endpoint
ids and the one relationship triple, when the graph is enabled and the
endpoints canonicalize to truthy identities (the message id being
non-empty). -/
def msgGraphKeyAdd (enabled : Bool) (mid : PyStr) (sender receiver : Option PyStr) :
    Finset PyStr × Finset (PyStr × PyStr × PyStr) :=
  if enabled then
    match canonicalize_actor sender, canonicalize_actor receiver with
    | some sid, some rid =>
      if sid = [] ∨ rid = [] then (∅, ∅)
      else if mid = [] ∨ sid = [] ∨ rid = [] then (∅, ∅)
      else (insert rid {sid}, {(sid, rid, mid)})
    | _, _ => (∅, ∅)
  else (∅, ∅)

/-- The message registration's stats/alias bookkeeping never touches the
graph beyond its `register_message` call. -/
theorem message_step_graph (enabled : Bool) (mid : PyStr)
    (sender receiver ts body cid : Option PyStr) (source : PyStr) (st : RunState)
    (sid rid : PyStr) (hs : canonicalize_actor sender = some sid)
    (hr : canonicalize_actor receiver = some rid) (hne : ¬(sid = [] ∨ rid = [])) :
    (register_message_with_graph enabled mid sender receiver ts body cid source st).graph =
      if enabled then
        (register_message enabled st.graph mid sid rid ts body cid
          (some (pyOrStr (assocGet st.aliasMap sid) (pyOrStr sender sid)))
          (some (pyOrStr (assocGet st.aliasMap rid) (pyOrStr receiver rid)))
          (some source)).1
      else st.graph := by
  cases enabled with
  | false => simp [register_message_with_graph]
  | true =>
    simp only [register_message_with_graph, Bool.not_true, not_true_eq_false, if_false,
      if_true, hs, hr]
    rw [if_neg hne]
    split
    · split <;> rfl
    · rfl

/-- Key-set effect of `_register_message_with_graph`. -/
theorem register_message_with_graph_keys (enabled : Bool) (mid : PyStr)
    (sender receiver ts body cid : Option PyStr) (source : PyStr) (st : RunState) :
    personKeyFinset
        (register_message_with_graph enabled mid sender receiver ts body cid source
          st).graph =
      (msgGraphKeyAdd enabled mid sender receiver).1 ∪ personKeyFinset st.graph ∧
    relKeyFinset
        (register_message_with_graph enabled mid sender receiver ts body cid source
          st).graph =
      (msgGraphKeyAdd enabled mid sender receiver).2 ∪ relKeyFinset st.graph ∧
    ((st.graph.persons.map Prod.fst).Nodup →
      ((register_message_with_graph enabled mid sender receiver ts body cid source
        st).graph.persons.map Prod.fst).Nodup) ∧
    ((st.graph.rels.map Prod.fst).Nodup →
      ((register_message_with_graph enabled mid sender receiver ts body cid source
        st).graph.rels.map Prod.fst).Nodup) := by
  cases enabled with
  | false =>
    simp only [register_message_with_graph, Bool.not_false, if_true, msgGraphKeyAdd,
      Bool.false_eq_true, if_false]
    exact ⟨by simp, by simp, fun h => h, fun h => h⟩
  | true =>
    match hs : canonicalize_actor sender, hr : canonicalize_actor receiver with
    | none, _ =>
      simp only [register_message_with_graph, Bool.not_true, not_true_eq_false, if_false,
        hs, msgGraphKeyAdd, if_true]
      exact ⟨by simp, by simp, fun h => h, fun h => h⟩
    | some sid, none =>
      simp only [register_message_with_graph, Bool.not_true, not_true_eq_false, if_false,
        hs, hr, msgGraphKeyAdd, if_true]
      exact ⟨by simp, by simp, fun h => h, fun h => h⟩
    | some sid, some rid =>
      by_cases hne : sid = [] ∨ rid = []
      · simp only [register_message_with_graph, Bool.not_true, not_true_eq_false, if_false,
          hs, hr, msgGraphKeyAdd, if_true]
        rw [if_pos hne, if_pos hne]
        exact ⟨by simp, by simp, fun h => h, fun h => h⟩
      · rw [message_step_graph true mid sender receiver ts body cid source st sid rid hs hr
          hne]
        simp only [if_true]
        have hk := register_message_keys true st.graph mid sid rid ts body cid
          (some (pyOrStr (assocGet st.aliasMap sid) (pyOrStr sender sid)))
          (some (pyOrStr (assocGet st.aliasMap rid) (pyOrStr receiver rid))) (some source)
        by_cases hmid : mid = []
        · have hcond : ¬((true : Bool) = true ∧ ¬(mid = [] ∨ sid = [] ∨ rid = [])) := by
            simp [hmid]
          refine ⟨?_, ?_, hk.2.2.1, hk.2.2.2⟩
          · rw [hk.1, if_neg hcond]
            simp only [msgGraphKeyAdd, if_true, hs, hr]
            rw [if_neg hne, if_pos (Or.inl hmid)]
            simp
          · rw [hk.2.1, if_neg hcond]
            simp only [msgGraphKeyAdd, if_true, hs, hr]
            rw [if_neg hne, if_pos (Or.inl hmid)]
            simp
        · have hcond : (true : Bool) = true ∧ ¬(mid = [] ∨ sid = [] ∨ rid = []) :=
            ⟨rfl, by tauto⟩
          refine ⟨?_, ?_, hk.2.2.1, hk.2.2.2⟩
          · rw [hk.1, if_pos hcond]
            simp only [msgGraphKeyAdd, if_true, hs, hr]
            rw [if_neg hne, if_neg (show ¬(mid = [] ∨ sid = [] ∨ rid = []) from by tauto)]
            simp [Finset.insert_union, ← Finset.insert_eq]
          · rw [hk.2.1, if_pos hcond]
            simp only [msgGraphKeyAdd, if_true, hs, hr]
            rw [if_neg hne, if_neg (show ¬(mid = [] ∨ sid = [] ∨ rid = []) from by tauto)]
            simp [← Finset.insert_eq]

/-! ### Archive-determined key contributions

The graph person/relationship keys and the message embedding ids that one
archive contributes are functions of the archive's content and basenames
alone — not of the extraction id or the pre-existing stores. -/

/-- Whether a vector key is a message embedding key (`msg:` prefix). -/
def isMsgVecKey (k : PyStr) : Bool := k.take 4 = pyStr "msg:"

/-- The message-embedding keys of a vector store. -/
def msgKeyFinset (vecs : List (PyStr × EmbeddingRecord)) : Finset PyStr :=
  ((vecs.map Prod.fst).filter (fun k => isMsgVecKey k)).toFinset

/-- The graph key contribution of one source row of a message table — a
function of the database basename, table name and row content only. -/
def rowGraphAdd (g : Bool) (base tableName : PyStr) (row : SrcRow) :
    Finset PyStr × Finset (PyStr × PyStr × PyStr) :=
  msgGraphKeyAdd g (base ++ pyStr ":" ++ tableName ++ pyStr ":" ++ natToChars row.rowid)
    (pick_first_value (rowPayload row) SENDER_FIELDS)
    (pick_first_value (rowPayload row) RECEIVER_FIELDS)

/-- The graph key contribution of one message table. -/
def tableGraphAdd (g : Bool) (base tableName : PyStr) (rows : List SrcRow) :
    Finset PyStr × Finset (PyStr × PyStr × PyStr) :=
  rows.foldr (fun row acc =>
    ((rowGraphAdd g base tableName row).1 ∪ acc.1,
     (rowGraphAdd g base tableName row).2 ∪ acc.2)) (∅, ∅)

/-- The graph key contribution of one message database file. -/
def dbGraphAdd (g : Bool) (base : PyStr) (tables : List DbTable) :
    Finset PyStr × Finset (PyStr × PyStr × PyStr) :=
  tables.foldr (fun t acc =>
    if looks_like_message_table t.columns then
      ((tableGraphAdd g base t.name t.rows).1 ∪ acc.1,
       (tableGraphAdd g base t.name t.rows).2 ∪ acc.2)
    else acc) (∅, ∅)

/-- The graph key contribution of one discovered message database. -/
def msgFileGraphAdd (g : Bool) (f : MsgDbFile) :
    Finset PyStr × Finset (PyStr × PyStr × PyStr) :=
  match f.parse with
  | .ok tables => dbGraphAdd g f.relPath.name tables
  | .error _ => (∅, ∅)

/-- The graph key contribution of all message databases of an archive. -/
def msgFilesGraphAdd (g : Bool) (files : List MsgDbFile) :
    Finset PyStr × Finset (PyStr × PyStr × PyStr) :=
  files.foldr (fun f acc =>
    ((msgFileGraphAdd g f).1 ∪ acc.1, (msgFileGraphAdd g f).2 ∪ acc.2)) (∅, ∅)

/-- The person-key contribution of registering one contact. -/
def contactGraphAdd (g : Bool) (c : ContactFields) : Finset PyStr :=
  if g then ((contactIdentifiers c).map Prod.fst).toFinset else ∅

/-- The person-key contribution of one contact table. -/
def contactRowsAdd (g : Bool) (rows : List SrcRow) : Finset PyStr :=
  rows.foldr (fun row acc => contactGraphAdd g (buildContactFields (rowPayload row)) ∪ acc) ∅

/-- The person-key contribution of one contact database file. -/
def contactTablesAdd (g : Bool) (tables : List DbTable) : Finset PyStr :=
  tables.foldr (fun t acc =>
    if looks_like_contact_table t.columns then contactRowsAdd g t.rows ∪ acc else acc) ∅

/-- The person-key contribution of one discovered contact database. -/
def contactFileAdd (g : Bool) (f : ContactDbFile) : Finset PyStr :=
  match f.parse with
  | .ok tables => contactTablesAdd g tables
  | .error _ => ∅

/-- The person-key contribution of all contact databases of an archive. -/
def contactFilesAdd (g : Bool) (files : List ContactDbFile) : Finset PyStr :=
  files.foldr (fun f acc => contactFileAdd g f ∪ acc) ∅

/-- The person-key contribution of the elements of one contacts XML. -/
def xmlElemsAdd (g : Bool) (elems : List XmlContact) : Finset PyStr :=
  elems.foldr (fun e acc => contactGraphAdd g (xmlContactFields e) ∪ acc) ∅

/-- The person-key contribution of one discovered contacts XML file. -/
def xmlFileAdd (g : Bool) (f : ContactXmlFile) : Finset PyStr :=
  match f.parse with
  | .ok elems => xmlElemsAdd g elems
  | .error _ => ∅

/-- The person-key contribution of all contacts XML files of an archive. -/
def xmlFilesAdd (g : Bool) (files : List ContactXmlFile) : Finset PyStr :=
  files.foldr (fun f acc => xmlFileAdd g f ∪ acc) ∅

/-- The message embedding vector ids contributed by one source row. -/
def rowMsgVecIds (base tableName : PyStr) (row : SrcRow) : List PyStr :=
  match messageVectorId (pick_first_value (rowPayload row) TEXT_FIELDS)
      (base ++ pyStr ":" ++ tableName ++ pyStr ":" ++ natToChars row.rowid) with
  | some v => [v]
  | none => []

/-- The message embedding vector ids contributed by one message table. -/
def tableMsgVecIds (base tableName : PyStr) (rows : List SrcRow) : List PyStr :=
  rows.foldr (fun row acc => rowMsgVecIds base tableName row ++ acc) []

/-- The message embedding vector ids contributed by one database file. -/
def dbMsgVecIds (base : PyStr) (tables : List DbTable) : List PyStr :=
  tables.foldr (fun t acc =>
    if looks_like_message_table t.columns then tableMsgVecIds base t.name t.rows ++ acc
    else acc) []

/-- The message embedding vector ids of one discovered message database. -/
def msgFileVecIds (f : MsgDbFile) : List PyStr :=
  match f.parse with
  | .ok tables => dbMsgVecIds f.relPath.name tables
  | .error _ => []

/-- The message embedding vector ids of all message databases. -/
def msgFilesVecIds (files : List MsgDbFile) : List PyStr :=
  files.foldr (fun f acc => msgFileVecIds f ++ acc) []

/-- The run-state component of one message-row iteration is exactly the
graph registration of the built row. -/
theorem msg_row_step_run (g : Bool) (dbPath : SrcPath) (t : PyStr) (acc : MsgIngestAcc)
    (row : SrcRow) :
    (ingestMessageRowStep g dbPath t acc row).run =
      register_message_with_graph g (buildMsgRow dbPath t row).external_id
        (buildMsgRow dbPath t row).sender (buildMsgRow dbPath t row).receiver
        (buildMsgRow dbPath t row).timestamp (buildMsgRow dbPath t row).body
        (buildMsgRow dbPath t row).conversation_id dbPath.render acc.run := rfl

/-- Key-set effect of one message-row iteration. -/
theorem msg_row_step_keys (g : Bool) (dbPath : SrcPath) (t : PyStr) (acc : MsgIngestAcc)
    (row : SrcRow) :
    personKeyFinset (ingestMessageRowStep g dbPath t acc row).run.graph =
      (rowGraphAdd g dbPath.name t row).1 ∪ personKeyFinset acc.run.graph ∧
    relKeyFinset (ingestMessageRowStep g dbPath t acc row).run.graph =
      (rowGraphAdd g dbPath.name t row).2 ∪ relKeyFinset acc.run.graph ∧
    ((acc.run.graph.persons.map Prod.fst).Nodup →
      ((ingestMessageRowStep g dbPath t acc row).run.graph.persons.map Prod.fst).Nodup) ∧
    ((acc.run.graph.rels.map Prod.fst).Nodup →
      ((ingestMessageRowStep g dbPath t acc row).run.graph.rels.map Prod.fst).Nodup) := by
  have hrun := msg_row_step_run g dbPath t acc row
  rw [hrun]
  have hfun : rowGraphAdd g dbPath.name t row =
      msgGraphKeyAdd g (buildMsgRow dbPath t row).external_id
        (buildMsgRow dbPath t row).sender (buildMsgRow dbPath t row).receiver := rfl
  rw [hfun]
  exact register_message_with_graph_keys g (buildMsgRow dbPath t row).external_id
    (buildMsgRow dbPath t row).sender (buildMsgRow dbPath t row).receiver
    (buildMsgRow dbPath t row).timestamp (buildMsgRow dbPath t row).body
    (buildMsgRow dbPath t row).conversation_id dbPath.render acc.run

/-- Key-set effect of the row loop over one message table. -/
theorem msg_table_fold_keys (g : Bool) (dbPath : SrcPath) (t : PyStr) :
    ∀ (rows : List SrcRow) (acc : MsgIngestAcc),
      personKeyFinset ((rows.foldl (ingestMessageRowStep g dbPath t) acc).run.graph) =
        (tableGraphAdd g dbPath.name t rows).1 ∪ personKeyFinset acc.run.graph ∧
      relKeyFinset ((rows.foldl (ingestMessageRowStep g dbPath t) acc).run.graph) =
        (tableGraphAdd g dbPath.name t rows).2 ∪ relKeyFinset acc.run.graph ∧
      ((acc.run.graph.persons.map Prod.fst).Nodup →
        (((rows.foldl (ingestMessageRowStep g dbPath t) acc).run.graph.persons.map
          Prod.fst).Nodup)) ∧
      ((acc.run.graph.rels.map Prod.fst).Nodup →
        (((rows.foldl (ingestMessageRowStep g dbPath t) acc).run.graph.rels.map
          Prod.fst).Nodup)) := by
  intro rows
  induction rows with
  | nil =>
    intro acc
    exact ⟨by simp [tableGraphAdd], by simp [tableGraphAdd], fun h => h, fun h => h⟩
  | cons row rest ih =>
    intro acc
    simp only [List.foldl_cons]
    have hstep := msg_row_step_keys g dbPath t acc row
    obtain ⟨ha, hb, hc, hd⟩ := ih (ingestMessageRowStep g dbPath t acc row)
    refine ⟨?_, ?_, fun h => hc (hstep.2.2.1 h), fun h => hd (hstep.2.2.2 h)⟩
    · rw [ha, hstep.1]
      show _ = (tableGraphAdd g dbPath.name t (row :: rest)).1 ∪ _
      simp only [tableGraphAdd, List.foldr_cons]
      ext x
      simp only [Finset.mem_union]
      tauto
    · rw [hb, hstep.2.1]
      show _ = (tableGraphAdd g dbPath.name t (row :: rest)).2 ∪ _
      simp only [tableGraphAdd, List.foldr_cons]
      ext x
      simp only [Finset.mem_union]
      tauto

/-- Key-set effect of one table iteration of `ingest_messages_from_sqlite`. -/
theorem msg_sqlite_step_keys (g : Bool) (dbPath : SrcPath) (acc : MsgIngestAcc)
    (t : DbTable) :
    personKeyFinset (msgSqliteStep g dbPath acc t).run.graph =
      (if looks_like_message_table t.columns then
        (tableGraphAdd g dbPath.name t.name t.rows).1 else ∅) ∪
        personKeyFinset acc.run.graph ∧
    relKeyFinset (msgSqliteStep g dbPath acc t).run.graph =
      (if looks_like_message_table t.columns then
        (tableGraphAdd g dbPath.name t.name t.rows).2 else ∅) ∪
        relKeyFinset acc.run.graph ∧
    ((acc.run.graph.persons.map Prod.fst).Nodup →
      ((msgSqliteStep g dbPath acc t).run.graph.persons.map Prod.fst).Nodup) ∧
    ((acc.run.graph.rels.map Prod.fst).Nodup →
      ((msgSqliteStep g dbPath acc t).run.graph.rels.map Prod.fst).Nodup) := by
  by_cases hm : looks_like_message_table t.columns = true
  · simp only [msgSqliteStep, if_pos hm]
    unfold ingest_messages_from_table
    have h := msg_table_fold_keys g dbPath t.name t.rows ⟨acc.messages, acc.run, 0, []⟩
    exact ⟨h.1, h.2.1, h.2.2.1, h.2.2.2⟩
  · simp only [msgSqliteStep, if_neg hm]
    exact ⟨by simp, by simp, fun h => h, fun h => h⟩

/-- Key-set effect of the table loop over one message database. -/
theorem msg_db_fold_keys (g : Bool) (dbPath : SrcPath) :
    ∀ (tables : List DbTable) (acc : MsgIngestAcc),
      personKeyFinset ((tables.foldl (msgSqliteStep g dbPath) acc).run.graph) =
        (dbGraphAdd g dbPath.name tables).1 ∪ personKeyFinset acc.run.graph ∧
      relKeyFinset ((tables.foldl (msgSqliteStep g dbPath) acc).run.graph) =
        (dbGraphAdd g dbPath.name tables).2 ∪ relKeyFinset acc.run.graph ∧
      ((acc.run.graph.persons.map Prod.fst).Nodup →
        (((tables.foldl (msgSqliteStep g dbPath) acc).run.graph.persons.map
          Prod.fst).Nodup)) ∧
      ((acc.run.graph.rels.map Prod.fst).Nodup →
        (((tables.foldl (msgSqliteStep g dbPath) acc).run.graph.rels.map
          Prod.fst).Nodup)) := by
  intro tables
  induction tables with
  | nil =>
    intro acc
    exact ⟨by simp [dbGraphAdd], by simp [dbGraphAdd], fun h => h, fun h => h⟩
  | cons tbl rest ih =>
    intro acc
    simp only [List.foldl_cons]
    have hstep := msg_sqlite_step_keys g dbPath acc tbl
    obtain ⟨ha, hb, hc, hd⟩ := ih (msgSqliteStep g dbPath acc tbl)
    refine ⟨?_, ?_, fun h => hc (hstep.2.2.1 h), fun h => hd (hstep.2.2.2 h)⟩
    · rw [ha, hstep.1]
      show _ = (dbGraphAdd g dbPath.name (tbl :: rest)).1 ∪ _
      simp only [dbGraphAdd, List.foldr_cons]
      by_cases hm : looks_like_message_table tbl.columns = true
      · simp only [if_pos hm]
        ext x
        simp only [Finset.mem_union]
        tauto
      · simp only [if_neg hm]
        simp
    · rw [hb, hstep.2.1]
      show _ = (dbGraphAdd g dbPath.name (tbl :: rest)).2 ∪ _
      simp only [dbGraphAdd, List.foldr_cons]
      by_cases hm : looks_like_message_table tbl.columns = true
      · simp only [if_pos hm]
        ext x
        simp only [Finset.mem_union]
        tauto
      · simp only [if_neg hm]
        simp

/-- `messagesPhase` on a single file, unfolded. -/
theorem messagesPhase_single (g : Bool) (e : PyStr) (f : MsgDbFile) (ps : PhaseState) :
    messagesPhase g e [f] ps =
      match f.parse with
      | .ok tables =>
        let r := ingest_messages_from_sqlite g (resolvePath e f.relPath) tables
          ps.messages ps.run
        { ps with
          messages := r.messages
          run := r.run
          messages_ingested := ps.messages_ingested + r.ingested
          msgEmbeddings := ps.msgEmbeddings ++ r.embeddings
          notes := ps.notes ++ [noteParsedMessages r.ingested f.relPath.render] }
      | .error err =>
        { ps with
          notes := ps.notes ++ [noteFailedMessages (resolvePath e f.relPath).name err] } := by
  cases hp : f.parse <;> simp only [messagesPhase, List.foldl_cons, List.foldl_nil, hp]

/-- `messagesPhase` peels its first file. -/
theorem messagesPhase_cons (g : Bool) (e : PyStr) (f : MsgDbFile) (rest : List MsgDbFile)
    (ps : PhaseState) :
    messagesPhase g e (f :: rest) ps = messagesPhase g e rest (messagesPhase g e [f] ps) :=
  messagesPhase_append g e [f] rest ps

/-- Key-set effect of one file of the message-database loop. -/
theorem messagesPhase_single_keys (g : Bool) (e : PyStr) (f : MsgDbFile)
    (ps : PhaseState) :
    personKeyFinset (messagesPhase g e [f] ps).run.graph =
      (msgFileGraphAdd g f).1 ∪ personKeyFinset ps.run.graph ∧
    relKeyFinset (messagesPhase g e [f] ps).run.graph =
      (msgFileGraphAdd g f).2 ∪ relKeyFinset ps.run.graph ∧
    ((ps.run.graph.persons.map Prod.fst).Nodup →
      ((messagesPhase g e [f] ps).run.graph.persons.map Prod.fst).Nodup) ∧
    ((ps.run.graph.rels.map Prod.fst).Nodup →
      ((messagesPhase g e [f] ps).run.graph.rels.map Prod.fst).Nodup) := by
  rw [messagesPhase_single]
  cases hp : f.parse with
  | ok tables =>
    simp only [msgFileGraphAdd, hp]
    unfold ingest_messages_from_sqlite
    have h := msg_db_fold_keys g (resolvePath e f.relPath) tables ⟨ps.messages, ps.run, 0, []⟩
    exact ⟨h.1, h.2.1, h.2.2.1, h.2.2.2⟩
  | error err =>
    simp only [msgFileGraphAdd, hp]
    exact ⟨by simp, by simp, fun h => h, fun h => h⟩

/-- Key-set effect of the whole message-database loop: the contribution
depends only on the archive's files, not on the extraction id. -/
theorem messagesPhase_graph_keys (g : Bool) (e : PyStr) :
    ∀ (files : List MsgDbFile) (ps : PhaseState),
      personKeyFinset (messagesPhase g e files ps).run.graph =
        (msgFilesGraphAdd g files).1 ∪ personKeyFinset ps.run.graph ∧
      relKeyFinset (messagesPhase g e files ps).run.graph =
        (msgFilesGraphAdd g files).2 ∪ relKeyFinset ps.run.graph ∧
      ((ps.run.graph.persons.map Prod.fst).Nodup →
        ((messagesPhase g e files ps).run.graph.persons.map Prod.fst).Nodup) ∧
      ((ps.run.graph.rels.map Prod.fst).Nodup →
        ((messagesPhase g e files ps).run.graph.rels.map Prod.fst).Nodup) := by
  intro files
  induction files with
  | nil =>
    intro ps
    exact ⟨by simp [messagesPhase, msgFilesGraphAdd], by simp [messagesPhase, msgFilesGraphAdd],
      fun h => h, fun h => h⟩
  | cons f rest ih =>
    intro ps
    rw [messagesPhase_cons]
    have hstep := messagesPhase_single_keys g e f ps
    obtain ⟨ha, hb, hc, hd⟩ := ih (messagesPhase g e [f] ps)
    refine ⟨?_, ?_, fun h => hc (hstep.2.2.1 h), fun h => hd (hstep.2.2.2 h)⟩
    · rw [ha, hstep.1]
      show _ = (msgFilesGraphAdd g (f :: rest)).1 ∪ _
      simp only [msgFilesGraphAdd, List.foldr_cons]
      ext x
      simp only [Finset.mem_union]
      tauto
    · rw [hb, hstep.2.1]
      show _ = (msgFilesGraphAdd g (f :: rest)).2 ∪ _
      simp only [msgFilesGraphAdd, List.foldr_cons]
      ext x
      simp only [Finset.mem_union]
      tauto

/-- The run-state component of one contact-row iteration is exactly the
contact registration of the built fields. -/
theorem contact_row_step_run (g : Bool) (dbPath : SrcPath) (t : PyStr)
    (acc : ContactIngestAcc) (row : SrcRow) :
    (contactRowStep g dbPath t acc row).run =
      register_contact_with_graph g (buildContactFields (rowPayload row)) dbPath.render
        acc.run := rfl

/-- Key-set effect of one contact-row iteration. -/
theorem contact_row_step_keys (g : Bool) (dbPath : SrcPath) (t : PyStr)
    (acc : ContactIngestAcc) (row : SrcRow) :
    personKeyFinset (contactRowStep g dbPath t acc row).run.graph =
      contactGraphAdd g (buildContactFields (rowPayload row)) ∪
        personKeyFinset acc.run.graph ∧
    (contactRowStep g dbPath t acc row).run.graph.rels = acc.run.graph.rels ∧
    ((acc.run.graph.persons.map Prod.fst).Nodup →
      ((contactRowStep g dbPath t acc row).run.graph.persons.map Prod.fst).Nodup) := by
  rw [contact_row_step_run]
  exact register_contact_keys g (buildContactFields (rowPayload row)) dbPath.render acc.run

/-- Key-set effect of the row loop over one contact table. -/
theorem contact_rows_fold_keys (g : Bool) (dbPath : SrcPath) (t : PyStr) :
    ∀ (rows : List SrcRow) (acc : ContactIngestAcc),
      personKeyFinset ((rows.foldl (contactRowStep g dbPath t) acc).run.graph) =
        contactRowsAdd g rows ∪ personKeyFinset acc.run.graph ∧
      ((rows.foldl (contactRowStep g dbPath t) acc).run.graph.rels = acc.run.graph.rels) ∧
      ((acc.run.graph.persons.map Prod.fst).Nodup →
        (((rows.foldl (contactRowStep g dbPath t) acc).run.graph.persons.map
          Prod.fst).Nodup)) := by
  intro rows
  induction rows with
  | nil =>
    intro acc
    exact ⟨by simp [contactRowsAdd], rfl, fun h => h⟩
  | cons row rest ih =>
    intro acc
    simp only [List.foldl_cons]
    have hstep := contact_row_step_keys g dbPath t acc row
    obtain ⟨ha, hb, hc⟩ := ih (contactRowStep g dbPath t acc row)
    refine ⟨?_, hb.trans hstep.2.1, fun h => hc (hstep.2.2 h)⟩
    rw [ha, hstep.1]
    show _ = contactRowsAdd g (row :: rest) ∪ _
    simp only [contactRowsAdd, List.foldr_cons]
    ext x
    simp only [Finset.mem_union]
    tauto

/-- Key-set effect of one table iteration of `ingest_contacts_from_sqlite`. -/
theorem contact_sqlite_step_keys (g : Bool) (dbPath : SrcPath) (acc : ContactIngestAcc)
    (t : DbTable) :
    personKeyFinset (contactSqliteStep g dbPath acc t).run.graph =
      (if looks_like_contact_table t.columns then contactRowsAdd g t.rows else ∅) ∪
        personKeyFinset acc.run.graph ∧
    (contactSqliteStep g dbPath acc t).run.graph.rels = acc.run.graph.rels ∧
    ((acc.run.graph.persons.map Prod.fst).Nodup →
      ((contactSqliteStep g dbPath acc t).run.graph.persons.map Prod.fst).Nodup) := by
  by_cases hm : looks_like_contact_table t.columns = true
  · simp only [contactSqliteStep, if_pos hm]
    unfold ingest_contacts_from_table
    have h := contact_rows_fold_keys g dbPath t.name t.rows ⟨acc.contacts, acc.run, 0⟩
    exact ⟨h.1, h.2.1, h.2.2⟩
  · simp only [contactSqliteStep, if_neg hm]
    exact ⟨by simp, by simp, by simp⟩

/-- Key-set effect of the table loop over one contact database. -/
theorem contact_db_fold_keys (g : Bool) (dbPath : SrcPath) :
    ∀ (tables : List DbTable) (acc : ContactIngestAcc),
      personKeyFinset ((tables.foldl (contactSqliteStep g dbPath) acc).run.graph) =
        contactTablesAdd g tables ∪ personKeyFinset acc.run.graph ∧
      ((tables.foldl (contactSqliteStep g dbPath) acc).run.graph.rels =
        acc.run.graph.rels) ∧
      ((acc.run.graph.persons.map Prod.fst).Nodup →
        (((tables.foldl (contactSqliteStep g dbPath) acc).run.graph.persons.map
          Prod.fst).Nodup)) := by
  intro tables
  induction tables with
  | nil =>
    intro acc
    exact ⟨by simp [contactTablesAdd], rfl, fun h => h⟩
  | cons tbl rest ih =>
    intro acc
    simp only [List.foldl_cons]
    have hstep := contact_sqlite_step_keys g dbPath acc tbl
    obtain ⟨ha, hb, hc⟩ := ih (contactSqliteStep g dbPath acc tbl)
    refine ⟨?_, hb.trans hstep.2.1, fun h => hc (hstep.2.2 h)⟩
    rw [ha, hstep.1]
    show _ = contactTablesAdd g (tbl :: rest) ∪ _
    simp only [contactTablesAdd, List.foldr_cons]
    by_cases hm : looks_like_contact_table tbl.columns = true
    · simp only [if_pos hm]
      ext x
      simp only [Finset.mem_union]
      tauto
    · simp only [if_neg hm]
      simp

/-- `contactDbsPhase` on a single file, unfolded. -/
theorem contactDbsPhase_single (g : Bool) (e : PyStr) (f : ContactDbFile)
    (ps : PhaseState) :
    contactDbsPhase g e [f] ps =
      match f.parse with
      | .ok tables =>
        let r := ingest_contacts_from_sqlite g (resolvePath e f.relPath) tables
          ps.contacts ps.run
        { ps with
          contacts := r.contacts
          run := r.run
          contacts_ingested := ps.contacts_ingested + r.ingested
          notes := ps.notes ++ [noteParsedContacts r.ingested f.relPath.render] }
      | .error err =>
        { ps with
          notes := ps.notes ++ [noteFailedContacts (resolvePath e f.relPath).name err] } := by
  cases hp : f.parse <;> simp only [contactDbsPhase, List.foldl_cons, List.foldl_nil, hp]

/-- `contactDbsPhase` peels its first file. -/
theorem contactDbsPhase_cons (g : Bool) (e : PyStr) (f : ContactDbFile)
    (rest : List ContactDbFile) (ps : PhaseState) :
    contactDbsPhase g e (f :: rest) ps =
      contactDbsPhase g e rest (contactDbsPhase g e [f] ps) := by
  simp only [contactDbsPhase, List.foldl_cons, List.foldl_nil]

/-- Key-set effect of one file of the contact-database loop. -/
theorem contactDbsPhase_single_keys (g : Bool) (e : PyStr) (f : ContactDbFile)
    (ps : PhaseState) :
    personKeyFinset (contactDbsPhase g e [f] ps).run.graph =
      contactFileAdd g f ∪ personKeyFinset ps.run.graph ∧
    (contactDbsPhase g e [f] ps).run.graph.rels = ps.run.graph.rels ∧
    ((ps.run.graph.persons.map Prod.fst).Nodup →
      ((contactDbsPhase g e [f] ps).run.graph.persons.map Prod.fst).Nodup) := by
  rw [contactDbsPhase_single]
  cases hp : f.parse with
  | ok tables =>
    simp only [contactFileAdd, hp]
    unfold ingest_contacts_from_sqlite
    have h := contact_db_fold_keys g (resolvePath e f.relPath) tables
      ⟨ps.contacts, ps.run, 0⟩
    exact ⟨h.1, h.2.1, h.2.2⟩
  | error err =>
    simp only [contactFileAdd, hp]
    exact ⟨by simp, by simp, by simp⟩

/-- Key-set effect of the whole contact-database loop. -/
theorem contactDbsPhase_graph_keys (g : Bool) (e : PyStr) :
    ∀ (files : List ContactDbFile) (ps : PhaseState),
      personKeyFinset (contactDbsPhase g e files ps).run.graph =
        contactFilesAdd g files ∪ personKeyFinset ps.run.graph ∧
      (contactDbsPhase g e files ps).run.graph.rels = ps.run.graph.rels ∧
      ((ps.run.graph.persons.map Prod.fst).Nodup →
        ((contactDbsPhase g e files ps).run.graph.persons.map Prod.fst).Nodup) := by
  intro files
  induction files with
  | nil =>
    intro ps
    exact ⟨by simp [contactDbsPhase, contactFilesAdd], rfl, fun h => h⟩
  | cons f rest ih =>
    intro ps
    rw [contactDbsPhase_cons]
    have hstep := contactDbsPhase_single_keys g e f ps
    obtain ⟨ha, hb, hc⟩ := ih (contactDbsPhase g e [f] ps)
    refine ⟨?_, hb.trans hstep.2.1, fun h => hc (hstep.2.2 h)⟩
    rw [ha, hstep.1]
    show _ = contactFilesAdd g (f :: rest) ∪ _
    simp only [contactFilesAdd, List.foldr_cons]
    ext x
    simp only [Finset.mem_union]
    tauto

/-- The run-state component of one XML-element iteration. -/
theorem xml_step_run (g : Bool) (xmlPath : SrcPath) (acc : ContactIngestAcc)
    (e : XmlContact) :
    (xmlContactStep g xmlPath acc e).run =
      register_contact_with_graph g (xmlContactFields e) xmlPath.render acc.run := rfl

/-- Key-set effect of the element loop over one contacts XML. -/
theorem xml_elems_fold_keys (g : Bool) (xmlPath : SrcPath) :
    ∀ (elems : List XmlContact) (acc : ContactIngestAcc),
      personKeyFinset ((elems.foldl (xmlContactStep g xmlPath) acc).run.graph) =
        xmlElemsAdd g elems ∪ personKeyFinset acc.run.graph ∧
      ((elems.foldl (xmlContactStep g xmlPath) acc).run.graph.rels =
        acc.run.graph.rels) ∧
      ((acc.run.graph.persons.map Prod.fst).Nodup →
        (((elems.foldl (xmlContactStep g xmlPath) acc).run.graph.persons.map
          Prod.fst).Nodup)) := by
  intro elems
  induction elems with
  | nil =>
    intro acc
    exact ⟨by simp [xmlElemsAdd], rfl, fun h => h⟩
  | cons el rest ih =>
    intro acc
    simp only [List.foldl_cons]
    have hstep : personKeyFinset (xmlContactStep g xmlPath acc el).run.graph =
        contactGraphAdd g (xmlContactFields el) ∪ personKeyFinset acc.run.graph ∧
        (xmlContactStep g xmlPath acc el).run.graph.rels = acc.run.graph.rels ∧
        ((acc.run.graph.persons.map Prod.fst).Nodup →
          ((xmlContactStep g xmlPath acc el).run.graph.persons.map Prod.fst).Nodup) := by
      rw [xml_step_run]
      exact register_contact_keys g (xmlContactFields el) xmlPath.render acc.run
    obtain ⟨ha, hb, hc⟩ := ih (xmlContactStep g xmlPath acc el)
    refine ⟨?_, hb.trans hstep.2.1, fun h => hc (hstep.2.2 h)⟩
    rw [ha, hstep.1]
    show _ = xmlElemsAdd g (el :: rest) ∪ _
    simp only [xmlElemsAdd, List.foldr_cons]
    ext x
    simp only [Finset.mem_union]
    tauto

/-- `contactXmlPhase` on a single file, unfolded. -/
theorem contactXmlPhase_single (g : Bool) (e : PyStr) (f : ContactXmlFile)
    (ps : PhaseState) :
    contactXmlPhase g e [f] ps =
      match f.parse with
      | .ok elems =>
        let r := ingest_contacts_from_xml g (resolvePath e f.relPath) elems
          ps.contacts ps.run
        { ps with
          contacts := r.contacts
          run := r.run
          contacts_ingested := ps.contacts_ingested + r.ingested
          notes := ps.notes ++ [noteParsedContacts r.ingested f.relPath.render] }
      | .error err =>
        { ps with
          notes := ps.notes ++
            [noteFailedContactsXml (resolvePath e f.relPath).name err] } := by
  cases hp : f.parse <;> simp only [contactXmlPhase, List.foldl_cons, List.foldl_nil, hp]

/-- `contactXmlPhase` peels its first file. -/
theorem contactXmlPhase_cons (g : Bool) (e : PyStr) (f : ContactXmlFile)
    (rest : List ContactXmlFile) (ps : PhaseState) :
    contactXmlPhase g e (f :: rest) ps =
      contactXmlPhase g e rest (contactXmlPhase g e [f] ps) := by
  simp only [contactXmlPhase, List.foldl_cons, List.foldl_nil]

/-- Key-set effect of one file of the contacts-XML loop. -/
theorem contactXmlPhase_single_keys (g : Bool) (e : PyStr) (f : ContactXmlFile)
    (ps : PhaseState) :
    personKeyFinset (contactXmlPhase g e [f] ps).run.graph =
      xmlFileAdd g f ∪ personKeyFinset ps.run.graph ∧
    (contactXmlPhase g e [f] ps).run.graph.rels = ps.run.graph.rels ∧
    ((ps.run.graph.persons.map Prod.fst).Nodup →
      ((contactXmlPhase g e [f] ps).run.graph.persons.map Prod.fst).Nodup) := by
  rw [contactXmlPhase_single]
  cases hp : f.parse with
  | ok elems =>
    simp only [xmlFileAdd, hp]
    unfold ingest_contacts_from_xml
    have h := xml_elems_fold_keys g (resolvePath e f.relPath) elems ⟨ps.contacts, ps.run, 0⟩
    exact ⟨h.1, h.2.1, h.2.2⟩
  | error err =>
    simp only [xmlFileAdd, hp]
    exact ⟨by simp, by simp, by simp⟩

/-- Key-set effect of the whole contacts-XML loop. -/
theorem contactXmlPhase_graph_keys (g : Bool) (e : PyStr) :
    ∀ (files : List ContactXmlFile) (ps : PhaseState),
      personKeyFinset (contactXmlPhase g e files ps).run.graph =
        xmlFilesAdd g files ∪ personKeyFinset ps.run.graph ∧
      (contactXmlPhase g e files ps).run.graph.rels = ps.run.graph.rels ∧
      ((ps.run.graph.persons.map Prod.fst).Nodup →
        ((contactXmlPhase g e files ps).run.graph.persons.map Prod.fst).Nodup) := by
  intro files
  induction files with
  | nil =>
    intro ps
    exact ⟨by simp [contactXmlPhase, xmlFilesAdd], rfl, fun h => h⟩
  | cons f rest ih =>
    intro ps
    rw [contactXmlPhase_cons]
    have hstep := contactXmlPhase_single_keys g e f ps
    obtain ⟨ha, hb, hc⟩ := ih (contactXmlPhase g e [f] ps)
    refine ⟨?_, hb.trans hstep.2.1, fun h => hc (hstep.2.2 h)⟩
    rw [ha, hstep.1]
    show _ = xmlFilesAdd g (f :: rest) ∪ _
    simp only [xmlFilesAdd, List.foldr_cons]
    ext x
    simp only [Finset.mem_union]
    tauto

/-- The plist loop never touches the run-scoped graph state. -/
theorem plistPhase_run (e : PyStr) :
    ∀ (files : List PlistFile) (ps : PhaseState), (plistPhase e files ps).run = ps.run := by
  intro files
  induction files with
  | nil => intro ps; rfl
  | cons f rest ih =>
    intro ps
    have hcons : plistPhase e (f :: rest) ps = plistPhase e rest (plistPhase e [f] ps) := by
      simp only [plistPhase, List.foldl_cons, List.foldl_nil]
    rw [hcons, ih]
    cases hp : f.parse <;> simp only [plistPhase, List.foldl_cons, List.foldl_nil, hp]

/-- The embedding ids emitted by one message-row iteration. -/
theorem msg_row_step_emb (g : Bool) (dbPath : SrcPath) (t : PyStr) (acc : MsgIngestAcc)
    (row : SrcRow) :
    ((ingestMessageRowStep g dbPath t acc row).embeddings).map (fun r => r.vector_id) =
      acc.embeddings.map (fun r => r.vector_id) ++ rowMsgVecIds dbPath.name t row := by
  simp only [ingestMessageRowStep, rowMsgVecIds]
  rw [show (buildMsgRow dbPath t row).vector_id =
    messageVectorId (pick_first_value (rowPayload row) TEXT_FIELDS)
      (dbPath.name ++ pyStr ":" ++ t ++ pyStr ":" ++ natToChars row.rowid) from rfl]
  cases messageVectorId (pick_first_value (rowPayload row) TEXT_FIELDS)
    (dbPath.name ++ pyStr ":" ++ t ++ pyStr ":" ++ natToChars row.rowid) <;> simp

/-- The embedding ids emitted by the row loop over one message table. -/
theorem msg_table_fold_emb (g : Bool) (dbPath : SrcPath) (t : PyStr) :
    ∀ (rows : List SrcRow) (acc : MsgIngestAcc),
      (((rows.foldl (ingestMessageRowStep g dbPath t) acc).embeddings).map
          (fun r => r.vector_id)) =
        acc.embeddings.map (fun r => r.vector_id) ++ tableMsgVecIds dbPath.name t rows := by
  intro rows
  induction rows with
  | nil => intro acc; simp [tableMsgVecIds]
  | cons row rest ih =>
    intro acc
    simp only [List.foldl_cons]
    rw [ih, msg_row_step_emb]
    show _ = _ ++ tableMsgVecIds dbPath.name t (row :: rest)
    simp only [tableMsgVecIds, List.foldr_cons]
    rw [List.append_assoc]

/-- The embedding ids emitted by one table iteration of
`ingest_messages_from_sqlite`. -/
theorem msg_sqlite_step_emb (g : Bool) (dbPath : SrcPath) (acc : MsgIngestAcc)
    (t : DbTable) :
    ((msgSqliteStep g dbPath acc t).embeddings).map (fun r => r.vector_id) =
      acc.embeddings.map (fun r => r.vector_id) ++
        (if looks_like_message_table t.columns then tableMsgVecIds dbPath.name t.name t.rows
         else []) := by
  by_cases hm : looks_like_message_table t.columns = true
  · simp only [msgSqliteStep, if_pos hm]
    unfold ingest_messages_from_table
    rw [List.map_append, msg_table_fold_emb g dbPath t.name t.rows ⟨acc.messages, acc.run, 0, []⟩]
    simp
  · simp only [msgSqliteStep, if_neg hm]
    simp

/-- The embedding ids emitted by the table loop over one database. -/
theorem msg_db_fold_emb (g : Bool) (dbPath : SrcPath) :
    ∀ (tables : List DbTable) (acc : MsgIngestAcc),
      (((tables.foldl (msgSqliteStep g dbPath) acc).embeddings).map
          (fun r => r.vector_id)) =
        acc.embeddings.map (fun r => r.vector_id) ++ dbMsgVecIds dbPath.name tables := by
  intro tables
  induction tables with
  | nil => intro acc; simp [dbMsgVecIds]
  | cons tbl rest ih =>
    intro acc
    simp only [List.foldl_cons]
    rw [ih, msg_sqlite_step_emb]
    show _ = _ ++ dbMsgVecIds dbPath.name (tbl :: rest)
    simp only [dbMsgVecIds, List.foldr_cons]
    by_cases hm : looks_like_message_table tbl.columns = true
    · simp only [if_pos hm]
      rw [List.append_assoc]
    · simp only [if_neg hm]
      simp

/-- The embedding ids collected by one file of the message-database loop. -/
theorem messagesPhase_single_emb (g : Bool) (e : PyStr) (f : MsgDbFile) (ps : PhaseState) :
    ((messagesPhase g e [f] ps).msgEmbeddings).map (fun r => r.vector_id) =
      ps.msgEmbeddings.map (fun r => r.vector_id) ++ msgFileVecIds f := by
  rw [messagesPhase_single]
  cases hp : f.parse with
  | ok tables =>
    simp only [msgFileVecIds, hp]
    rw [List.map_append]
    unfold ingest_messages_from_sqlite
    rw [msg_db_fold_emb g (resolvePath e f.relPath) tables ⟨ps.messages, ps.run, 0, []⟩]
    simp only [List.map_nil, List.nil_append]
    rfl
  | error err =>
    simp only [msgFileVecIds, hp]
    simp

/-- The embedding ids collected by the whole message-database loop are
determined by the archive's files alone. -/
theorem messagesPhase_emb (g : Bool) (e : PyStr) :
    ∀ (files : List MsgDbFile) (ps : PhaseState),
      ((messagesPhase g e files ps).msgEmbeddings).map (fun r => r.vector_id) =
        ps.msgEmbeddings.map (fun r => r.vector_id) ++ msgFilesVecIds files := by
  intro files
  induction files with
  | nil => intro ps; simp [messagesPhase, msgFilesVecIds]
  | cons f rest ih =>
    intro ps
    rw [messagesPhase_cons, ih, messagesPhase_single_emb]
    show _ = _ ++ msgFilesVecIds (f :: rest)
    simp only [msgFilesVecIds, List.foldr_cons]
    rw [List.append_assoc]

/-- The contact-database loop never touches the message embeddings. -/
theorem contactDbsPhase_emb (g : Bool) (e : PyStr) :
    ∀ (files : List ContactDbFile) (ps : PhaseState),
      (contactDbsPhase g e files ps).msgEmbeddings = ps.msgEmbeddings := by
  intro files
  induction files with
  | nil => intro ps; rfl
  | cons f rest ih =>
    intro ps
    rw [contactDbsPhase_cons, ih, contactDbsPhase_single]
    cases hp : f.parse <;> rfl

/-- The contacts-XML loop never touches the message embeddings. -/
theorem contactXmlPhase_emb (g : Bool) (e : PyStr) :
    ∀ (files : List ContactXmlFile) (ps : PhaseState),
      (contactXmlPhase g e files ps).msgEmbeddings = ps.msgEmbeddings := by
  intro files
  induction files with
  | nil => intro ps; rfl
  | cons f rest ih =>
    intro ps
    rw [contactXmlPhase_cons, ih, contactXmlPhase_single]
    cases hp : f.parse <;> rfl

/-- The plist loop never touches the message embeddings. -/
theorem plistPhase_emb (e : PyStr) :
    ∀ (files : List PlistFile) (ps : PhaseState),
      (plistPhase e files ps).msgEmbeddings = ps.msgEmbeddings := by
  intro files
  induction files with
  | nil => intro ps; rfl
  | cons f rest ih =>
    intro ps
    have hcons : plistPhase e (f :: rest) ps = plistPhase e rest (plistPhase e [f] ps) := by
      simp only [plistPhase, List.foldl_cons, List.foldl_nil]
    rw [hcons, ih]
    cases hp : f.parse <;> simp only [plistPhase, List.foldl_cons, List.foldl_nil, hp]

/-- Membership in the message-key set of a vector store. -/
theorem mem_msgKeyFinset (vecs : List (PyStr × EmbeddingRecord)) (x : PyStr) :
    x ∈ msgKeyFinset vecs ↔ x ∈ vecs.map Prod.fst ∧ isMsgVecKey x = true := by
  unfold msgKeyFinset
  rw [List.mem_toFinset, List.mem_filter]

/-- A `msg:`-prefixed key is a message key. -/
theorem isMsgVecKey_msg (eid : PyStr) : isMsgVecKey (pyStr "msg:" ++ eid) = true := rfl

/-- An `img:`-prefixed key is not a message key. -/
theorem isMsgVecKey_img (s : PyStr) : isMsgVecKey (pyStr "img:" ++ s) = false := rfl

/-- Message-key effect of the Chroma upsert. -/
theorem vectorUpsert_msg_keys :
    ∀ (recs : List EmbeddingRecord) (store : List (PyStr × EmbeddingRecord)),
      msgKeyFinset (vectorUpsert store recs) =
        ((recs.map (fun r => r.vector_id)).filter (fun k => isMsgVecKey k)).toFinset ∪
          msgKeyFinset store := by
  intro recs
  induction recs with
  | nil => intro store; simp [vectorUpsert]
  | cons r rs ih =>
    intro store
    show msgKeyFinset (vectorUpsert (assocSet store r.vector_id r) rs) = _
    rw [ih]
    ext x
    simp only [Finset.mem_union, List.mem_toFinset, List.mem_filter, mem_msgKeyFinset,
      mem_assocSet_keys, List.map_cons, List.mem_cons]
    tauto

/-- The Chroma upsert preserves key uniqueness. -/
theorem vectorUpsert_keys_nodup :
    ∀ (recs : List EmbeddingRecord) (store : List (PyStr × EmbeddingRecord)),
      (store.map Prod.fst).Nodup → ((vectorUpsert store recs).map Prod.fst).Nodup := by
  intro recs
  induction recs with
  | nil => intro store h; exact h
  | cons r rs ih =>
    intro store h
    show ((vectorUpsert (assocSet store r.vector_id r) rs).map Prod.fst).Nodup
    exact ih _ (assocSet_keys_nodup store r.vector_id r h)

/-- The vector store produced by `runFinish`, expanded. -/
theorem runFinish_vectors (cfg : RunConfig) (n e : PyStr) (s : Stores)
    (imgs : List PyStr) (ps4 : PhaseState) :
    (runFinish cfg n e s imgs ps4).stores.vectors =
      if cfg.vectorEnabled ∧
          ps4.msgEmbeddings ++
            (if (log_image_inventory e imgs ps4.images).records ≠ [] then
              describe_and_index_images cfg.vision cfg.now
                (log_image_inventory e imgs ps4.images).records
                (log_image_inventory e imgs ps4.images).table
            else ⟨(log_image_inventory e imgs ps4.images).table, 0, []⟩).embeddings ≠ [] then
        vectorUpsert s.vectors
          (ps4.msgEmbeddings ++
            (if (log_image_inventory e imgs ps4.images).records ≠ [] then
              describe_and_index_images cfg.vision cfg.now
                (log_image_inventory e imgs ps4.images).records
                (log_image_inventory e imgs ps4.images).table
            else ⟨(log_image_inventory e imgs ps4.images).table, 0, []⟩).embeddings)
      else s.vectors := rfl

/-- `runFinish` stores the run-scoped graph unchanged. -/
theorem runFinish_graph (cfg : RunConfig) (n e : PyStr) (s : Stores)
    (imgs : List PyStr) (ps4 : PhaseState) :
    (runFinish cfg n e s imgs ps4).stores.graph = ps4.run.graph := rfl

/-- Message-key effect of `runFinish` on the vector store: exactly the
message embedding ids are added (image embeddings are `img:`-keyed), and
key uniqueness is preserved. -/
theorem runFinish_msg_keys (cfg : RunConfig) (n e : PyStr) (s : Stores)
    (imgs : List PyStr) (ps4 : PhaseState) :
    msgKeyFinset (runFinish cfg n e s imgs ps4).stores.vectors =
      (if cfg.vectorEnabled then
        ((ps4.msgEmbeddings.map (fun r => r.vector_id)).filter
          (fun k => isMsgVecKey k)).toFinset
       else ∅) ∪ msgKeyFinset s.vectors ∧
    ((s.vectors.map Prod.fst).Nodup →
      (((runFinish cfg n e s imgs ps4).stores.vectors.map Prod.fst).Nodup)) := by
  rw [runFinish_vectors]
  have himg : ∀ k ∈ ((if (log_image_inventory e imgs ps4.images).records ≠ [] then
        describe_and_index_images cfg.vision cfg.now
          (log_image_inventory e imgs ps4.images).records
          (log_image_inventory e imgs ps4.images).table
      else ⟨(log_image_inventory e imgs ps4.images).table, 0, []⟩).embeddings).map
        (fun r => r.vector_id), isMsgVecKey k = false := by
    by_cases hr : (log_image_inventory e imgs ps4.images).records ≠ []
    · rw [if_pos hr]
      intro k hk
      unfold describe_and_index_images at hk
      rw [captions_embedding_ids cfg.vision cfg.now
        (log_image_inventory e imgs ps4.images).records
        ⟨(log_image_inventory e imgs ps4.images).table, 0, []⟩] at hk
      simp only [List.map_nil, List.nil_append, List.mem_map] at hk
      obtain ⟨r, _, hkr⟩ := hk
      rw [← hkr]
      exact isMsgVecKey_img _
    · rw [if_neg hr]
      intro k hk
      simp at hk
  generalize hce : (if (log_image_inventory e imgs ps4.images).records ≠ [] then
      describe_and_index_images cfg.vision cfg.now
        (log_image_inventory e imgs ps4.images).records
        (log_image_inventory e imgs ps4.images).table
    else ⟨(log_image_inventory e imgs ps4.images).table, 0, []⟩).embeddings = capEmb at himg ⊢
  by_cases hv : cfg.vectorEnabled = true
  · by_cases hc : ps4.msgEmbeddings ++ capEmb = []
    · have hcond : ¬(cfg.vectorEnabled = true ∧ ps4.msgEmbeddings ++ capEmb ≠ []) := by
        simp [hc]
      rw [if_neg hcond]
      have hme : ps4.msgEmbeddings = [] := (List.append_eq_nil.mp hc).1
      constructor
      · rw [if_pos hv, hme]
        simp
      · exact fun h => h
    · have hcond : cfg.vectorEnabled = true ∧ ps4.msgEmbeddings ++ capEmb ≠ [] := ⟨hv, hc⟩
      rw [if_pos hcond]
      constructor
      · rw [vectorUpsert_msg_keys, if_pos hv]
        have hfilt : ((ps4.msgEmbeddings ++ capEmb).map (fun r => r.vector_id)).filter
            (fun k => isMsgVecKey k) =
            (ps4.msgEmbeddings.map (fun r => r.vector_id)).filter (fun k => isMsgVecKey k) := by
          rw [List.map_append, List.filter_append]
          rw [show (capEmb.map (fun r => r.vector_id)).filter (fun k => isMsgVecKey k) =
            [] from List.filter_eq_nil_iff.mpr (by
              intro k hk
              rw [himg k hk]
              simp)]
          simp
        rw [hfilt]
      · exact fun h => vectorUpsert_keys_nodup _ _ h
  · have hcond : ¬(cfg.vectorEnabled = true ∧ ps4.msgEmbeddings ++ capEmb ≠ []) := by
      simp [hv]
    rw [if_neg hcond, if_neg hv]
    exact ⟨by simp, fun h => h⟩

/-- Under unique keys, the person-key count is the person-row count. -/
theorem personKeyFinset_card (g : GraphDB) (h : (g.persons.map Prod.fst).Nodup) :
    (personKeyFinset g).card = g.persons.length := by
  unfold personKeyFinset
  rw [List.toFinset_card_of_nodup h, List.length_map]

/-- Under unique keys, the relationship-key count is the row count. -/
theorem relKeyFinset_card (g : GraphDB) (h : (g.rels.map Prod.fst).Nodup) :
    (relKeyFinset g).card = g.rels.length := by
  unfold relKeyFinset
  rw [List.toFinset_card_of_nodup h, List.length_map]

/-- Under unique keys, the message-key count is the count of
`msg:`-prefixed vector entries. -/
theorem msgKeyFinset_card (vecs : List (PyStr × EmbeddingRecord))
    (h : (vecs.map Prod.fst).Nodup) :
    (msgKeyFinset vecs).card =
      ((vecs.map Prod.fst).filter (fun k => isMsgVecKey k)).length := by
  unfold msgKeyFinset
  rw [List.toFinset_card_of_nodup (h.filter _)]

/-- The graph-key and message-vector-key effect of one orchestrator run:
the added key sets are functions of the archive alone — in particular
they do not depend on the extraction id — and key uniqueness of the
stores is preserved. -/
theorem runIngestion_keys (cfg : RunConfig) (a : Archive) (n e : PyStr) (s : Stores) :
    personKeyFinset (runIngestion cfg a n e s).stores.graph =
      xmlFilesAdd cfg.graphEnabled a.contact_xml_files ∪
        (contactFilesAdd cfg.graphEnabled a.contact_dbs ∪
          ((msgFilesGraphAdd cfg.graphEnabled a.msg_dbs).1 ∪ personKeyFinset s.graph)) ∧
    relKeyFinset (runIngestion cfg a n e s).stores.graph =
      (msgFilesGraphAdd cfg.graphEnabled a.msg_dbs).2 ∪ relKeyFinset s.graph ∧
    msgKeyFinset (runIngestion cfg a n e s).stores.vectors =
      (if cfg.vectorEnabled then
        ((msgFilesVecIds a.msg_dbs).filter (fun k => isMsgVecKey k)).toFinset else ∅) ∪
        msgKeyFinset s.vectors ∧
    ((s.graph.persons.map Prod.fst).Nodup →
      (((runIngestion cfg a n e s).stores.graph.persons.map Prod.fst).Nodup)) ∧
    ((s.graph.rels.map Prod.fst).Nodup →
      (((runIngestion cfg a n e s).stores.graph.rels.map Prod.fst).Nodup)) ∧
    ((s.vectors.map Prod.fst).Nodup →
      (((runIngestion cfg a n e s).stores.vectors.map Prod.fst).Nodup)) := by
  set X0 : PhaseState := ⟨s.messages, s.contacts, s.system_info, s.images,
    ⟨s.graph, GraphStats.init, [], []⟩,
    (if a.msg_dbs.isEmpty && a.contact_dbs.isEmpty then
      [pyStr "No obvious message or contact databases were discovered. Review the extraction manually."]
     else []), 0, 0, 0, []⟩ with hX0
  have hrun : runIngestion cfg a n e s = runFinish cfg n e s a.image_files
      (plistPhase e a.system_plists
        (contactXmlPhase cfg.graphEnabled e a.contact_xml_files
          (contactDbsPhase cfg.graphEnabled e a.contact_dbs
            (messagesPhase cfg.graphEnabled e a.msg_dbs X0)))) := by
    rw [hX0]
    rfl
  have hX0run : X0.run.graph = s.graph := by rw [hX0]
  have hX0emb : X0.msgEmbeddings = [] := by rw [hX0]
  have hmsg := messagesPhase_graph_keys cfg.graphEnabled e a.msg_dbs X0
  have hcdb := contactDbsPhase_graph_keys cfg.graphEnabled e a.contact_dbs
    (messagesPhase cfg.graphEnabled e a.msg_dbs X0)
  have hxml := contactXmlPhase_graph_keys cfg.graphEnabled e a.contact_xml_files
    (contactDbsPhase cfg.graphEnabled e a.contact_dbs
      (messagesPhase cfg.graphEnabled e a.msg_dbs X0))
  have hrels1 : relKeyFinset (contactXmlPhase cfg.graphEnabled e a.contact_xml_files
      (contactDbsPhase cfg.graphEnabled e a.contact_dbs
        (messagesPhase cfg.graphEnabled e a.msg_dbs X0))).run.graph =
      relKeyFinset (contactDbsPhase cfg.graphEnabled e a.contact_dbs
        (messagesPhase cfg.graphEnabled e a.msg_dbs X0)).run.graph := by
    unfold relKeyFinset
    rw [hxml.2.1]
  have hrels2 : relKeyFinset (contactDbsPhase cfg.graphEnabled e a.contact_dbs
      (messagesPhase cfg.graphEnabled e a.msg_dbs X0)).run.graph =
      relKeyFinset (messagesPhase cfg.graphEnabled e a.msg_dbs X0).run.graph := by
    unfold relKeyFinset
    rw [hcdb.2.1]
  have hfin := runFinish_msg_keys cfg n e s a.image_files
    (plistPhase e a.system_plists
      (contactXmlPhase cfg.graphEnabled e a.contact_xml_files
        (contactDbsPhase cfg.graphEnabled e a.contact_dbs
          (messagesPhase cfg.graphEnabled e a.msg_dbs X0))))
  refine ⟨?_, ?_, ?_, ?_, ?_, ?_⟩
  · rw [hrun, runFinish_graph, plistPhase_run, hxml.1, hcdb.1, hmsg.1, hX0run]
  · rw [hrun, runFinish_graph, plistPhase_run, hrels1, hrels2, hmsg.2.1]
  · rw [hrun, hfin.1]
    rw [plistPhase_emb e a.system_plists, contactXmlPhase_emb cfg.graphEnabled e
      a.contact_xml_files, contactDbsPhase_emb cfg.graphEnabled e a.contact_dbs]
    rw [messagesPhase_emb cfg.graphEnabled e a.msg_dbs X0, hX0emb]
    simp only [List.map_nil, List.nil_append]
  · intro h
    rw [hrun, runFinish_graph, plistPhase_run]
    refine hxml.2.2 (hcdb.2.2 (hmsg.2.2.1 ?_))
    rw [hX0run]
    exact h
  · intro h
    rw [hrun, runFinish_graph, plistPhase_run]
    have hgoal : ((contactXmlPhase cfg.graphEnabled e a.contact_xml_files
        (contactDbsPhase cfg.graphEnabled e a.contact_dbs
          (messagesPhase cfg.graphEnabled e a.msg_dbs X0))).run.graph.rels.map
        Prod.fst).Nodup := by
      rw [hxml.2.1, hcdb.2.1]
      refine hmsg.2.2.2 ?_
      rw [hX0run]
      exact h
    exact hgoal
  · intro h
    rw [hrun]
    exact hfin.2 h

/-! ## Claim C1: re-ingestion of an identical archive -/

/-- A run configuration with graph, vectors and a succeeding vision
collaborator enabled. -/
def c1Cfg : RunConfig :=
  ⟨true, true, fun _ => VisionOutcome.ok ⟨pyStr "a photo", [], none⟩,
   pyStr "2024-01-01T00:00:00+00:00"⟩

/-- An archive holding a single image and no databases. -/
def c1Archive : Archive := ⟨[], [], [], [], [pyStr "DCIM/a.jpg"]⟩

/-- The first ingestion of the archive into fresh stores. -/
def c1Run1 : RunOutcome :=
  runIngestion c1Cfg c1Archive (pyStr "a.ufdr") (pyStr "e1") Stores.empty

/-- The second ingestion of the identical archive. -/
def c1Run2 : RunOutcome :=
  runIngestion c1Cfg c1Archive (pyStr "a.ufdr") (pyStr "e2") c1Run1.stores

set_option maxHeartbeats 4000000 in
/-- C1's claim that image rows and vector entries are keyed by a stable
identity is refuted by the code: an image's ledger key is its absolute
path inside the per-upload extraction directory (`persist_upload` creates
a fresh uuid directory per upload), so re-ingesting the identical
archive inserts a second image row and a second `img:`-keyed vector
entry. -/
theorem c1_image_rows_counterexample :
    c1Run1.stores.images.rows.length = 1 ∧ c1Run2.stores.images.rows.length = 2 ∧
    c1Run1.stores.vectors.length = 1 ∧ c1Run2.stores.vectors.length = 2 := by
  decide

set_option maxHeartbeats 2000000 in
/-- C1 (amended): re-ingesting an identical archive preserves the graph
person-key set and count, the graph relationship-key set and count, and
the set and count of `msg:`-keyed vector entries — these identities are
built from basenames, row content and message external ids, which do not
change across uploads.  (Image rows and `img:`-keyed vector entries are
NOT stable: their identity embeds the per-upload extraction directory,
and bodiless-message rows and contact rows are duplicated as the spec
allows.) -/
theorem c1_reingestion_amended (cfg : RunConfig) (a : Archive) (n e1 e2 : PyStr)
    (s : Stores)
    (hp : (s.graph.persons.map Prod.fst).Nodup)
    (hr : (s.graph.rels.map Prod.fst).Nodup)
    (hv : (s.vectors.map Prod.fst).Nodup) :
    personKeyFinset
        (runIngestion cfg a n e2 (runIngestion cfg a n e1 s).stores).stores.graph =
      personKeyFinset (runIngestion cfg a n e1 s).stores.graph ∧
    (runIngestion cfg a n e2 (runIngestion cfg a n e1 s).stores).stores.graph.persons.length =
      (runIngestion cfg a n e1 s).stores.graph.persons.length ∧
    relKeyFinset
        (runIngestion cfg a n e2 (runIngestion cfg a n e1 s).stores).stores.graph =
      relKeyFinset (runIngestion cfg a n e1 s).stores.graph ∧
    (runIngestion cfg a n e2 (runIngestion cfg a n e1 s).stores).stores.graph.rels.length =
      (runIngestion cfg a n e1 s).stores.graph.rels.length ∧
    msgKeyFinset
        (runIngestion cfg a n e2 (runIngestion cfg a n e1 s).stores).stores.vectors =
      msgKeyFinset (runIngestion cfg a n e1 s).stores.vectors ∧
    (((runIngestion cfg a n e2 (runIngestion cfg a n e1 s).stores).stores.vectors.map
        Prod.fst).filter (fun k => isMsgVecKey k)).length =
      (((runIngestion cfg a n e1 s).stores.vectors.map Prod.fst).filter
        (fun k => isMsgVecKey k)).length := by
  have h1 := runIngestion_keys cfg a n e1 s
  have h2 := runIngestion_keys cfg a n e2 (runIngestion cfg a n e1 s).stores
  have hp1 := h1.2.2.2.1 hp
  have hr1 := h1.2.2.2.2.1 hr
  have hv1 := h1.2.2.2.2.2 hv
  have hp2 := h2.2.2.2.1 hp1
  have hr2 := h2.2.2.2.2.1 hr1
  have hv2 := h2.2.2.2.2.2 hv1
  have hPK : personKeyFinset
      (runIngestion cfg a n e2 (runIngestion cfg a n e1 s).stores).stores.graph =
      personKeyFinset (runIngestion cfg a n e1 s).stores.graph := by
    rw [h2.1, h1.1]
    ext x
    simp only [Finset.mem_union]
    tauto
  have hRK : relKeyFinset
      (runIngestion cfg a n e2 (runIngestion cfg a n e1 s).stores).stores.graph =
      relKeyFinset (runIngestion cfg a n e1 s).stores.graph := by
    rw [h2.2.1, h1.2.1]
    ext x
    simp only [Finset.mem_union]
    tauto
  have hVK : msgKeyFinset
      (runIngestion cfg a n e2 (runIngestion cfg a n e1 s).stores).stores.vectors =
      msgKeyFinset (runIngestion cfg a n e1 s).stores.vectors := by
    rw [h2.2.2.1, h1.2.2.1]
    ext x
    simp only [Finset.mem_union]
    tauto
  refine ⟨hPK, ?_, hRK, ?_, hVK, ?_⟩
  · rw [← personKeyFinset_card _ hp2, ← personKeyFinset_card _ hp1, hPK]
  · rw [← relKeyFinset_card _ hr2, ← relKeyFinset_card _ hr1, hRK]
  · rw [← msgKeyFinset_card _ hv2, ← msgKeyFinset_card _ hv1, hVK]

set_option maxHeartbeats 4000000 in
/-- C1 (amended), witnessed on the one-image archive ingested twice from
fresh stores. -/
theorem c1_reingestion_amended_witness :
    personKeyFinset c1Run2.stores.graph = personKeyFinset c1Run1.stores.graph ∧
    c1Run2.stores.graph.persons.length = c1Run1.stores.graph.persons.length ∧
    relKeyFinset c1Run2.stores.graph = relKeyFinset c1Run1.stores.graph ∧
    c1Run2.stores.graph.rels.length = c1Run1.stores.graph.rels.length ∧
    msgKeyFinset c1Run2.stores.vectors = msgKeyFinset c1Run1.stores.vectors ∧
    ((c1Run2.stores.vectors.map Prod.fst).filter (fun k => isMsgVecKey k)).length =
      ((c1Run1.stores.vectors.map Prod.fst).filter (fun k => isMsgVecKey k)).length :=
  c1_reingestion_amended c1Cfg c1Archive (pyStr "a.ufdr") (pyStr "e1") (pyStr "e2")
    Stores.empty (by decide) (by decide) (by decide)

end UFDR
